import Mathlib

/-!
# FabiWare: keystring store, button bindings and command dispatch

A shallow embedding of `src/FabiWare/buttons.cpp` and `src/FabiWare/commands.cpp`.

* Memory is explicit: the arena `keystringBuffer` is a list of bytes, the pointer
  table `buttonKeystrings` a list of offsets into the arena.  Every access outside
  the arena is undefined behaviour in C; the embedding returns `none` for it.
* Machine integers are `Nat`/`Int` with explicit reduction modulo `2^16`
  (`uint16_t`) and `2^32` (`size_t` on the 32-bit target, see `infrared.h`).
* Calls into collaborators that are not part of the sources (`mousePress`,
  `pressKeys`, `parseCommand`, ...) are recorded as `Effect`s, in call order.
-/

namespace FabiWare

/-! ## Constants of `FlipWare.h` (not part of the sources: parameters) -/

/-- Compile-time constants that the sources use but do not define. -/
structure Config where
  NUMBER_OF_BUTTONS : Nat
  MAX_KEYSTRINGBUFFER_LEN : Nat
  MAX_KEYSTRING_LEN : Nat
  MAX_NAME_LEN : Nat
  DEFAULT_DEBOUNCING_TIME : Nat
  DEFAULT_CLICK_TIME : Nat
  CALIBRATION_PERIOD : Nat
  deriving DecidableEq, Repr

/-! ## C strings and the arena -/

/-- Contents of a C string given by the bytes at its address: everything before
the first null byte. -/
def cstr (bytes : List Nat) : List Nat :=
  bytes.takeWhile (fun c => c != 0)

/-- A `char*` value as the code sees it: `NULL`, a pointer into the arena
`keystringBuffer` (such as `buttonKeystrings[i]`), or a string stored elsewhere,
given by the bytes at its address. -/
inductive CharPtr where
  | null : CharPtr
  | arena (offset : Nat) : CharPtr
  | other (bytes : List Nat) : CharPtr
  deriving DecidableEq, Repr

/-- Loop `while (*x++) ;` over the arena, started at `x`: the result is the offset
just behind the first null byte at or after `x`.  Reading outside the arena gives
`none`.  `fuel` bounds the number of iterations. -/
def skipString (buf : List Nat) : Nat → Nat → Option Nat
  | 0, _ => none
  | fuel + 1, x =>
    match buf[x]? with
    | none => none
    | some c => if c != 0 then skipString buf fuel (x + 1) else some (x + 1)

/-- Library `strlen` on an arena address. -/
def strlenAt (buf : List Nat) : Nat → Nat → Option Nat
  | 0, _ => none
  | fuel + 1, p =>
    match buf[p]? with
    | none => none
    | some c => if c != 0 then (strlenAt buf fuel (p + 1)).map (· + 1) else some 0

/-- The C string stored in the arena at offset `p` (`none` when no terminator
follows inside the arena). -/
def stringAt (buf : List Nat) (p : Nat) : Option (List Nat) :=
  if 0 ∈ buf.drop p then some (cstr (buf.drop p)) else none

/-- Library `memmove(buf + target, buf + source, n)` inside the arena. -/
def memmove (buf : List Nat) (target source n : Nat) : Option (List Nat) :=
  if source + n ≤ buf.length ∧ target + n ≤ buf.length then
    some (buf.take target ++ (buf.drop source).take n ++ buf.drop (target + n))
  else none

/-- Write `bytes` into the arena starting at offset `dest`. -/
def writeBytes (buf : List Nat) (dest : Nat) (bytes : List Nat) : Option (List Nat) :=
  if dest + bytes.length ≤ buf.length then
    some (buf.take dest ++ bytes ++ buf.drop (dest + bytes.length))
  else none

/-- Conversion of a 32-bit unsigned result to `int` (two's complement). -/
def toInt32 (x : Int) : Int :=
  (x + 2147483648) % 4294967296 - 2147483648

/-! ## Global state of the two modules -/

/-- Entry of `buttons[]`: `struct slotButtonSettings`. -/
structure slotButtonSettings where
  mode : Nat
  value : Int
  deriving DecidableEq, Repr

/-- Entry of `buttonDebouncers[]`: `struct buttonDebouncerType`. -/
structure buttonDebouncerType where
  bounceCount : Nat
  bounceState : Nat
  stableState : Nat
  longPressed : Nat
  timestamp : Nat
  deriving DecidableEq, Repr

/-- The fields of `struct SlotSettings` that the two modules touch.
`keystringBufferLen` is a `uint16_t`. -/
structure SlotSettings where
  slotName : List Nat
  keystringBufferLen : Nat
  kbdLayout : List Nat
  ws : Int
  lp : Int
  dp : Int
  ts : Int
  tp : Int
  sp : Int
  ss : Int
  sc : Int
  bt : Int
  deriving DecidableEq, Repr

/-- All mutable globals read or written by `buttons.cpp` and `commands.cpp`.
`buttonKeystrings[i]` is stored as the offset of the pointer into the arena;
`actButton` is the function-local `static` of `performCommand`. -/
structure State where
  buttons : List slotButtonSettings
  buttonKeystrings : List Nat
  keystringBuffer : List Nat
  buttonDebouncers : List buttonDebouncerType
  buttonStates : Nat
  slotSettings : SlotSettings
  actButton : Nat
  reportRawValues : Nat
  calib_now : Nat
  deriving DecidableEq, Repr

/-! ## `buttons.cpp`: the keystring store -/

/-- Loop `while (keystringBuffer[slotSettings.keystringBufferLen++]) ;` of
`initButtonKeystrings`; the counter is a `uint16_t`. -/
def scanLen (buf : List Nat) : Nat → Nat → Option Nat
  | 0, _ => none
  | fuel + 1, len =>
    match buf[len]? with
    | none => none
    | some c =>
      if c != 0 then scanLen buf fuel ((len + 1) % 65536) else some ((len + 1) % 65536)

/-- Body of the `for` loop of `initButtonKeystrings`, for `k` remaining
iterations starting at index `i`. -/
def initButtonKeystringsLoop (buf : List Nat) : Nat → Nat → Nat → List Nat → Option (List Nat × Nat)
  | 0, _, len, tbl => some (tbl, len)
  | k + 1, i, len, tbl =>
    match scanLen buf buf.length len with
    | none => none
    | some len1 => initButtonKeystringsLoop buf k (i + 1) len1 (tbl.set i len)

/-- Source function `initButtonKeystrings`. -/
def initButtonKeystrings (cfg : Config) (s : State) : Option State :=
  match initButtonKeystringsLoop s.keystringBuffer cfg.NUMBER_OF_BUTTONS 0 0 s.buttonKeystrings with
  | none => none
  | some (tbl, len) =>
    some { s with buttonKeystrings := tbl,
                  slotSettings := { s.slotSettings with keystringBufferLen := len } }

/-- Source function `getButtonKeystring`: the offset reached after skipping `num`
strings from the start of the arena. -/
def getButtonKeystring (buf : List Nat) : Nat → Option Nat
  | 0 => some 0
  | num + 1 =>
    match getButtonKeystring buf num with
    | none => none
    | some str =>
      match buf[str]? with
      | none => none
      | some c => if c != 0 then skipString buf buf.length str else some (str + 1)

/-- Library `strlen` applied to a `char*` argument. -/
def strlenPtr (buf : List Nat) : CharPtr → Option Nat
  | .null => none
  | .arena p => strlenAt buf buf.length p
  | .other bytes => some (cstr bytes).length

/-- Library `strcpy(keystringBuffer + dest, src)`.  Copying between overlapping
objects is undefined. -/
def strcpy (buf : List Nat) (dest : Nat) : CharPtr → Option (List Nat)
  | .null => none
  | .other bytes => writeBytes buf dest (cstr bytes ++ [0])
  | .arena p =>
    match stringAt buf p with
    | none => none
    | some str =>
      if p + str.length + 1 ≤ dest ∨ dest + str.length + 1 ≤ p then
        writeBytes buf dest (str ++ [0])
      else none

/-- Pointer-update loop at the end of `setButtonKeystring`, for `k` remaining
iterations starting at index `i` with scan position `x`. -/
def updateKeystringPointers (buf : List Nat) : Nat → Nat → Nat → List Nat → Option (List Nat)
  | 0, _, _, tbl => some tbl
  | k + 1, i, x, tbl =>
    match buf[x]? with
    | none => none
    | some c =>
      if c != 0 then
        match skipString buf buf.length x with
        | none => none
        | some x1 => updateKeystringPointers buf k (i + 1) x1 (tbl.set i x)
      else updateKeystringPointers buf k (i + 1) (x + 1) tbl

/-- The locals of `setButtonKeystring` (lines 70 to 80 of `buttons.cpp`). -/
structure KeystringMove where
  keystringAddress : Nat
  oldKeyStringLen : Nat
  sourceAddress : Nat
  newLen : Nat
  bytesToMove : Nat
  delta : Int
  targetAddress : Int
  deriving DecidableEq, Repr

/-- Computation of the locals of `setButtonKeystring`; `newLen` is
`strlen(newKeystring)`, `bytesToMove` a `uint16_t`, `delta` an `int`. -/
def keystringMove (s : State) (buttonIndex : Nat) (newKeystring : CharPtr) : Option KeystringMove :=
  let buf := s.keystringBuffer
  match getButtonKeystring buf buttonIndex with
  | none => none
  | some keystringAddress =>
  match strlenAt buf buf.length keystringAddress with
  | none => none
  | some oldKeyStringLen =>
  match strlenPtr buf newKeystring with
  | none => none
  | some newLen =>
    let sourceAddress := keystringAddress + oldKeyStringLen + 1
    let delta : Int := toInt32 ((newLen : Int) - oldKeyStringLen)
    some { keystringAddress := keystringAddress
           oldKeyStringLen := oldKeyStringLen
           sourceAddress := sourceAddress
           newLen := newLen
           bytesToMove := (((s.slotSettings.keystringBufferLen : Int) - sourceAddress) % 65536).toNat
           delta := delta
           targetAddress := sourceAddress + delta }

/-- The test of line 75, evaluated in `size_t` arithmetic:
`keystringBufferLen - oldKeyStringLen + strlen(newKeystring) >= MAX_KEYSTRINGBUFFER_LEN - 1`. -/
def doesNotFit (cfg : Config) (s : State) (m : KeystringMove) : Prop :=
  ((s.slotSettings.keystringBufferLen : Int) - m.oldKeyStringLen + m.newLen) % 4294967296
      ≥ ((cfg.MAX_KEYSTRINGBUFFER_LEN : Int) - 1) % 4294967296

instance (cfg : Config) (s : State) (m : KeystringMove) : Decidable (doesNotFit cfg s m) := by
  unfold doesNotFit; infer_instance

/-- Source function `setButtonKeystring` (`buttonIndex` is a `uint8_t`).  Returns
the new state and the `uint16_t` return value. -/
def setButtonKeystring (cfg : Config) (s : State) (buttonIndex : Nat) (newKeystring : CharPtr) :
    Option (State × Nat) :=
  match keystringMove s buttonIndex newKeystring with
  | none => none
  | some m =>
  if doesNotFit cfg s m then
    some (s, 0)
  else
    let moved : Option (List Nat) :=
      if m.delta ≠ 0 then
        if m.targetAddress < 0 then none
        else memmove s.keystringBuffer m.targetAddress.toNat m.sourceAddress m.bytesToMove
      else some s.keystringBuffer
    match moved with
    | none => none
    | some buf1 =>
    match strcpy buf1 m.keystringAddress newKeystring with
    | none => none
    | some buf2 =>
    match updateKeystringPointers buf2 cfg.NUMBER_OF_BUTTONS 0 0 s.buttonKeystrings with
    | none => none
    | some tbl =>
      let len1 := (((s.slotSettings.keystringBufferLen : Int) + m.delta) % 65536).toNat
      some ({ s with keystringBuffer := buf2, buttonKeystrings := tbl,
                     slotSettings := { s.slotSettings with keystringBufferLen := len1 } },
            (((cfg.MAX_KEYSTRINGBUFFER_LEN : Int) - len1) % 65536).toNat)

/-! ## `commands.h`: the command codes -/

/-- The enumeration `atCommands` of `commands.h`, in declaration order (`NUM_COMMANDS`,
the count, is not a command). -/
inductive atCommands where
  | CMD_ID | CMD_BM | CMD_CL | CMD_CR | CMD_CM | CMD_CD | CMD_PL | CMD_PR | CMD_PM | CMD_HL
  | CMD_HR | CMD_HM | CMD_RL | CMD_RR | CMD_RM | CMD_TL | CMD_TR | CMD_TM | CMD_WU | CMD_WD
  | CMD_WS | CMD_MX | CMD_MY | CMD_JX | CMD_JY | CMD_JZ | CMD_JT | CMD_JS | CMD_JP | CMD_JR
  | CMD_JH | CMD_KW | CMD_KP | CMD_KH | CMD_KT | CMD_KR | CMD_RA | CMD_KL | CMD_LP | CMD_DP
  | CMD_SA | CMD_LO | CMD_LA | CMD_LI | CMD_NE | CMD_DE | CMD_RS | CMD_RE | CMD_NC | CMD_BT
  | CMD_SC | CMD_SR | CMD_ER | CMD_CA | CMD_MA | CMD_WA | CMD_TS | CMD_TP | CMD_SP | CMD_SS
  | CMD_IR | CMD_IP | CMD_IH | CMD_IS | CMD_IC | CMD_IW | CMD_IL | CMD_IT
  deriving DecidableEq, Repr

/-- All command identifiers in the order of the enumeration. -/
def atCommands.all : List atCommands :=
  [.CMD_ID, .CMD_BM, .CMD_CL, .CMD_CR, .CMD_CM, .CMD_CD, .CMD_PL, .CMD_PR, .CMD_PM, .CMD_HL,
   .CMD_HR, .CMD_HM, .CMD_RL, .CMD_RR, .CMD_RM, .CMD_TL, .CMD_TR, .CMD_TM, .CMD_WU, .CMD_WD,
   .CMD_WS, .CMD_MX, .CMD_MY, .CMD_JX, .CMD_JY, .CMD_JZ, .CMD_JT, .CMD_JS, .CMD_JP, .CMD_JR,
   .CMD_JH, .CMD_KW, .CMD_KP, .CMD_KH, .CMD_KT, .CMD_KR, .CMD_RA, .CMD_KL, .CMD_LP, .CMD_DP,
   .CMD_SA, .CMD_LO, .CMD_LA, .CMD_LI, .CMD_NE, .CMD_DE, .CMD_RS, .CMD_RE, .CMD_NC, .CMD_BT,
   .CMD_SC, .CMD_SR, .CMD_ER, .CMD_CA, .CMD_MA, .CMD_WA, .CMD_TS, .CMD_TP, .CMD_SP, .CMD_SS,
   .CMD_IR, .CMD_IP, .CMD_IH, .CMD_IS, .CMD_IC, .CMD_IW, .CMD_IL, .CMD_IT]

/-- Numeric value of an enumerator. -/
def atCommands.code (c : atCommands) : Nat :=
  atCommands.all.indexOf c

/-- The enumerator with a given numeric value, if any. -/
def atCommands.ofCode (n : Nat) : Option atCommands :=
  atCommands.all[n]?

/-! ## Collaborators and effects -/

/-- Mouse button identifiers passed to the HID layer. -/
inductive MouseButton where
  | MOUSE_LEFT | MOUSE_RIGHT | MOUSE_MIDDLE
  deriving DecidableEq, Repr

/-- Tone identifiers passed to `makeTone`. -/
inductive Tone where
  | TONE_INDICATE_PUFF | TONE_CALIB
  deriving DecidableEq, Repr

/-- A call into a collaborator that is not part of the two modules, with its
arguments.  `performCommand` emits these in call order. -/
inductive Effect where
  | serialPrint (text : String)
  | serialPrintln (text : String)
  | mousePress (b : MouseButton)
  | mouseRelease (b : MouseButton)
  | mouseToggle (b : MouseButton)
  | mouseScroll (steps : Int)
  | mouseMove (x y : Int)
  | delay (ms : Int)
  | joystickAxis (a b c : Int)
  | joystickButton (nr state : Int)
  | joystickHat (v : Int)
  | keyboardPrint (ks : CharPtr)
  | pressKeys (ks : CharPtr)
  | holdKeys (ks : CharPtr)
  | toggleKeys (ks : CharPtr)
  | releaseKeys (ks : CharPtr)
  | setKeyboardLayout (ks : CharPtr)
  | printKeyboardLayout
  | release_all
  | saveToEEPROM (name : CharPtr)
  | readFromEEPROM (name : CharPtr)
  | deleteSlot (name : CharPtr)
  | printAllSlots
  | listSlots
  | displayUpdate
  | makeTone (kind : Tone) (par : Int)
  | initBlink (count time : Int)
  | watchdog_reboot (a b c : Int)
  | parseCommand (text : List Nat)
  | record_IR_command (name : CharPtr)
  | play_IR_command (name : CharPtr)
  | hold_IR_command (name : CharPtr)
  | stop_IR_command
  | list_IR_commands
  | delete_IR_command (name : CharPtr)
  | set_IR_timeout (ms : Int)
  | wipe_IR_commands
  deriving Repr

/-- What the collaborators answer and how the persistence layer changes the
globals.  None of this code is part of the sources: it is a parameter. -/
structure Collaborators where
  moduleName : String
  VERSION_STRING : String
  defaultSlotSettings : SlotSettings
  setKeyboardLayout : CharPtr → State → Bool
  saveToEEPROM : CharPtr → State → Bool
  readFromEEPROM : CharPtr → State → Bool × State
  deleteSlot : CharPtr → State → Bool
  delete_IR_command : CharPtr → State → Bool
  strtol : List Nat → Int

/-- The string a `char*` points to (`none` for `NULL` or a missing terminator). -/
def resolve (buf : List Nat) : CharPtr → Option (List Nat)
  | .null => none
  | .arena p => stringAt buf p
  | .other bytes => some (cstr bytes)

/-- Comparison of a `size_t` with an `int` expression: both sides are taken
modulo `2^32`. -/
def ltSizeT (a : Nat) (b : Int) : Prop :=
  (a : Int) % 4294967296 < b % 4294967296

instance (a : Nat) (b : Int) : Decidable (ltSizeT a b) := by
  unfold ltSizeT; infer_instance

/-- Assignment to the fields of `buttons[i]`; `none` outside the array. -/
def assignButton (buttons : List slotButtonSettings) (i : Nat)
    (f : slotButtonSettings → slotButtonSettings) : Option (List slotButtonSettings) :=
  match buttons[i]? with
  | none => none
  | some b => some (buttons.set i (f b))

/-- The bytes of a string literal. -/
def bytesOf (text : String) : List Nat :=
  text.toList.map Char.toNat

/-! ## `buttons.cpp`: default bindings -/

/-- Source function `initButtons`.  The return values of `setButtonKeystring` are
not inspected. -/
def initButtons (cfg : Config) (s : State) : Option State :=
  match initButtonKeystrings cfg s with
  | none => none
  | some s0 =>
  let s1 := { s0 with buttons := s0.buttons.map (fun _ => ⟨atCommands.CMD_NC.code, 0⟩) }
  match assignButton s1.buttons 0 (fun b => { b with mode := atCommands.CMD_KP.code }) with
  | none => none
  | some b0 =>
  match setButtonKeystring cfg { s1 with buttons := b0 } 0 (.other (bytesOf "KEY_SPACE ")) with
  | none => none
  | some (s2, _) =>
  match assignButton s2.buttons 1 (fun b => { b with mode := atCommands.CMD_KP.code }) with
  | none => none
  | some b1 =>
  match setButtonKeystring cfg { s2 with buttons := b1 } 1 (.other (bytesOf "KEY_ENTER ")) with
  | none => none
  | some (s3, _) =>
  match assignButton s3.buttons 2 (fun b => { b with mode := atCommands.CMD_CL.code }) with
  | none => none
  | some b2 =>
  match assignButton b2 3 (fun b => { b with mode := atCommands.CMD_KP.code }) with
  | none => none
  | some b3 =>
  match setButtonKeystring cfg { s3 with buttons := b3 } 3 (.other (bytesOf "KEY_LEFT ")) with
  | none => none
  | some (s4, _) =>
  match assignButton s4.buttons 4 (fun b => { b with mode := atCommands.CMD_KP.code }) with
  | none => none
  | some b4 =>
  match setButtonKeystring cfg { s4 with buttons := b4 } 4 (.other (bytesOf "KEY_RIGHT ")) with
  | none => none
  | some (s5, _) => some s5

/-! ## `commands.cpp`: the macro splitter of `CMD_MA` -/

/-- Inner loop of the `CMD_MA` case: copies characters of the macro text `p` into
`current` until an unescaped `;`, the end of the text or the length limit.  `current`
holds the characters written since `len` (a `uint8_t`) was last zero.  Returns
`current` and the rest of the text. -/
def macroCopy (cfg : Config) : List Nat → List Nat → Bool → List Nat × List Nat
  | [], current, _ => (current, [])
  | c :: p, current, backslash =>
    if (c ≠ 59 ∨ backslash = true) ∧ (current.length : Int) < (cfg.MAX_KEYSTRING_LEN : Int) - 1 then
      if c = 92 ∧ backslash = false then macroCopy cfg p current true
      else
        macroCopy cfg p (if current.length + 1 = 256 then [] else current ++ [c]) false
    else (current, c :: p)

/-- Outer loop of the `CMD_MA` case: the texts handed to `parseCommand`, in order. -/
def macroLoop (cfg : Config) : Nat → List Nat → List (List Nat)
  | 0, _ => []
  | _, [] => []
  | fuel + 1, c :: p =>
    let r := macroCopy cfg (c :: p) [] false
    r.1 :: macroLoop cfg fuel (r.2.drop 1)

/-- The outer loop of the `CMD_MA` case run for at most `fuel` iterations: `none`
when the iterations are used up before the end of the text is reached. -/
def macroRun (cfg : Config) : Nat → List Nat → Option (List (List Nat))
  | _, [] => some []
  | 0, _ :: _ => none
  | fuel + 1, c :: p =>
    let r := macroCopy cfg (c :: p) [] false
    (macroRun cfg fuel (r.2.drop 1)).map (fun calls => r.1 :: calls)

/-! ## `commands.cpp`: `performCommand` -/

/-- The `switch (cmd)` of `performCommand` for a recognised command code, outside
programming mode.  `DEBUG_OUTPUT_FULL` is not defined.  The result is the new state
and the collaborator calls in call order; `none` is undefined behaviour.  The
commands that `parseCommand` runs for a macro are not followed: the call itself is
the effect.  After `CMD_RE` the device reboots; the model stops at the reboot call. -/
def dispatch (env : Collaborators) (cfg : Config) (s : State) (par1 : Int) (keystring : CharPtr) :
    atCommands → Option (State × List Effect)
  | .CMD_ID =>
    some (s, [.serialPrint env.moduleName, .serialPrint " ", .serialPrintln env.VERSION_STRING])
  | .CMD_BM =>
    if par1 > 0 ∧ par1 ≤ (cfg.NUMBER_OF_BUTTONS : Int) then
      some ({ s with actButton := (par1 % 256).toNat }, [.release_all])
    else some (s, [.release_all, .serialPrintln "?"])
  | .CMD_CL =>
    some (s, [.mousePress .MOUSE_LEFT, .delay cfg.DEFAULT_CLICK_TIME, .mouseRelease .MOUSE_LEFT])
  | .CMD_CR =>
    some (s, [.mousePress .MOUSE_RIGHT, .delay cfg.DEFAULT_CLICK_TIME, .mouseRelease .MOUSE_RIGHT])
  | .CMD_CD =>
    some (s, [.mousePress .MOUSE_LEFT, .delay cfg.DEFAULT_CLICK_TIME, .mouseRelease .MOUSE_LEFT,
              .delay cfg.DEFAULT_CLICK_TIME,
              .mousePress .MOUSE_LEFT, .delay cfg.DEFAULT_CLICK_TIME, .mouseRelease .MOUSE_LEFT])
  | .CMD_CM =>
    some (s, [.mousePress .MOUSE_MIDDLE, .delay cfg.DEFAULT_CLICK_TIME,
              .mouseRelease .MOUSE_MIDDLE])
  | .CMD_PL => some (s, [.mousePress .MOUSE_LEFT])
  | .CMD_HL => some (s, [.mousePress .MOUSE_LEFT])
  | .CMD_PR => some (s, [.mousePress .MOUSE_RIGHT])
  | .CMD_HR => some (s, [.mousePress .MOUSE_RIGHT])
  | .CMD_PM => some (s, [.mousePress .MOUSE_MIDDLE])
  | .CMD_HM => some (s, [.mousePress .MOUSE_MIDDLE])
  | .CMD_TL => some (s, [.mouseToggle .MOUSE_LEFT])
  | .CMD_TR => some (s, [.mouseToggle .MOUSE_RIGHT])
  | .CMD_TM => some (s, [.mouseToggle .MOUSE_MIDDLE])
  | .CMD_RL => some (s, [.mouseRelease .MOUSE_LEFT])
  | .CMD_RR => some (s, [.mouseRelease .MOUSE_RIGHT])
  | .CMD_RM => some (s, [.mouseRelease .MOUSE_MIDDLE])
  | .CMD_WU => some (s, [.mouseScroll (-s.slotSettings.ws)])
  | .CMD_WD => some (s, [.mouseScroll s.slotSettings.ws])
  | .CMD_WS => some ({ s with slotSettings := { s.slotSettings with ws := par1 } }, [])
  | .CMD_MX => some (s, [.mouseMove par1 0])
  | .CMD_MY => some (s, [.mouseMove 0 par1])
  | .CMD_JX => some (s, [.joystickAxis par1 (-1) 0])
  | .CMD_JY => some (s, [.joystickAxis (-1) par1 0])
  | .CMD_JZ => some (s, [.joystickAxis par1 (-1) 1])
  | .CMD_JT => some (s, [.joystickAxis (-1) par1 0])
  | .CMD_JS => some (s, [.joystickAxis par1 (-1) 0])
  | .CMD_JP => some (s, [.joystickButton par1 1])
  | .CMD_JR => some (s, [.joystickButton par1 0])
  | .CMD_JH => some (s, [.joystickHat par1])
  | .CMD_KW => some (s, if keystring ≠ .null then [.keyboardPrint keystring] else [])
  | .CMD_KP => some (s, if keystring ≠ .null then [.pressKeys keystring] else [])
  | .CMD_KH => some (s, if keystring ≠ .null then [.holdKeys keystring] else [])
  | .CMD_KT => some (s, if keystring ≠ .null then [.toggleKeys keystring] else [])
  | .CMD_KR => some (s, if keystring ≠ .null then [.releaseKeys keystring] else [])
  | .CMD_KL =>
    match resolve s.keystringBuffer keystring with
    | none => none
    | some str =>
      if 5 ≤ str.length then
        if env.setKeyboardLayout keystring s then
          some ({ s with slotSettings := { s.slotSettings with kbdLayout := str.take 5 } },
                [.setKeyboardLayout keystring])
        else
          some (s, [.setKeyboardLayout keystring,
            .serialPrintln "NOK: supported layouts: de_DE, en_US, es_ES, fr_FR, it_IT, sv_SE, da_DK"])
      else some (s, [.printKeyboardLayout])
  | .CMD_LP => some ({ s with slotSettings := { s.slotSettings with lp := par1 } }, [])
  | .CMD_DP => some ({ s with slotSettings := { s.slotSettings with dp := par1 } }, [])
  | .CMD_RA => some (s, [.release_all])
  | .CMD_SA =>
    if keystring ≠ .null then
      match resolve s.keystringBuffer keystring with
      | none => none
      | some str =>
        if 0 < str.length ∧ ltSizeT str.length ((cfg.MAX_NAME_LEN : Int) - 1) then
          let s1 := { s with slotSettings := { s.slotSettings with slotName := str } }
          some (s1, [.release_all, .saveToEEPROM keystring,
                     .serialPrintln (if env.saveToEEPROM keystring s1 then "OK" else "E: eeprom full"),
                     .makeTone .TONE_INDICATE_PUFF 0])
        else some (s, [.release_all, .makeTone .TONE_INDICATE_PUFF 0])
    else some (s, [.release_all])
  | .CMD_LO =>
    if keystring ≠ .null then
      let r := env.readFromEEPROM keystring s
      some (r.2, [.release_all, .readFromEEPROM keystring,
                  .serialPrintln (if r.1 then "OK" else "E: not found"),
                  .displayUpdate, .setKeyboardLayout (.other r.2.slotSettings.kbdLayout)])
    else some (s, [])
  | .CMD_LA => some (s, [.release_all, .printAllSlots])
  | .CMD_LI => some (s, [.release_all, .listSlots, .serialPrintln "OK"])
  | .CMD_NE =>
    let r := env.readFromEEPROM (.other []) s
    some (r.2, [.release_all, .readFromEEPROM (.other [])]
               ++ (if r.1 then [] else [.serialPrintln "E: not found"])
               ++ [.displayUpdate, .setKeyboardLayout (.other r.2.slotSettings.kbdLayout)])
  | .CMD_DE =>
    some (s, [.release_all, .deleteSlot keystring,
              .serialPrintln (if env.deleteSlot keystring s then "OK" else "E: not found")])
  | .CMD_RS =>
    match initButtons cfg { s with slotSettings := env.defaultSlotSettings } with
    | none => none
    | some s1 =>
      let r := env.readFromEEPROM (.other []) s1
      some (r.2, [.deleteSlot (.other []), .saveToEEPROM (.other s1.slotSettings.slotName),
                  .readFromEEPROM (.other []),
                  .setKeyboardLayout (.other r.2.slotSettings.kbdLayout), .serialPrintln "OK"])
  | .CMD_RE => some (s, [.watchdog_reboot 0 0 10])
  | .CMD_NC => some (s, [])
  | .CMD_SR => some ({ s with reportRawValues := 1 }, [])
  | .CMD_ER => some ({ s with reportRawValues := 0 }, [])
  | .CMD_CA =>
    some ({ s with calib_now := cfg.CALIBRATION_PERIOD }, [.initBlink 10 20, .makeTone .TONE_CALIB 0])
  | .CMD_MA =>
    match resolve s.keystringBuffer keystring with
    | none => none
    | some text => some (s, (macroLoop cfg text.length text).map Effect.parseCommand)
  | .CMD_WA => some (s, [.delay par1])
  | .CMD_TS => some ({ s with slotSettings := { s.slotSettings with ts := par1 } }, [])
  | .CMD_TP => some ({ s with slotSettings := { s.slotSettings with tp := par1 } }, [])
  | .CMD_SP => some ({ s with slotSettings := { s.slotSettings with sp := par1 } }, [])
  | .CMD_SS => some ({ s with slotSettings := { s.slotSettings with ss := par1 } }, [])
  | .CMD_SC =>
    match resolve s.keystringBuffer keystring with
    | none => none
    | some str =>
      some ({ s with slotSettings := { s.slotSettings with sc := env.strtol str % 4294967296 } }, [])
  | .CMD_BT => some ({ s with slotSettings := { s.slotSettings with bt := par1 } }, [.displayUpdate])
  | .CMD_IR =>
    if keystring ≠ .null then
      match resolve s.keystringBuffer keystring with
      | none => none
      | some str =>
        some (s, if 0 < str.length ∧ ltSizeT str.length ((cfg.MAX_NAME_LEN : Int) - 1)
                 then [.record_IR_command keystring] else [])
    else some (s, [])
  | .CMD_IP => some (s, if keystring ≠ .null then [.play_IR_command keystring] else [])
  | .CMD_IH =>
    if keystring ≠ .null then
      match resolve s.keystringBuffer keystring with
      | none => none
      | some str =>
        some (s, if 0 < str.length ∧ ltSizeT str.length (cfg.MAX_NAME_LEN : Int)
                 then [.hold_IR_command keystring] else [])
    else some (s, [])
  | .CMD_IS => some (s, [.stop_IR_command])
  | .CMD_IL => some (s, [.list_IR_commands, .serialPrintln "OK"])
  | .CMD_IC =>
    if keystring ≠ .null then
      some (s, [.delete_IR_command keystring,
                .serialPrintln (if env.delete_IR_command keystring s then "OK" else "E: not found")])
    else some (s, [])
  | .CMD_IT => some (s, [.set_IR_timeout par1])
  | .CMD_IW => some (s, [.wipe_IR_commands, .serialPrintln "OK"])

set_option linter.unusedVariables false in
/-- Source function `performCommand` (`cmd` is a `uint8_t`, `par1` an `int16_t`).
The static local `actButton` lives in the state.  While a target button is pending
the command is stored for that button and not executed. -/
def performCommand (env : Collaborators) (cfg : Config) (s : State) (cmd : Nat) (par1 : Int)
    (keystring : CharPtr) (periodicMouseMovement : Int) : Option (State × List Effect) :=
  if s.actButton ≠ 0 then
    match assignButton s.buttons (s.actButton - 1) (fun b => { b with mode := cmd }) with
    | none => none
    | some b1 =>
    match assignButton b1 (s.actButton - 1) (fun b => { b with value := par1 }) with
    | none => none
    | some b2 =>
    match setButtonKeystring cfg { s with buttons := b2 } (s.actButton - 1) keystring with
    | none => none
    | some (s1, _) => some ({ s1 with actButton := 0 }, [])
  else
    match atCommands.ofCode cmd with
    | none => some (s, [])
    | some c => dispatch env cfg s par1 keystring c

/-! ## `buttons.cpp`: press, release and debouncing -/

/-- Statement `buttonStates |= (1 << i)` on the `uint32_t` report word. -/
def setStateBit (buttonStates i : Nat) : Nat :=
  (buttonStates ||| (1 <<< i)) % 4294967296

/-- Statement `buttonStates &= ~(1 << i)` on the `uint32_t` report word. -/
def clearStateBit (buttonStates i : Nat) : Nat :=
  buttonStates &&& (4294967295 - (1 <<< i) % 4294967296)

/-- Source function `handlePress`: the bound command is performed with the table
pointer `buttonKeystrings[buttonIndex]` as its keystring. -/
def handlePress (env : Collaborators) (cfg : Config) (s : State) (buttonIndex : Nat) :
    Option (State × List Effect) :=
  match s.buttons[buttonIndex]? with
  | none => none
  | some b =>
    match s.buttonKeystrings[buttonIndex]? with
    | none => none
    | some ks =>
      performCommand env cfg { s with buttonStates := setStateBit s.buttonStates buttonIndex }
        b.mode b.value (.arena ks) 1

/-- Source function `handleRelease`: the `switch` over the bound mode. -/
def handleRelease (s : State) (buttonIndex : Nat) : Option (State × List Effect) :=
  match s.buttons[buttonIndex]? with
  | none => none
  | some b =>
    let s1 := { s with buttonStates := clearStateBit s.buttonStates buttonIndex }
    match atCommands.ofCode b.mode with
    | some .CMD_PL => some (s1, [.mouseRelease .MOUSE_LEFT])
    | some .CMD_HL => some (s1, [.mouseRelease .MOUSE_LEFT])
    | some .CMD_PR => some (s1, [.mouseRelease .MOUSE_RIGHT])
    | some .CMD_HR => some (s1, [.mouseRelease .MOUSE_RIGHT])
    | some .CMD_PM => some (s1, [.mouseRelease .MOUSE_MIDDLE])
    | some .CMD_HM => some (s1, [.mouseRelease .MOUSE_MIDDLE])
    | some .CMD_JP => some (s1, [.joystickButton b.value 0])
    | some .CMD_KH =>
      match s.buttonKeystrings[buttonIndex]? with
      | none => none
      | some ks => some (s1, [.releaseKeys (.arena ks)])
    | some .CMD_IH => some (s1, [.stop_IR_command])
    | _ => some (s1, [])

/-- Source function `inHoldMode`. -/
def inHoldMode (s : State) (i : Nat) : Option Nat :=
  match s.buttons[i]? with
  | none => none
  | some b =>
    if b.mode = atCommands.CMD_PL.code ∨ b.mode = atCommands.CMD_PR.code
        ∨ b.mode = atCommands.CMD_PM.code ∨ b.mode = atCommands.CMD_HL.code
        ∨ b.mode = atCommands.CMD_HR.code ∨ b.mode = atCommands.CMD_HM.code
        ∨ b.mode = atCommands.CMD_JP.code ∨ b.mode = atCommands.CMD_MX.code
        ∨ b.mode = atCommands.CMD_MY.code ∨ b.mode = atCommands.CMD_KH.code
        ∨ b.mode = atCommands.CMD_IH.code then some 1
    else some 0

/-- Source function `initDebouncers`: the array has `NUMBER_OF_BUTTONS` entries,
each of which is reset; `timestamp` is not written. -/
def initDebouncers (s : State) : State :=
  { s with buttonDebouncers := s.buttonDebouncers.map (fun d =>
      { d with bounceState := 0, stableState := 0, bounceCount := 0, longPressed := 0 }) }

/-- A call of one of the two handlers by `handleButton`. -/
inductive HandlerCall where
  | handlePress (buttonIndex : Nat)
  | handleRelease (buttonIndex : Nat)
  deriving DecidableEq, Repr

/-- Outcome of one call of `handleButton`: the globals, the collaborator calls,
the handler calls and the `uint8_t` return value. -/
structure ButtonResult where
  state : State
  effects : List Effect
  calls : List HandlerCall
  ret : Nat

/-- Source function `handleButton`; `millis` is the value the clock returns when
the press is time-stamped. -/
def handleButton (env : Collaborators) (cfg : Config) (s : State) (i state millis : Nat) :
    Option ButtonResult :=
  match s.buttonDebouncers[i]? with
  | none => none
  | some d =>
    if d.bounceState = state then
      if d.bounceCount < cfg.DEFAULT_DEBOUNCING_TIME then
        let d1 := { d with bounceCount := d.bounceCount + 1 }
        if d1.bounceCount = cfg.DEFAULT_DEBOUNCING_TIME then
          if state ≠ d1.stableState then
            let s2 := { s with buttonDebouncers :=
              s.buttonDebouncers.set i { d1 with stableState := state } }
            if state = 1 then
              match handlePress env cfg
                  { s2 with buttonStates := setStateBit s2.buttonStates i } i with
              | none => none
              | some (s3, eff) =>
                match s3.buttonDebouncers[i]? with
                | none => none
                | some d3 =>
                  some { state := { s3 with buttonDebouncers :=
                                      s3.buttonDebouncers.set i { d3 with timestamp := millis } }
                         effects := eff
                         calls := [.handlePress i]
                         ret := 0 }
            else
              let s3 := { s2 with buttonStates := clearStateBit s2.buttonStates i }
              match inHoldMode s3 i with
              | none => none
              | some h =>
                if h ≠ 0 then
                  match handleRelease s3 i with
                  | none => none
                  | some (s4, eff) =>
                    some { state := s4, effects := eff, calls := [.handleRelease i], ret := 1 }
                else some { state := s3, effects := [], calls := [], ret := 1 }
          else
            some { state := { s with buttonDebouncers := s.buttonDebouncers.set i d1 }
                   effects := [], calls := [], ret := 0 }
        else
          some { state := { s with buttonDebouncers := s.buttonDebouncers.set i d1 }
                 effects := [], calls := [], ret := 0 }
      else some { state := s, effects := [], calls := [], ret := 0 }
    else
      some { state := { s with buttonDebouncers :=
                          s.buttonDebouncers.set i { d with bounceState := state, bounceCount := 0 } }
             effects := [], calls := [], ret := 0 }

/-- Successive calls of `handleButton` for button `i`, one per sample; a sample is
the raw level together with the clock value of its tick. -/
def runButton (env : Collaborators) (cfg : Config) (i : Nat) :
    State → List (Nat × Nat) → Option (List ButtonResult)
  | _, [] => some []
  | s, (level, millis) :: samples =>
    match handleButton env cfg s i level millis with
    | none => none
    | some r =>
      match runButton env cfg i r.state samples with
      | none => none
      | some rs => some (r :: rs)

/-! ## Specification vocabulary for the keystring store -/

/-- Packed image of a list of strings: each string followed by its terminator. -/
def encode : List (List Nat) → List Nat
  | [] => []
  | str :: strs => str ++ 0 :: encode strs

/-- A string without a null byte. -/
def NullFree (str : List Nat) : Prop := ∀ c ∈ str, c ≠ 0

instance (str : List Nat) : Decidable (NullFree str) := by
  unfold NullFree; infer_instance

/-- Well-formed store holding the strings `strs`: the arena has its declared size
and starts with the `NUMBER_OF_BUTTONS` strings, packed one after the other, and
`keystringBufferLen` is the number of bytes they occupy. -/
structure Holds (cfg : Config) (s : State) (strs : List (List Nat)) : Prop where
  count : strs.length = cfg.NUMBER_OF_BUTTONS
  nullFree : ∀ str ∈ strs, NullFree str
  packed : encode strs <+: s.keystringBuffer
  used : s.slotSettings.keystringBufferLen = (encode strs).length
  size : s.keystringBuffer.length = cfg.MAX_KEYSTRINGBUFFER_LEN

/-- The pointer table left by the update loop of `setButtonKeystring` when the arena
holds the strings `strs` from offset `x` on and the loop is at index `i`: only the
entries of non-empty strings are assigned. -/
def refreshedTable : List (List Nat) → Nat → Nat → List Nat → List Nat
  | [], _, _, tbl => tbl
  | str :: strs, i, x, tbl =>
    refreshedTable strs (i + 1) (x + str.length + 1) (if str = [] then tbl else tbl.set i x)

/-- The pointer table left by the loop of `initButtonKeystrings` in the same
situation: every entry is assigned. -/
def initTable : List (List Nat) → Nat → Nat → List Nat → List Nat
  | [], _, _, tbl => tbl
  | str :: strs, i, x, tbl => initTable strs (i + 1) (x + str.length + 1) (tbl.set i x)

/-- The string read at `getButtonKeystring(num)`. -/
def readKeystring (buf : List Nat) (num : Nat) : Option (List Nat) :=
  match getButtonKeystring buf num with
  | none => none
  | some p => stringAt buf p

/-- First byte of a terminated string. -/
def headByte : List Nat → Nat
  | [] => 0
  | c :: _ => c

/-- A sequence of `setButtonKeystring` calls, each with a string held outside the
arena; the return values are dropped. -/
def runCalls (cfg : Config) : State → List (Nat × List Nat) → Option State
  | s, [] => some s
  | s, (i, v) :: calls =>
    match setButtonKeystring cfg s i (.other v) with
    | none => none
    | some (s1, _) => runCalls cfg s1 calls

/-- All globals zero: static storage before any initialisation.  The entries of
the pointer table, null pointers in C, appear as offset 0; `initButtonKeystrings`
assigns every one of them before any use. -/
def zeroState (cfg : Config) : State :=
  { buttons := List.replicate cfg.NUMBER_OF_BUTTONS ⟨0, 0⟩
    buttonKeystrings := List.replicate cfg.NUMBER_OF_BUTTONS 0
    keystringBuffer := List.replicate cfg.MAX_KEYSTRINGBUFFER_LEN 0
    buttonDebouncers := List.replicate cfg.NUMBER_OF_BUTTONS ⟨0, 0, 0, 0, 0⟩
    buttonStates := 0
    slotSettings := ⟨[], 0, [], 0, 0, 0, 0, 0, 0, 0, 0, 0⟩
    actButton := 0
    reportRawValues := 0
    calib_now := 0 }

/-- The byte ranges written by a call that passes the test of line 75 lie inside
the arena: `memmove` writes `bytesToMove` bytes from `targetAddress` on, `strcpy`
writes `newLen + 1` bytes from `keystringAddress` on. -/
def writesInBounds (cfg : Config) (m : KeystringMove) : Prop :=
  0 ≤ m.targetAddress ∧
  m.targetAddress + m.bytesToMove ≤ cfg.MAX_KEYSTRINGBUFFER_LEN ∧
  m.keystringAddress + m.newLen + 1 ≤ cfg.MAX_KEYSTRINGBUFFER_LEN

/-! ## Specification vocabulary for macros -/

/-- The tokens of a macro text: `some c` for a character that is emitted (an
ordinary character, or any character right after an escape marker `\`, code 92),
`none` for a separator (an unescaped `;`, code 59).  Escape markers themselves give
no token.  `escaped` tells that an escape marker has just been read. -/
def macroTokens : Bool → List Nat → List (Option Nat)
  | _, [] => []
  | true, c :: p => some c :: macroTokens false p
  | false, c :: p =>
    if c = 92 then macroTokens true p
    else if c = 59 then none :: macroTokens false p
    else some c :: macroTokens false p

/-- The pieces of a token list delimited by its separators. -/
def splitTokens : List (Option Nat) → List (List Nat)
  | [] => [[]]
  | none :: ts => [] :: splitTokens ts
  | some c :: ts =>
    match splitTokens ts with
    | [] => [[c]]
    | piece :: pieces => (c :: piece) :: pieces

/-- The pieces of a macro text delimited by unescaped `;`, each with its escape
markers removed and the escaped characters kept. -/
def specSplit (text : List Nat) : List (List Nat) :=
  splitTokens (macroTokens false text)

/-- The text ends in an unescaped `;`. -/
def endsInSeparator : Bool → List Nat → Bool
  | _, [] => false
  | true, _ :: p => endsInSeparator false p
  | false, c :: p =>
    if c = 92 then endsInSeparator true p
    else if c = 59 ∧ p = [] then true
    else endsInSeparator false p

/-- The emitted characters before the first separator of a token list. -/
def headPiece : List (Option Nat) → List Nat
  | [] => []
  | none :: _ => []
  | some c :: ts => c :: headPiece ts

/-- The text from its first unescaped `;` on (empty when there is none). -/
def afterPiece : Bool → List Nat → List Nat
  | _, [] => []
  | true, _ :: p => afterPiece false p
  | false, c :: p =>
    if c = 92 then afterPiece true p
    else if c = 59 then c :: p
    else afterPiece false p

/-! ## A concrete configuration for the examples -/

/-- Example constants: the 22 buttons documented in `commands.h`, an arena of 500
bytes, sub-commands of at most 100 bytes, names of at most 15 bytes, a debounce
threshold of 5 ticks. -/
def demoConfig : Config :=
  { NUMBER_OF_BUTTONS := 22
    MAX_KEYSTRINGBUFFER_LEN := 500
    MAX_KEYSTRING_LEN := 100
    MAX_NAME_LEN := 15
    DEFAULT_DEBOUNCING_TIME := 5
    DEFAULT_CLICK_TIME := 20
    CALIBRATION_PERIOD := 1000 }

/-- Collaborators that always answer "done" and leave the globals alone. -/
def demoEnv : Collaborators :=
  { moduleName := "FABI"
    VERSION_STRING := "v3.0"
    defaultSlotSettings := ⟨[], 0, [], 0, 0, 0, 0, 0, 0, 0, 0, 0⟩
    setKeyboardLayout := fun _ _ => true
    saveToEEPROM := fun _ _ => true
    readFromEEPROM := fun _ s => (true, s)
    deleteSlot := fun _ _ => true
    delete_IR_command := fun _ _ => true
    strtol := fun _ => 0 }

/-- The keystrings of the default bindings. -/
def defaultKeystrings : List (List Nat) :=
  [bytesOf "KEY_SPACE ", bytesOf "KEY_ENTER ", [], bytesOf "KEY_LEFT ", bytesOf "KEY_RIGHT "]
    ++ List.replicate 17 []

/-- The globals after `initButtons` on the all-zero state (see `initButtons_zeroState`). -/
def demoState : State :=
  { zeroState demoConfig with
    buttons := [⟨atCommands.CMD_KP.code, 0⟩, ⟨atCommands.CMD_KP.code, 0⟩,
                ⟨atCommands.CMD_CL.code, 0⟩, ⟨atCommands.CMD_KP.code, 0⟩,
                ⟨atCommands.CMD_KP.code, 0⟩] ++ List.replicate 17 ⟨atCommands.CMD_NC.code, 0⟩
    buttonKeystrings := [0, 11, 2, 23, 33] ++ (List.range 22).drop 5
    keystringBuffer := encode defaultKeystrings ++ List.replicate 439 0
    slotSettings := { (zeroState demoConfig).slotSettings with keystringBufferLen := 61 } }

/-- The globals after `setButtonKeystring(2, "KEY_A")` on `demoState`. -/
def demoAfter : State :=
  { demoState with
    buttonKeystrings := [0, 11, 22, 28, 38] ++ (List.range 22).drop 5
    keystringBuffer := encode (defaultKeystrings.set 2 (bytesOf "KEY_A")) ++ List.replicate 434 0
    slotSettings := { demoState.slotSettings with keystringBufferLen := 66 } }

/-- Programming mode with target button 3 pending on `demoState`. -/
def pendingState : State :=
  { demoState with actButton := 3 }

/-- The globals with entry `i` of `buttonDebouncers` replaced. -/
def setDebouncer (s : State) (i : Nat) (d : buttonDebouncerType) : State :=
  { s with buttonDebouncers := s.buttonDebouncers.set i d }

/-- The stable level of button `i`. -/
def stableLevel (s : State) (i : Nat) : Option Nat :=
  s.buttonDebouncers[i]?.map (fun d => d.stableState)

/-- A call of `handleButton` that commits nothing for button `i`, whose stable level
is `lv`: no handler call, no effect, return value 0. -/
def Quiet (i lv : Nat) (r : ButtonResult) : Prop :=
  r.calls = [] ∧ r.effects = [] ∧ r.ret = 0 ∧ stableLevel r.state i = some lv

/-- The globals at the moment `handleButton` calls `handlePress` for button `i`
whose debouncer entry was `d`: the counter has reached the threshold, the stable
level is 1 and the report bit is set. -/
def pressState (cfg : Config) (s : State) (i : Nat) (d : buttonDebouncerType) : State :=
  { setDebouncer s i { d with bounceCount := cfg.DEFAULT_DEBOUNCING_TIME, bounceState := 1,
                              stableState := 1 } with
    buttonStates := setStateBit s.buttonStates i }

/-- The default bindings with button 1 (index 0) bound to command `c` with
parameter 1, shown as pressed, and its debouncer one sample short of committing a
release. -/
def releaseReady (c : atCommands) : State :=
  { demoState with
    buttons := demoState.buttons.set 0 ⟨c.code, 1⟩
    buttonDebouncers := demoState.buttonDebouncers.set 0 ⟨4, 0, 1, 0, 0⟩
    buttonStates := 1 }

/-- The macro text `MX 1\;MY 2;CL;`. -/
def macroExample : List Nat :=
  bytesOf "MX 1" ++ [92] ++ bytesOf ";MY 2;CL;"

/-- The macro text `KW \;;CL;` of `commands.h`. -/
def macroExampleKW : List Nat :=
  bytesOf "KW " ++ [92] ++ bytesOf ";;CL;"

/-- A small configuration: 6 buttons and an arena of 40 bytes. -/
def smallConfig : Config :=
  { demoConfig with NUMBER_OF_BUTTONS := 6, MAX_KEYSTRINGBUFFER_LEN := 40 }

/-- The keystrings of a crowded store: button 6 (index 5) holds 15 letters `A`,
every other button the empty string. -/
def crowdedKeystrings : List (List Nat) :=
  List.replicate 5 [] ++ [List.replicate 15 65]

/-- A well-formed store of `smallConfig` holding `crowdedKeystrings` (21 of the 40
bytes used), with a consistent pointer table; every button is bound to `NC`. -/
def crowdedState : State :=
  { zeroState smallConfig with
    buttons := List.replicate 6 ⟨atCommands.CMD_NC.code, 0⟩
    buttonKeystrings := [0, 1, 2, 3, 4, 5]
    keystringBuffer := encode crowdedKeystrings ++ List.replicate 19 0
    slotSettings := { (zeroState smallConfig).slotSettings with keystringBufferLen := 21 } }

/-- The transition a call of `handleButton` for button `i` commits: `some 1` for a
press (the call of `handlePress`), `some 0` for a release (return value 1), `none`
when nothing is committed. -/
def committed (i : Nat) (r : ButtonResult) : Option Nat :=
  if r.calls = [.handlePress i] then some 1 else if r.ret = 1 then some 0 else none

/-- The levels `lv, 1 - lv, lv, ...`, `n` of them. -/
def alternating : Nat → Nat → List Nat
  | 0, _ => []
  | n + 1, lv => lv :: alternating n (1 - lv)

/-- Seven samples of level 1, seven of level 0 and seven of level 1 again. -/
def toggleSamples : List (Nat × Nat) :=
  List.replicate 7 (1, 0) ++ List.replicate 7 (0, 0) ++ List.replicate 7 (1, 0)

/-- The default store with button 1 chosen as binding target (after `AT BM 1`). -/
def pendingFirst : State :=
  { demoState with actButton := 1 }

/-- A build with `MAX_KEYSTRING_LEN = 300`, more than the `uint8_t` counter of the
macro loop can count. -/
def wideConfig : Config :=
  { demoConfig with MAX_KEYSTRING_LEN := 300 }

/-! ## Lemmas on scanning packed strings -/

theorem getElem?_at_length (pre post : List Nat) (c : Nat) :
    (pre ++ c :: post)[pre.length]? = some c := by
  rw [List.getElem?_append_right (Nat.le_refl _)]
  simp

theorem nullFree_cons {c : Nat} {cs : List Nat} (h : NullFree (c :: cs)) :
    c ≠ 0 ∧ NullFree cs :=
  ⟨h c (by simp), fun d hd => h d (by simp [hd])⟩

theorem cstr_terminated (str post : List Nat) (h : NullFree str) :
    cstr (str ++ 0 :: post) = str := by
  induction str with
  | nil => simp [cstr]
  | cons c cs ih =>
    obtain ⟨hc, hcs⟩ := nullFree_cons h
    have := ih hcs
    simp only [cstr] at this ⊢
    rw [List.cons_append, List.takeWhile_cons]
    simp [hc, this]

theorem cstr_nullFree (bytes : List Nat) : NullFree (cstr bytes) := by
  intro c hc
  have := List.mem_takeWhile_imp hc
  simpa using this

theorem cstr_of_nullFree (str : List Nat) (h : NullFree str) : cstr str = str := by
  induction str with
  | nil => rfl
  | cons c cs ih =>
    obtain ⟨hc, hcs⟩ := nullFree_cons h
    have := ih hcs
    simp only [cstr] at this ⊢
    rw [List.takeWhile_cons]
    simp [hc, this]

theorem skipString_at (str : List Nat) :
    ∀ (pre post : List Nat) (fuel : Nat), NullFree str → str.length < fuel →
      skipString (pre ++ (str ++ 0 :: post)) fuel pre.length = some (pre.length + str.length + 1) := by
  induction str with
  | nil =>
    intro pre post fuel _ hf
    obtain ⟨f, rfl⟩ : ∃ f, fuel = f + 1 := ⟨fuel - 1, by simp at hf; omega⟩
    rw [List.nil_append, skipString, getElem?_at_length]
    simp
  | cons c cs ih =>
    intro pre post fuel h hf
    obtain ⟨hc, hcs⟩ := nullFree_cons h
    obtain ⟨f, rfl⟩ : ∃ f, fuel = f + 1 := ⟨fuel - 1, by simp at hf; omega⟩
    have hrec := ih (pre ++ [c]) post f hcs (by simp at hf; omega)
    have hlen : (pre ++ [c]).length = pre.length + 1 := by simp
    have hbuf : pre ++ (c :: cs ++ 0 :: post) = (pre ++ [c]) ++ (cs ++ 0 :: post) := by simp
    have hget : (pre ++ (c :: cs ++ 0 :: post))[pre.length]? = some c := by
      simpa using getElem?_at_length pre (cs ++ 0 :: post) c
    rw [hlen] at hrec
    rw [skipString, hget]
    simp only [bne_iff_ne, ne_eq, hc, not_false_eq_true, if_true]
    rw [hbuf, hrec, List.length_cons]
    congr 1
    omega

theorem strlenAt_at (str : List Nat) :
    ∀ (pre post : List Nat) (fuel : Nat), NullFree str → str.length < fuel →
      strlenAt (pre ++ (str ++ 0 :: post)) fuel pre.length = some str.length := by
  induction str with
  | nil =>
    intro pre post fuel _ hf
    obtain ⟨f, rfl⟩ : ∃ f, fuel = f + 1 := ⟨fuel - 1, by simp at hf; omega⟩
    rw [List.nil_append, strlenAt, getElem?_at_length]
    simp
  | cons c cs ih =>
    intro pre post fuel h hf
    obtain ⟨hc, hcs⟩ := nullFree_cons h
    obtain ⟨f, rfl⟩ : ∃ f, fuel = f + 1 := ⟨fuel - 1, by simp at hf; omega⟩
    have hrec := ih (pre ++ [c]) post f hcs (by simp at hf; omega)
    have hlen : (pre ++ [c]).length = pre.length + 1 := by simp
    have hbuf : pre ++ (c :: cs ++ 0 :: post) = (pre ++ [c]) ++ (cs ++ 0 :: post) := by simp
    have hget : (pre ++ (c :: cs ++ 0 :: post))[pre.length]? = some c := by
      simpa using getElem?_at_length pre (cs ++ 0 :: post) c
    rw [hlen] at hrec
    rw [strlenAt, hget]
    simp only [bne_iff_ne, ne_eq, hc, not_false_eq_true, if_true]
    rw [hbuf, hrec, List.length_cons]
    rfl

theorem stringAt_at (str pre post : List Nat) (h : NullFree str) :
    stringAt (pre ++ (str ++ 0 :: post)) pre.length = some str := by
  unfold stringAt
  rw [List.drop_left]
  simp [cstr_terminated str post h]

theorem scanLen_eq_skipString (buf : List Nat) (hb : buf.length < 65536) :
    ∀ (fuel x : Nat), scanLen buf fuel x = skipString buf fuel x := by
  intro fuel
  induction fuel with
  | zero => intro x; rfl
  | succ f ih =>
    intro x
    rw [scanLen, skipString]
    cases hx : buf[x]? with
    | none => rfl
    | some c =>
      have hlt : x < buf.length := by
        by_contra hge
        rw [List.getElem?_eq_none (by omega)] at hx
        cases hx
      have hmod : (x + 1) % 65536 = x + 1 := Nat.mod_eq_of_lt (by omega)
      simp only [hmod, ih]

/-! ## Lemmas on `encode` -/

theorem encode_append (a b : List (List Nat)) : encode (a ++ b) = encode a ++ encode b := by
  induction a with
  | nil => rfl
  | cons str a ih => simp [encode, ih]

theorem encode_length (strs : List (List Nat)) :
    (encode strs).length = (strs.map List.length).sum + strs.length := by
  induction strs with
  | nil => rfl
  | cons str strs ih => simp [encode, ih]; omega

theorem split_at (strs : List (List Nat)) (i : Nat) (h : i < strs.length) :
    strs = strs.take i ++ strs[i] :: strs.drop (i + 1) := by
  rw [← List.drop_eq_getElem_cons h, List.take_append_drop]

theorem encode_split (strs : List (List Nat)) (i : Nat) (h : i < strs.length) :
    encode strs = encode (strs.take i) ++ (strs[i] ++ 0 :: encode (strs.drop (i + 1))) := by
  conv_lhs => rw [split_at strs i h]
  rw [encode_append]
  rfl

theorem encode_take_succ (strs : List (List Nat)) (i : Nat) (h : i < strs.length) :
    encode (strs.take (i + 1)) = encode (strs.take i) ++ (strs[i] ++ [0]) := by
  rw [List.take_succ, encode_append, List.getElem?_eq_getElem h]
  simp [encode]

theorem set_eq_split (strs : List (List Nat)) (i : Nat) (w : List Nat) (h : i < strs.length) :
    strs.set i w = strs.take i ++ w :: strs.drop (i + 1) := by
  induction strs generalizing i with
  | nil => simp at h
  | cons a strs ih =>
    cases i with
    | zero => simp
    | succ i => simp at h ⊢; exact ih i h

theorem encode_set (strs : List (List Nat)) (i : Nat) (w : List Nat) (h : i < strs.length) :
    encode (strs.set i w) = encode (strs.take i) ++ (w ++ 0 :: encode (strs.drop (i + 1))) := by
  rw [set_eq_split strs i w h, encode_append]
  rfl

theorem headByte_at (str pre post : List Nat) :
    (pre ++ (str ++ 0 :: post))[pre.length]? = some (headByte str) := by
  cases str with
  | nil => simpa using getElem?_at_length pre post 0
  | cons c cs => simpa using getElem?_at_length pre (cs ++ 0 :: post) c

theorem headByte_eq_zero (str : List Nat) (h : NullFree str) : headByte str = 0 ↔ str = [] := by
  cases str with
  | nil => simp [headByte]
  | cons c cs => simpa [headByte] using (nullFree_cons h).1

/-! ## The scanning loops on a packed arena -/

theorem length_lt_of_packed (pre str post : List Nat) :
    str.length < (pre ++ (str ++ 0 :: post)).length := by
  simp; omega

theorem getButtonKeystring_packed (strs : List (List Nat)) (post : List Nat)
    (hnf : ∀ str ∈ strs, NullFree str) :
    ∀ i, i ≤ strs.length →
      getButtonKeystring (encode strs ++ post) i = some (encode (strs.take i)).length := by
  intro i
  induction i with
  | zero => intro _; simp [getButtonKeystring, encode]
  | succ i ih =>
    intro hi
    have hlt : i < strs.length := by omega
    have hs : NullFree strs[i] := hnf _ (List.getElem_mem hlt)
    have hbuf : encode strs ++ post
        = encode (strs.take i) ++ (strs[i] ++ 0 :: (encode (strs.drop (i + 1)) ++ post)) := by
      rw [encode_split strs i hlt]; simp
    rw [getButtonKeystring, ih (by omega), encode_take_succ strs i hlt]
    simp only []
    rw [hbuf, headByte_at]
    simp only [bne_iff_ne, ne_eq, ite_not]
    by_cases h0 : headByte strs[i] = 0
    · have : strs[i] = [] := (headByte_eq_zero _ hs).1 h0
      rw [if_pos h0, this]
      simp
    · rw [if_neg h0, skipString_at _ _ _ _ hs (length_lt_of_packed _ _ _)]
      simp; omega

theorem updateKeystringPointers_packed (strs : List (List Nat)) :
    ∀ (pre post : List Nat) (i : Nat) (tbl : List Nat), (∀ str ∈ strs, NullFree str) →
      updateKeystringPointers (pre ++ (encode strs ++ post)) strs.length i pre.length tbl
        = some (refreshedTable strs i pre.length tbl) := by
  induction strs with
  | nil => intro pre post i tbl _; rfl
  | cons str strs ih =>
    intro pre post i tbl hnf
    have hs : NullFree str := hnf _ (by simp)
    have hrest : ∀ t ∈ strs, NullFree t := fun t ht => hnf t (by simp [ht])
    have hbuf : pre ++ (encode (str :: strs) ++ post)
        = pre ++ (str ++ 0 :: (encode strs ++ post)) := by simp [encode]
    have hbuf2 : pre ++ (str ++ 0 :: (encode strs ++ post))
        = (pre ++ (str ++ [0])) ++ (encode strs ++ post) := by simp
    have hlen : (pre ++ (str ++ [0])).length = pre.length + str.length + 1 := by
      simp; omega
    rw [List.length_cons, updateKeystringPointers, hbuf, headByte_at, refreshedTable]
    simp only [bne_iff_ne, ne_eq, ite_not]
    by_cases h0 : headByte str = 0
    · have hnil : str = [] := (headByte_eq_zero _ hs).1 h0
      subst hnil
      rw [if_pos h0, if_pos rfl]
      have := ih (pre ++ [0]) post (i + 1) tbl hrest
      simpa using this
    · have hne : str ≠ [] := fun h => h0 ((headByte_eq_zero _ hs).2 h)
      rw [if_neg h0, if_neg hne, skipString_at _ _ _ _ hs (length_lt_of_packed _ _ _)]
      simp only []
      have h1 := ih (pre ++ (str ++ [0])) post (i + 1) (tbl.set i pre.length) hrest
      rw [hlen, ← hbuf2] at h1
      exact h1

theorem initButtonKeystringsLoop_packed (strs : List (List Nat)) :
    ∀ (pre post : List Nat) (i : Nat) (tbl : List Nat), (∀ str ∈ strs, NullFree str) →
      (pre ++ (encode strs ++ post)).length < 65536 →
      initButtonKeystringsLoop (pre ++ (encode strs ++ post)) strs.length i pre.length tbl
        = some (initTable strs i pre.length tbl, pre.length + (encode strs).length) := by
  induction strs with
  | nil => intro pre post i tbl _ _; rfl
  | cons str strs ih =>
    intro pre post i tbl hnf hsz
    have hs : NullFree str := hnf _ (by simp)
    have hrest : ∀ t ∈ strs, NullFree t := fun t ht => hnf t (by simp [ht])
    have hbuf : pre ++ (encode (str :: strs) ++ post)
        = pre ++ (str ++ 0 :: (encode strs ++ post)) := by simp [encode]
    have hbuf2 : pre ++ (str ++ 0 :: (encode strs ++ post))
        = (pre ++ (str ++ [0])) ++ (encode strs ++ post) := by simp
    have hlen : (pre ++ (str ++ [0])).length = pre.length + str.length + 1 := by
      simp; omega
    rw [hbuf] at hsz ⊢
    rw [List.length_cons, initButtonKeystringsLoop, scanLen_eq_skipString _ hsz,
      skipString_at _ _ _ _ hs (length_lt_of_packed _ _ _), initTable]
    simp only []
    rw [hbuf2] at hsz
    have h1 := ih (pre ++ (str ++ [0])) post (i + 1) (tbl.set i pre.length) hrest hsz
    rw [hlen, ← hbuf2] at h1
    rw [h1]
    simp [encode]
    omega

/-! ## The pointer tables -/

theorem refreshedTable_length (strs : List (List Nat)) :
    ∀ (i x : Nat) (tbl : List Nat), (refreshedTable strs i x tbl).length = tbl.length := by
  induction strs with
  | nil => intro i x tbl; rfl
  | cons str strs ih =>
    intro i x tbl
    rw [refreshedTable, ih]
    split <;> simp

theorem initTable_length (strs : List (List Nat)) :
    ∀ (i x : Nat) (tbl : List Nat), (initTable strs i x tbl).length = tbl.length := by
  induction strs with
  | nil => intro i x tbl; rfl
  | cons str strs ih =>
    intro i x tbl
    rw [initTable, ih]
    simp

theorem refreshedTable_below (strs : List (List Nat)) :
    ∀ (i x : Nat) (tbl : List Nat) (k : Nat), k < i →
      (refreshedTable strs i x tbl)[k]? = tbl[k]? := by
  induction strs with
  | nil => intro i x tbl k _; rfl
  | cons str strs ih =>
    intro i x tbl k hk
    rw [refreshedTable, ih _ _ _ k (by omega)]
    split
    · rfl
    · exact List.getElem?_set_ne (by omega)

theorem initTable_below (strs : List (List Nat)) :
    ∀ (i x : Nat) (tbl : List Nat) (k : Nat), k < i →
      (initTable strs i x tbl)[k]? = tbl[k]? := by
  induction strs with
  | nil => intro i x tbl k _; rfl
  | cons str strs ih =>
    intro i x tbl k hk
    rw [initTable, ih _ _ _ k (by omega)]
    exact List.getElem?_set_ne (by omega)

/-- The update loop of `setButtonKeystring` gives the entry of a non-empty string
its current offset. -/
theorem refreshedTable_entry (strs : List (List Nat)) :
    ∀ (i x : Nat) (tbl : List Nat) (j : Nat) (hj : j < strs.length), strs[j] ≠ [] →
      i + j < tbl.length →
      (refreshedTable strs i x tbl)[i + j]? = some (x + (encode (strs.take j)).length) := by
  induction strs with
  | nil => intro i x tbl j hj; simp at hj
  | cons str strs ih =>
    intro i x tbl j hj hne hlt
    cases j with
    | zero =>
      have hstr : str ≠ [] := by simpa using hne
      simp only [Nat.add_zero] at hlt ⊢
      rw [refreshedTable, refreshedTable_below strs (i + 1) _ _ i (by omega), if_neg hstr,
        List.getElem?_set_self hlt]
      simp [encode]
    | succ j =>
      have hj1 : j < strs.length := by simpa using hj
      have hne1 : strs[j] ≠ [] := by simpa using hne
      have hidx : i + (j + 1) = (i + 1) + j := by omega
      have hl : (if str = [] then tbl else tbl.set i x).length = tbl.length := by
        split <;> simp
      rw [refreshedTable, hidx, ih (i + 1) _ _ j hj1 hne1 (by rw [hl]; omega)]
      simp [encode]
      omega

/-- The update loop of `setButtonKeystring` leaves the entry of an empty string as
it was. -/
theorem refreshedTable_stale (strs : List (List Nat)) :
    ∀ (i x : Nat) (tbl : List Nat) (j : Nat) (hj : j < strs.length), strs[j] = [] →
      (refreshedTable strs i x tbl)[i + j]? = tbl[i + j]? := by
  induction strs with
  | nil => intro i x tbl j hj; simp at hj
  | cons str strs ih =>
    intro i x tbl j hj he
    cases j with
    | zero =>
      have hstr : str = [] := by simpa using he
      simp only [Nat.add_zero]
      rw [refreshedTable, refreshedTable_below strs (i + 1) _ _ i (by omega), if_pos hstr]
    | succ j =>
      have hj1 : j < strs.length := by simpa using hj
      have he1 : strs[j] = [] := by simpa using he
      have hidx : i + (j + 1) = (i + 1) + j := by omega
      rw [refreshedTable, hidx, ih (i + 1) _ _ j hj1 he1]
      split
      · rfl
      · exact List.getElem?_set_ne (by omega)

/-- The loop of `initButtonKeystrings` gives every entry the offset of its string. -/
theorem initTable_entry (strs : List (List Nat)) :
    ∀ (i x : Nat) (tbl : List Nat) (j : Nat), j < strs.length → i + j < tbl.length →
      (initTable strs i x tbl)[i + j]? = some (x + (encode (strs.take j)).length) := by
  induction strs with
  | nil => intro i x tbl j hj; simp at hj
  | cons str strs ih =>
    intro i x tbl j hj hlt
    cases j with
    | zero =>
      simp only [Nat.add_zero] at hlt ⊢
      rw [initTable, initTable_below strs (i + 1) _ _ i (by omega), List.getElem?_set_self hlt]
      simp [encode]
    | succ j =>
      have hj1 : j < strs.length := by simpa using hj
      have hidx : i + (j + 1) = (i + 1) + j := by omega
      rw [initTable, hidx, ih (i + 1) _ _ j hj1 (by simp; omega)]
      simp [encode]
      omega

/-! ## `setButtonKeystring` on a well-formed store -/

theorem memmove_length (buf : List Nat) (t src n : Nat) (buf1 : List Nat)
    (h : memmove buf t src n = some buf1) : buf1.length = buf.length := by
  unfold memmove at h
  split at h
  · rename_i hb
    cases h
    simp
    omega
  · cases h

theorem writeBytes_length (buf : List Nat) (d : Nat) (bytes buf1 : List Nat)
    (h : writeBytes buf d bytes = some buf1) : buf1.length = buf.length := by
  unfold writeBytes at h
  split at h
  · cases h
    simp
    omega
  · cases h

/-- Block move followed by the copy of the new string, on a packed arena. -/
theorem move_then_copy (A o B R w : List Nat)
    (hfit : A.length + w.length + 1 + B.length ≤ (A ++ (o ++ 0 :: (B ++ R))).length) :
    ∃ buf1, memmove (A ++ (o ++ 0 :: (B ++ R))) (A.length + w.length + 1) (A.length + o.length + 1)
        B.length = some buf1 ∧
      writeBytes buf1 A.length (w ++ [0]) = some (A ++ (w ++ 0 :: (B ++
        (A ++ (o ++ 0 :: (B ++ R))).drop (A.length + w.length + 1 + B.length)))) := by
  have hsrc : (A ++ (o ++ 0 :: (B ++ R))).drop (A.length + o.length + 1) = B ++ R := by
    have : A ++ (o ++ 0 :: (B ++ R)) = (A ++ (o ++ [0])) ++ (B ++ R) := by simp
    rw [this]
    exact List.drop_left' (by simp; omega)
  have hlen : (A ++ (o ++ 0 :: (B ++ R))).length = A.length + o.length + 1 + B.length + R.length := by
    simp; omega
  have htk : ((A ++ (o ++ 0 :: (B ++ R))).take (A.length + w.length + 1)).length
      = A.length + w.length + 1 := by
    rw [List.length_take]; omega
  have hm : memmove (A ++ (o ++ 0 :: (B ++ R))) (A.length + w.length + 1) (A.length + o.length + 1)
      B.length = some ((A ++ (o ++ 0 :: (B ++ R))).take (A.length + w.length + 1) ++
        (B ++ (A ++ (o ++ 0 :: (B ++ R))).drop (A.length + w.length + 1 + B.length))) := by
    unfold memmove
    rw [if_pos ⟨by omega, by omega⟩, hsrc, List.take_left, List.append_assoc]
  refine ⟨_, hm, ?_⟩
  have h1 : List.take A.length ((A ++ (o ++ 0 :: (B ++ R))).take (A.length + w.length + 1) ++
      (B ++ (A ++ (o ++ 0 :: (B ++ R))).drop (A.length + w.length + 1 + B.length))) = A := by
    rw [List.take_append_of_le_length (by omega), List.take_take,
      Nat.min_eq_left (by omega), List.take_left]
  have h2 : List.drop (A.length + (w ++ [0]).length)
      ((A ++ (o ++ 0 :: (B ++ R))).take (A.length + w.length + 1) ++
      (B ++ (A ++ (o ++ 0 :: (B ++ R))).drop (A.length + w.length + 1 + B.length)))
      = B ++ (A ++ (o ++ 0 :: (B ++ R))).drop (A.length + w.length + 1 + B.length) := by
    apply List.drop_left'
    rw [htk]; simp; omega
  have hl1 := memmove_length _ _ _ _ _ hm
  have hwl : (w ++ [0]).length = w.length + 1 := by simp
  unfold writeBytes
  rw [if_pos (by rw [hl1, hwl]; omega)]
  rw [h1, h2]
  simp

/-- The copy of a new string of the same length as the old one. -/
theorem copy_in_place (A o B R w : List Nat) (hlen : w.length = o.length) :
    writeBytes (A ++ (o ++ 0 :: (B ++ R))) A.length (w ++ [0]) = some (A ++ (w ++ 0 :: (B ++ R))) := by
  unfold writeBytes
  rw [if_pos (by simp; omega)]
  congr 1
  rw [List.take_left]
  have : A ++ (o ++ 0 :: (B ++ R)) = (A ++ (o ++ [0])) ++ (B ++ R) := by simp
  rw [this, List.drop_left' (by simp; omega)]
  simp

/-- Decomposition of a well-formed arena around slot `i`. -/
theorem Holds.decompose {cfg : Config} {s : State} {strs : List (List Nat)} (h : Holds cfg s strs)
    (i : Nat) (hi : i < strs.length) :
    ∃ R, s.keystringBuffer
        = encode (strs.take i) ++ (strs[i] ++ 0 :: (encode (strs.drop (i + 1)) ++ R)) ∧
      s.slotSettings.keystringBufferLen
        = (encode (strs.take i)).length + strs[i].length + 1 + (encode (strs.drop (i + 1))).length ∧
      (encode (strs.take i)).length + strs[i].length + 1 + (encode (strs.drop (i + 1))).length
        + R.length = cfg.MAX_KEYSTRINGBUFFER_LEN := by
  obtain ⟨R, hR⟩ := h.packed
  have hsplit := encode_split strs i hi
  refine ⟨R, ?_, ?_, ?_⟩
  · rw [← hR, hsplit]; simp
  · rw [h.used, hsplit]; simp; omega
  · rw [← h.size, ← hR, hsplit]; simp; omega

theorem toInt32_small (x : Int) (h1 : -2147483648 ≤ x) (h2 : x < 2147483648) : toInt32 x = x := by
  unfold toInt32; omega

theorem keystringMove_packed {cfg : Config} {s : State} {strs : List (List Nat)}
    (h : Holds cfg s strs) (i : Nat) (hi : i < strs.length) (v : List Nat)
    (hMAX : cfg.MAX_KEYSTRINGBUFFER_LEN < 65536) (hv : (cstr v).length < 2147483648) :
    keystringMove s i (.other v) = some
      { keystringAddress := (encode (strs.take i)).length
        oldKeyStringLen := strs[i].length
        sourceAddress := (encode (strs.take i)).length + strs[i].length + 1
        newLen := (cstr v).length
        bytesToMove := (encode (strs.drop (i + 1))).length
        delta := ((cstr v).length : Int) - strs[i].length
        targetAddress := (((encode (strs.take i)).length + (cstr v).length + 1 : Nat) : Int) } := by
  obtain ⟨R, hbuf, hlen, hsz⟩ := h.decompose i hi
  obtain ⟨R0, hR0⟩ := h.packed
  have hs : NullFree strs[i] := h.nullFree _ (List.getElem_mem hi)
  have hget : getButtonKeystring s.keystringBuffer i = some (encode (strs.take i)).length := by
    rw [← hR0]; exact getButtonKeystring_packed strs R0 h.nullFree i (by omega)
  have hold : strlenAt s.keystringBuffer s.keystringBuffer.length (encode (strs.take i)).length
      = some strs[i].length := by
    rw [hbuf]; exact strlenAt_at _ _ _ _ hs (length_lt_of_packed _ _ _)
  have hd : toInt32 (((cstr v).length : Int) - strs[i].length) = ((cstr v).length : Int) - strs[i].length :=
    toInt32_small _ (by omega) (by omega)
  simp only [keystringMove, hget, hold, strlenPtr, hd, hlen]
  congr 2
  · omega
  · push_cast; omega

/-- The two writes of `setButtonKeystring` (conditional block move, then copy) on a
packed arena. -/
theorem write_new_string (A o B R w : List Nat)
    (hfit : A.length + w.length + 1 + B.length ≤ (A ++ (o ++ 0 :: (B ++ R))).length) :
    ∃ buf1,
      (if ((w.length : Int) - o.length) ≠ 0 then
          if (((A.length + w.length + 1 : Nat) : Int)) < 0 then none
          else memmove (A ++ (o ++ 0 :: (B ++ R))) (((A.length + w.length + 1 : Nat) : Int)).toNat
            (A.length + o.length + 1) B.length
        else some (A ++ (o ++ 0 :: (B ++ R)))) = some buf1 ∧
      writeBytes buf1 A.length (w ++ [0]) = some (A ++ (w ++ 0 :: (B ++
        (A ++ (o ++ 0 :: (B ++ R))).drop (A.length + w.length + 1 + B.length)))) := by
  by_cases hd : ((w.length : Int) - o.length) ≠ 0
  · obtain ⟨buf1, h1, h2⟩ := move_then_copy A o B R w hfit
    refine ⟨buf1, ?_, h2⟩
    rw [if_pos hd, if_neg (by omega), Int.toNat_ofNat]
    exact h1
  · have hlen : w.length = o.length := by omega
    refine ⟨_, if_neg hd, ?_⟩
    rw [copy_in_place A o B R w hlen]
    congr 3
    have : A ++ (o ++ 0 :: (B ++ R)) = (A ++ (o ++ 0 :: B)) ++ R := by simp
    rw [this, List.drop_left' (by simp; omega)]

theorem nullFree_set {strs : List (List Nat)} (hnf : ∀ str ∈ strs, NullFree str) (i : Nat)
    (w : List Nat) (hw : NullFree w) : ∀ str ∈ strs.set i w, NullFree str := by
  intro str hstr
  rcases List.mem_or_eq_of_mem_set hstr with hm | he
  · exact hnf _ hm
  · exact he ▸ hw

theorem setButtonKeystring_overflow {cfg : Config} {s : State} {strs : List (List Nat)}
    (h : Holds cfg s strs) (i : Nat) (hi : i < strs.length) (v : List Nat)
    (hMAX : cfg.MAX_KEYSTRINGBUFFER_LEN < 65536) (hv : (cstr v).length < 2147483648)
    (hov : cfg.MAX_KEYSTRINGBUFFER_LEN + strs[i].length
      ≤ s.slotSettings.keystringBufferLen + (cstr v).length + 1) :
    setButtonKeystring cfg s i (.other v) = some (s, 0) := by
  obtain ⟨R, hbuf, hlen, hsz⟩ := h.decompose i hi
  unfold setButtonKeystring
  rw [keystringMove_packed h i hi v hMAX hv]
  simp only []
  rw [if_pos]
  unfold doesNotFit
  simp only []
  omega

theorem setButtonKeystring_success {cfg : Config} {s : State} {strs : List (List Nat)}
    (h : Holds cfg s strs) (i : Nat) (hi : i < strs.length) (v : List Nat)
    (hMAX : cfg.MAX_KEYSTRINGBUFFER_LEN < 65536) (hv : (cstr v).length < 2147483648)
    (hfit : s.slotSettings.keystringBufferLen + (cstr v).length + 1
      < cfg.MAX_KEYSTRINGBUFFER_LEN + strs[i].length) :
    setButtonKeystring cfg s i (.other v) = some
      ({ s with
          keystringBuffer := encode (strs.set i (cstr v)) ++
            s.keystringBuffer.drop (encode (strs.set i (cstr v))).length
          buttonKeystrings := refreshedTable (strs.set i (cstr v)) 0 0 s.buttonKeystrings
          slotSettings := { s.slotSettings with
            keystringBufferLen := (encode (strs.set i (cstr v))).length } },
        cfg.MAX_KEYSTRINGBUFFER_LEN - (encode (strs.set i (cstr v))).length) := by
  obtain ⟨R, hbuf, hlen, hsz⟩ := h.decompose i hi
  have henc : encode (strs.set i (cstr v))
      = encode (strs.take i) ++ (cstr v ++ 0 :: encode (strs.drop (i + 1))) := encode_set strs i _ hi
  have hnewlen : (encode (strs.set i (cstr v))).length
      = (encode (strs.take i)).length + (cstr v).length + 1 + (encode (strs.drop (i + 1))).length := by
    rw [henc]; simp; omega
  have hbl : s.keystringBuffer.length = cfg.MAX_KEYSTRINGBUFFER_LEN := h.size
  obtain ⟨buf1, hmv, hcp⟩ := write_new_string (encode (strs.take i)) strs[i]
    (encode (strs.drop (i + 1))) R (cstr v) (by rw [← hbuf, hbl]; omega)
  rw [← hbuf] at hmv hcp
  have hbuf2 : encode (strs.take i) ++ (cstr v ++ 0 :: (encode (strs.drop (i + 1)) ++
      s.keystringBuffer.drop ((encode (strs.take i)).length + (cstr v).length + 1 +
        (encode (strs.drop (i + 1))).length)))
      = encode (strs.set i (cstr v)) ++
          s.keystringBuffer.drop (encode (strs.set i (cstr v))).length := by
    rw [hnewlen, henc]; simp
  rw [hbuf2] at hcp
  have htbl := updateKeystringPointers_packed (strs.set i (cstr v)) []
    (s.keystringBuffer.drop (encode (strs.set i (cstr v))).length) 0 s.buttonKeystrings
    (nullFree_set h.nullFree i _ (cstr_nullFree v))
  rw [List.nil_append, List.length_set, h.count, List.length_nil] at htbl
  unfold setButtonKeystring
  rw [keystringMove_packed h i hi v hMAX hv]
  simp only []
  rw [if_neg (by unfold doesNotFit; simp only []; omega)]
  simp only [Nat.cast_add, Nat.cast_one] at hmv ⊢
  rw [hmv]
  simp only [strcpy]
  rw [hcp]
  simp only []
  rw [htbl]
  simp only []
  have hl1 : (((s.slotSettings.keystringBufferLen : Int) + (((cstr v).length : Int) - strs[i].length))
      % 65536).toNat = (encode (strs.set i (cstr v))).length := by
    rw [hnewlen]; omega
  rw [hl1]
  congr 2
  omega

theorem keystringMove_fields {s : State} {i : Nat} {p : CharPtr} {m : KeystringMove}
    (hm : keystringMove s i p = some m) :
    strlenPtr s.keystringBuffer p = some m.newLen ∧
      m.delta = toInt32 ((m.newLen : Int) - m.oldKeyStringLen) ∧
      m.sourceAddress = m.keystringAddress + m.oldKeyStringLen + 1 ∧
      m.targetAddress = (m.sourceAddress : Int) + m.delta ∧
      m.bytesToMove
        = (((s.slotSettings.keystringBufferLen : Int) - m.sourceAddress) % 65536).toNat := by
  unfold keystringMove at hm
  simp only [] at hm
  split at hm
  · cases hm
  · split at hm
    · cases hm
    · split at hm
      · cases hm
      · rename_i hn
        cases hm
        exact ⟨hn, rfl, rfl, rfl, rfl⟩

/-- A successful call passed the test of line 75 and returned the free capacity. -/
theorem setButtonKeystring_inv {cfg : Config} {s s1 : State} {i r : Nat} {p : CharPtr}
    (hset : setButtonKeystring cfg s i p = some (s1, r)) :
    ∃ m, keystringMove s i p = some m ∧
      ((doesNotFit cfg s m ∧ s1 = s ∧ r = 0) ∨
       (¬ doesNotFit cfg s m ∧
        (∃ buf1, buf1.length = s.keystringBuffer.length ∧
          strcpy buf1 m.keystringAddress p = some s1.keystringBuffer) ∧
        s1.slotSettings.keystringBufferLen
          = (((s.slotSettings.keystringBufferLen : Int) + m.delta) % 65536).toNat ∧
        r = (((cfg.MAX_KEYSTRINGBUFFER_LEN : Int) - s1.slotSettings.keystringBufferLen)
          % 65536).toNat)) := by
  unfold setButtonKeystring at hset
  split at hset
  · cases hset
  · rename_i m hm
    refine ⟨m, hm, ?_⟩
    split at hset
    · rename_i hg
      cases hset
      exact Or.inl ⟨hg, rfl, rfl⟩
    · rename_i hg
      simp only [] at hset
      split at hset
      · cases hset
      · rename_i buf1 hmv
        split at hset
        · cases hset
        · rename_i buf2 hcp
          split at hset
          · cases hset
          · cases hset
            refine Or.inr ⟨hg, ⟨buf1, ?_, hcp⟩, rfl, rfl⟩
            split at hmv
            · split at hmv
              · cases hmv
              · exact memmove_length _ _ _ _ _ hmv
            · cases hmv; rfl

/-- Arithmetic of the test of line 75: when it lets the call pass, the updated
`uint16_t` buffer length stays at least two below the arena size. -/
theorem fit_arith (len old new MAX : Nat) (h0 : 0 < MAX) (hM : MAX < 65536)
    (hg : ¬ (((len : Int) - old + new) % 4294967296 ≥ ((MAX : Int) - 1) % 4294967296)) :
    (((len : Int) + toInt32 ((new : Int) - old)) % 65536).toNat + 1 < MAX := by
  unfold toInt32
  omega

/-- Outcome of any returning call: either the overflow report with the state
untouched, or success with at least two bytes of free capacity reported. -/
theorem setButtonKeystring_cases {cfg : Config} {s s1 : State} {i r : Nat} {p : CharPtr}
    (h0 : 0 < cfg.MAX_KEYSTRINGBUFFER_LEN) (hMAX : cfg.MAX_KEYSTRINGBUFFER_LEN < 65536)
    (hset : setButtonKeystring cfg s i p = some (s1, r)) :
    (s1 = s ∧ r = 0 ∧ ∃ m, keystringMove s i p = some m ∧ doesNotFit cfg s m) ∨
    (s1.slotSettings.keystringBufferLen + 1 < cfg.MAX_KEYSTRINGBUFFER_LEN ∧
      r = cfg.MAX_KEYSTRINGBUFFER_LEN - s1.slotSettings.keystringBufferLen ∧
      ∃ m, keystringMove s i p = some m ∧ ¬ doesNotFit cfg s m) := by
  obtain ⟨m, hm, hcase⟩ := setButtonKeystring_inv hset
  rcases hcase with ⟨hg, hs, hr⟩ | ⟨hg, _, hlen, hr⟩
  · exact Or.inl ⟨hs, hr, m, hm, hg⟩
  · obtain ⟨_, hd, _, _, _⟩ := keystringMove_fields hm
    have := fit_arith s.slotSettings.keystringBufferLen m.oldKeyStringLen m.newLen
      cfg.MAX_KEYSTRINGBUFFER_LEN h0 hMAX hg
    rw [← hd, ← hlen] at this
    refine Or.inr ⟨this, ?_, m, hm, hg⟩
    rw [hr]
    omega

theorem readKeystring_holds {cfg : Config} {s : State} {strs : List (List Nat)}
    (h : Holds cfg s strs) (j : Nat) (hj : j < strs.length) :
    readKeystring s.keystringBuffer j = some strs[j] := by
  obtain ⟨R, hbuf, _, _⟩ := h.decompose j hj
  obtain ⟨R0, hR0⟩ := h.packed
  have hget : getButtonKeystring s.keystringBuffer j = some (encode (strs.take j)).length := by
    rw [← hR0]; exact getButtonKeystring_packed strs R0 h.nullFree j (by omega)
  unfold readKeystring
  rw [hget]
  simp only []
  rw [hbuf]
  exact stringAt_at _ _ _ (h.nullFree _ (List.getElem_mem hj))

theorem newLen_lt_of_success {cfg : Config} {s s1 : State} {i r : Nat} {v : List Nat}
    (hset : setButtonKeystring cfg s i (.other v) = some (s1, r)) (hr : r ≠ 0) :
    (cstr v).length < s.keystringBuffer.length := by
  obtain ⟨m, _, hcase⟩ := setButtonKeystring_inv hset
  rcases hcase with ⟨_, _, h0⟩ | ⟨_, ⟨buf1, hl, hcp⟩, _, _⟩
  · exact absurd h0 hr
  · simp only [strcpy, writeBytes] at hcp
    split at hcp
    · rename_i hb
      simp only [List.length_append, List.length_singleton] at hb
      omega
    · cases hcp

/-- A successful update of slot `i` of a well-formed store: the store is again
well-formed and holds the old strings with entry `i` replaced. -/
theorem setButtonKeystring_holds {cfg : Config} {s s1 : State} {strs : List (List Nat)}
    {i r : Nat} {v : List Nat}
    (h : Holds cfg s strs) (hi : i < strs.length) (hMAX : cfg.MAX_KEYSTRINGBUFFER_LEN < 65536)
    (hset : setButtonKeystring cfg s i (.other v) = some (s1, r)) (hr : r ≠ 0) :
    Holds cfg s1 (strs.set i (cstr v)) ∧
      s.slotSettings.keystringBufferLen + (cstr v).length + 1
        < cfg.MAX_KEYSTRINGBUFFER_LEN + strs[i].length ∧
      r = cfg.MAX_KEYSTRINGBUFFER_LEN - s1.slotSettings.keystringBufferLen ∧
      s1.slotSettings.keystringBufferLen + 1 < cfg.MAX_KEYSTRINGBUFFER_LEN ∧
      s1.buttons = s.buttons ∧ s1.actButton = s.actButton ∧
      s1.buttonKeystrings = refreshedTable (strs.set i (cstr v)) 0 0 s.buttonKeystrings := by
  have hlt := newLen_lt_of_success hset hr
  rw [h.size] at hlt
  have hv : (cstr v).length < 2147483648 := by omega
  by_cases hfit : s.slotSettings.keystringBufferLen + (cstr v).length + 1
      < cfg.MAX_KEYSTRINGBUFFER_LEN + strs[i].length
  · have hsucc := setButtonKeystring_success h i hi v hMAX hv hfit
    rw [hsucc] at hset
    obtain ⟨R, hbuf, hlen, hsz⟩ := h.decompose i hi
    have hnewlen : (encode (strs.set i (cstr v))).length
        = (encode (strs.take i)).length + (cstr v).length + 1
          + (encode (strs.drop (i + 1))).length := by
      rw [encode_set strs i _ hi]; simp; omega
    cases hset
    refine ⟨⟨?_, ?_, ?_, rfl, ?_⟩, hfit, rfl, ?_, rfl, rfl, rfl⟩
    · rw [List.length_set]; exact h.count
    · exact nullFree_set h.nullFree i _ (cstr_nullFree v)
    · exact ⟨_, rfl⟩
    · simp only [List.length_append, List.length_drop]
      rw [h.size]; omega
    · simp only []
      omega
  · have hov := setButtonKeystring_overflow h i hi v hMAX hv (by omega)
    rw [hov] at hset
    cases hset
    exact absurd rfl hr

/-! ## Initialisation and call sequences -/

theorem encode_replicate_nil (n : Nat) : encode (List.replicate n []) = List.replicate n 0 := by
  induction n with
  | zero => rfl
  | succ n ih => simp [List.replicate_succ, encode, ih]

/-- An all-zero arena holds `NUMBER_OF_BUTTONS` empty strings. -/
theorem holds_zero (cfg : Config) (s : State)
    (hN : cfg.NUMBER_OF_BUTTONS ≤ cfg.MAX_KEYSTRINGBUFFER_LEN)
    (hbuf : s.keystringBuffer = List.replicate cfg.MAX_KEYSTRINGBUFFER_LEN 0)
    (hlen : s.slotSettings.keystringBufferLen = cfg.NUMBER_OF_BUTTONS) :
    Holds cfg s (List.replicate cfg.NUMBER_OF_BUTTONS []) := by
  refine ⟨by simp, ?_, ?_, ?_, by simp [hbuf]⟩
  · intro str hstr
    rw [List.eq_of_mem_replicate hstr]
    intro c hc
    cases hc
  · rw [encode_replicate_nil, hbuf]
    refine ⟨List.replicate (cfg.MAX_KEYSTRINGBUFFER_LEN - cfg.NUMBER_OF_BUTTONS) 0, ?_⟩
    rw [List.append_replicate_replicate]
    congr 1
    omega
  · rw [encode_replicate_nil, hlen]; simp

/-- On a well-formed store `initButtonKeystrings` recomputes the same buffer length. -/
theorem initButtonKeystrings_packed (cfg : Config) (s : State) {strs : List (List Nat)}
    (hcount : strs.length = cfg.NUMBER_OF_BUTTONS) (hnf : ∀ str ∈ strs, NullFree str)
    (hp : encode strs <+: s.keystringBuffer) (hsz : s.keystringBuffer.length < 65536) :
    initButtonKeystrings cfg s = some { s with
      buttonKeystrings := initTable strs 0 0 s.buttonKeystrings
      slotSettings := { s.slotSettings with keystringBufferLen := (encode strs).length } } := by
  obtain ⟨R, hR⟩ := hp
  have h1 := initButtonKeystringsLoop_packed strs [] R 0 s.buttonKeystrings hnf
    (by rw [List.nil_append, hR]; exact hsz)
  rw [List.nil_append, hR, hcount, List.length_nil, Nat.zero_add] at h1
  unfold initButtonKeystrings
  rw [h1]

theorem initButtonKeystrings_zero (cfg : Config) (s0 : State)
    (hN : cfg.NUMBER_OF_BUTTONS ≤ cfg.MAX_KEYSTRINGBUFFER_LEN)
    (hMAX : cfg.MAX_KEYSTRINGBUFFER_LEN < 65536)
    (hbuf : s0.keystringBuffer = List.replicate cfg.MAX_KEYSTRINGBUFFER_LEN 0) :
    ∃ s1, initButtonKeystrings cfg s0 = some s1 ∧
      Holds cfg s1 (List.replicate cfg.NUMBER_OF_BUTTONS []) := by
  have h0 : Holds cfg { s0 with slotSettings :=
      { s0.slotSettings with keystringBufferLen := cfg.NUMBER_OF_BUTTONS } }
      (List.replicate cfg.NUMBER_OF_BUTTONS []) := holds_zero cfg _ hN hbuf rfl
  have hinit := initButtonKeystrings_packed cfg s0 h0.count h0.nullFree
    h0.packed (by rw [hbuf]; simpa using hMAX)
  refine ⟨_, hinit, ?_⟩
  exact ⟨h0.count, h0.nullFree, h0.packed, rfl, h0.size⟩

/-- Every call on a well-formed store returns, and leaves a well-formed store. -/
theorem setButtonKeystring_total {cfg : Config} {s : State} {strs : List (List Nat)}
    (h : Holds cfg s strs) (i : Nat) (hi : i < cfg.NUMBER_OF_BUTTONS) (v : List Nat)
    (hMAX : cfg.MAX_KEYSTRINGBUFFER_LEN < 65536) (hv : (cstr v).length < 2147483648) :
    ∃ s1 r strs1, setButtonKeystring cfg s i (.other v) = some (s1, r) ∧ Holds cfg s1 strs1 := by
  have hi1 : i < strs.length := by rw [h.count]; exact hi
  by_cases hfit : s.slotSettings.keystringBufferLen + (cstr v).length + 1
      < cfg.MAX_KEYSTRINGBUFFER_LEN + strs[i].length
  · have hsucc := setButtonKeystring_success h i hi1 v hMAX hv hfit
    have hne : cfg.MAX_KEYSTRINGBUFFER_LEN - (encode (strs.set i (cstr v))).length ≠ 0 := by
      obtain ⟨R, hbuf, hlen, hsz⟩ := h.decompose i hi1
      have : (encode (strs.set i (cstr v))).length
          = (encode (strs.take i)).length + (cstr v).length + 1
            + (encode (strs.drop (i + 1))).length := by
        rw [encode_set strs i _ hi1]; simp; omega
      omega
    exact ⟨_, _, _, hsucc, (setButtonKeystring_holds h hi1 hMAX hsucc hne).1⟩
  · exact ⟨s, 0, strs, setButtonKeystring_overflow h i hi1 v hMAX hv (by omega), h⟩

theorem runCalls_holds (cfg : Config) (hMAX : cfg.MAX_KEYSTRINGBUFFER_LEN < 65536)
    (calls : List (Nat × List Nat)) :
    ∀ (s : State) (strs : List (List Nat)), Holds cfg s strs →
      (∀ c ∈ calls, c.1 < cfg.NUMBER_OF_BUTTONS ∧ (cstr c.2).length < 2147483648) →
      ∃ s1 strs1, runCalls cfg s calls = some s1 ∧ Holds cfg s1 strs1 := by
  induction calls with
  | nil => intro s strs h _; exact ⟨s, strs, rfl, h⟩
  | cons c calls ih =>
    intro s strs h hc
    obtain ⟨i, v⟩ := c
    have hiv := hc (i, v) (by simp)
    obtain ⟨s1, r, strs1, hset, h1⟩ := setButtonKeystring_total h i hiv.1 v hMAX hiv.2
    obtain ⟨s2, strs2, hrun, h2⟩ := ih s1 strs1 h1 (fun c hcm => hc c (by simp [hcm]))
    exact ⟨s2, strs2, by simp only [runCalls, hset, hrun], h2⟩

theorem holds_used_le {cfg : Config} {s : State} {strs : List (List Nat)} (h : Holds cfg s strs) :
    s.slotSettings.keystringBufferLen ≤ cfg.MAX_KEYSTRINGBUFFER_LEN := by
  obtain ⟨R, hR⟩ := h.packed
  rw [h.used, ← h.size, ← hR]
  simp

/-! ## The programming-mode branch of `performCommand` -/

theorem assignButton_eq (buttons : List slotButtonSettings) (i : Nat)
    (f : slotButtonSettings → slotButtonSettings) (hi : i < buttons.length) :
    assignButton buttons i f = some (buttons.set i (f buttons[i])) := by
  unfold assignButton
  rw [List.getElem?_eq_getElem hi]

theorem performCommand_pending (env : Collaborators) (cfg : Config) (s : State) (cmd : Nat)
    (par1 : Int) (ks : CharPtr) (pm : Int) (hact : s.actButton ≠ 0)
    (hb : s.actButton - 1 < s.buttons.length) :
    performCommand env cfg s cmd par1 ks pm =
      match setButtonKeystring cfg
          { s with buttons := s.buttons.set (s.actButton - 1) ⟨cmd, par1⟩ } (s.actButton - 1) ks with
      | none => none
      | some (s1, _) => some ({ s1 with actButton := 0 }, []) := by
  unfold performCommand
  rw [if_pos hact, assignButton_eq _ _ _ hb]
  simp only []
  rw [assignButton_eq _ _ _ (by simpa using hb)]
  simp

theorem performCommand_normal (env : Collaborators) (cfg : Config) (s : State) (cmd : Nat)
    (par1 : Int) (ks : CharPtr) (pm : Int) (hact : s.actButton = 0) :
    performCommand env cfg s cmd par1 ks pm =
      match atCommands.ofCode cmd with
      | none => some (s, [])
      | some c => dispatch env cfg s par1 ks c := by
  unfold performCommand
  rw [if_neg (by simp [hact])]

theorem Holds.congr {cfg : Config} {s t : State} {strs : List (List Nat)} (h : Holds cfg s strs)
    (hbuf : t.keystringBuffer = s.keystringBuffer)
    (hlen : t.slotSettings.keystringBufferLen = s.slotSettings.keystringBufferLen) :
    Holds cfg t strs :=
  ⟨h.count, h.nullFree, hbuf ▸ h.packed, hlen ▸ h.used, hbuf ▸ h.size⟩

/-- A string that passes the test of line 75 is stored. -/
theorem setButtonKeystring_fits {cfg : Config} {s : State} {strs : List (List Nat)}
    (h : Holds cfg s strs) (i : Nat) (hi : i < strs.length) (v : List Nat)
    (hMAX : cfg.MAX_KEYSTRINGBUFFER_LEN < 65536) (hv : (cstr v).length < 2147483648)
    (hfit : s.slotSettings.keystringBufferLen + (cstr v).length + 1
      < cfg.MAX_KEYSTRINGBUFFER_LEN + strs[i].length) :
    ∃ s1 r, setButtonKeystring cfg s i (.other v) = some (s1, r) ∧ r ≠ 0 ∧
      Holds cfg s1 (strs.set i (cstr v)) ∧ s1.buttons = s.buttons ∧ s1.actButton = s.actButton ∧
      s1.buttonKeystrings = refreshedTable (strs.set i (cstr v)) 0 0 s.buttonKeystrings := by
  have hsucc := setButtonKeystring_success h i hi v hMAX hv hfit
  have hne : cfg.MAX_KEYSTRINGBUFFER_LEN - (encode (strs.set i (cstr v))).length ≠ 0 := by
    obtain ⟨R, hbuf, hlen, hsz⟩ := h.decompose i hi
    have : (encode (strs.set i (cstr v))).length
        = (encode (strs.take i)).length + (cstr v).length + 1
          + (encode (strs.drop (i + 1))).length := by
      rw [encode_set strs i _ hi]; simp; omega
    omega
  obtain ⟨h1, _, _, _, hb, ha, ht⟩ := setButtonKeystring_holds h hi hMAX hsucc hne
  exact ⟨_, _, hsucc, hne, h1, hb, ha, ht⟩

/-- In a table left by the update loop, the entry of a non-empty string is the
address `getButtonKeystring` computes. -/
theorem refreshed_entry_consistent {cfg : Config} {s : State} {strs : List (List Nat)}
    (h : Holds cfg s strs) (tbl : List Nat)
    (htbl : s.buttonKeystrings = refreshedTable strs 0 0 tbl) (j : Nat) (hj : j < strs.length)
    (hne : strs[j] ≠ []) (hlt : j < tbl.length) :
    s.buttonKeystrings[j]? = getButtonKeystring s.keystringBuffer j := by
  obtain ⟨R, hR⟩ := h.packed
  have h1 := refreshedTable_entry strs 0 0 tbl j hj hne (by omega)
  rw [Nat.zero_add, Nat.zero_add] at h1
  rw [htbl, h1, ← hR, getButtonKeystring_packed strs R h.nullFree j (by omega)]

/-! ## The example states -/

set_option maxRecDepth 100000 in
theorem initButtons_zeroState : initButtons demoConfig (zeroState demoConfig) = some demoState := by
  rfl

set_option maxRecDepth 100000 in
theorem demoState_holds : Holds demoConfig demoState defaultKeystrings :=
  ⟨rfl, by decide, ⟨_, rfl⟩, rfl, rfl⟩

set_option maxRecDepth 100000 in
theorem demoState_set : setButtonKeystring demoConfig demoState 2 (.other (bytesOf "KEY_A"))
    = some (demoAfter, 434) := by
  rfl

/-! ## Claims -/

/-- C1 (round trip): in a well-formed store, after a successful
`setButtonKeystring(i, v)` with a null-free string `v` held outside the arena, the
string read at `getButtonKeystring(i)` is exactly `v`. -/
theorem C1_roundtrip (cfg : Config) (s s1 : State) (strs : List (List Nat)) (i r : Nat)
    (v : List Nat) (hwf : Holds cfg s strs) (hi : i < cfg.NUMBER_OF_BUTTONS) (hv : NullFree v)
    (hMAX : cfg.MAX_KEYSTRINGBUFFER_LEN < 65536)
    (hset : setButtonKeystring cfg s i (.other v) = some (s1, r)) (hr : r ≠ 0) :
    readKeystring s1.keystringBuffer i = some v := by
  have hi1 : i < strs.length := by rw [hwf.count]; exact hi
  obtain ⟨h1, _⟩ := setButtonKeystring_holds hwf hi1 hMAX hset hr
  have hi2 : i < (strs.set i (cstr v)).length := by rw [List.length_set]; exact hi1
  rw [readKeystring_holds h1 i hi2, List.getElem_set_self, cstr_of_nullFree v hv]

/-- Witness of C1: writing "KEY_A" to slot 2 of the default store and reading it back. -/
theorem C1_roundtrip_witness :
    Holds demoConfig demoState defaultKeystrings ∧
      setButtonKeystring demoConfig demoState 2 (.other (bytesOf "KEY_A")) = some (demoAfter, 434) ∧
      readKeystring demoAfter.keystringBuffer 2 = some (bytesOf "KEY_A") :=
  ⟨demoState_holds, demoState_set,
    C1_roundtrip demoConfig demoState demoAfter defaultKeystrings 2 434 (bytesOf "KEY_A")
      demoState_holds (by decide) (by decide) (by decide) demoState_set (by decide)⟩

/-- Frame law for a string `v` held outside the arena: in a well-formed store, a
successful `setButtonKeystring(i, v)` leaves the string read at
`getButtonKeystring(j)` of every other slot `j` as it was. -/
theorem frame_outside_arena (cfg : Config) (s s1 : State) (strs : List (List Nat)) (i j r : Nat)
    (v : List Nat) (hwf : Holds cfg s strs) (hi : i < cfg.NUMBER_OF_BUTTONS)
    (hj : j < cfg.NUMBER_OF_BUTTONS) (hij : i ≠ j) (hMAX : cfg.MAX_KEYSTRINGBUFFER_LEN < 65536)
    (hset : setButtonKeystring cfg s i (.other v) = some (s1, r)) (hr : r ≠ 0) :
    ∃ str, readKeystring s.keystringBuffer j = some str ∧
      readKeystring s1.keystringBuffer j = some str := by
  have hi1 : i < strs.length := by rw [hwf.count]; exact hi
  have hj1 : j < strs.length := by rw [hwf.count]; exact hj
  obtain ⟨h1, _⟩ := setButtonKeystring_holds hwf hi1 hMAX hset hr
  have hj2 : j < (strs.set i (cstr v)).length := by rw [List.length_set]; exact hj1
  refine ⟨strs[j], readKeystring_holds hwf j hj1, ?_⟩
  rw [readKeystring_holds h1 j hj2, List.getElem_set_ne hij]

/-- Example of the frame law: writing slot 2 of the default store keeps "KEY_LEFT "
in slot 3. -/
theorem frame_outside_arena_example :
    Holds demoConfig demoState defaultKeystrings ∧
      setButtonKeystring demoConfig demoState 2 (.other (bytesOf "KEY_A")) = some (demoAfter, 434) ∧
      ∃ str, readKeystring demoState.keystringBuffer 3 = some str ∧
        readKeystring demoAfter.keystringBuffer 3 = some str :=
  ⟨demoState_holds, demoState_set,
    frame_outside_arena demoConfig demoState demoAfter defaultKeystrings 2 3 434 (bytesOf "KEY_A")
      demoState_holds (by decide) (by decide) (by decide) (by decide) demoState_set (by decide)⟩

/-- C3 (overflow safety): a call that returns 0 leaves the arena, the pointer table
and `keystringBufferLen` as they were, so every slot reads as before.  The arena
size is a positive 16-bit number. -/
theorem C3_overflow_safety (cfg : Config) (s s1 : State) (i : Nat) (p : CharPtr)
    (h0 : 0 < cfg.MAX_KEYSTRINGBUFFER_LEN) (hMAX : cfg.MAX_KEYSTRINGBUFFER_LEN < 65536)
    (hset : setButtonKeystring cfg s i p = some (s1, 0)) :
    s1 = s ∧ s1.keystringBuffer = s.keystringBuffer ∧ s1.buttonKeystrings = s.buttonKeystrings ∧
      s1.slotSettings.keystringBufferLen = s.slotSettings.keystringBufferLen ∧
      ∀ j, readKeystring s1.keystringBuffer j = readKeystring s.keystringBuffer j := by
  have hs : s1 = s := by
    rcases setButtonKeystring_cases h0 hMAX hset with ⟨hs, _, _⟩ | ⟨hlt, hr, _⟩
    · exact hs
    · omega
  subst hs
  exact ⟨rfl, rfl, rfl, rfl, fun _ => rfl⟩

set_option maxRecDepth 100000 in
/-- Witness of C3: a 500-byte string does not fit the default store. -/
theorem C3_overflow_safety_witness :
    setButtonKeystring demoConfig demoState 2 (.other (List.replicate 500 65)) = some (demoState, 0) ∧
      (demoState = demoState ∧ demoState.keystringBuffer = demoState.keystringBuffer ∧
        demoState.buttonKeystrings = demoState.buttonKeystrings ∧
        demoState.slotSettings.keystringBufferLen = demoState.slotSettings.keystringBufferLen ∧
        ∀ j, readKeystring demoState.keystringBuffer j = readKeystring demoState.keystringBuffer j) :=
  ⟨by rfl, C3_overflow_safety demoConfig demoState demoState 2 (.other (List.replicate 500 65))
    (by decide) (by decide) (by rfl)⟩

set_option maxRecDepth 100000 in
/-- C4 (pointer-table consistency), evaluated on the code: booting on an all-zero
arena and storing the first two default keystrings leaves the table entry of the
empty slot 2 at offset 2, although string 2 now starts at offset 22; the table
`0, 11, 2` is neither consistent with `getButtonKeystring` nor non-decreasing. -/
theorem C4_stale_pointer :
    (match initButtonKeystrings demoConfig (zeroState demoConfig) with
      | none => none
      | some s => runCalls demoConfig s [(0, bytesOf "KEY_SPACE "), (1, bytesOf "KEY_ENTER ")]).map
        (fun (s : State) => (s.buttonKeystrings.take 3,
          (List.range 3).map (getButtonKeystring s.keystringBuffer)))
      = some ([0, 11, 2], [some 0, some 11, some 22]) := by
  rfl

set_option maxRecDepth 100000 in
/-- C5 as stated fails: in the default store (61 bytes used, slot 2 empty) a string
of 438 bytes gives the sum 499, which is at most `MAX_KEYSTRINGBUFFER_LEN - 1`, and
the call reports overflow. -/
theorem C5_counterexample :
    Holds demoConfig demoState defaultKeystrings ∧
      readKeystring demoState.keystringBuffer 2 = some [] ∧
      demoState.slotSettings.keystringBufferLen - ([] : List Nat).length
        + (cstr (List.replicate 438 65)).length ≤ demoConfig.MAX_KEYSTRINGBUFFER_LEN - 1 ∧
      setButtonKeystring demoConfig demoState 2 (.other (List.replicate 438 65))
        = some (demoState, 0) :=
  ⟨demoState_holds, by rfl, by decide, by rfl⟩

/-- C5 (overflow condition, amended): in a well-formed store the call reports overflow
(returns 0, state untouched) when `keystringBufferLen - len(current string i) + len(v)`
is at least `MAX_KEYSTRINGBUFFER_LEN - 1`, and succeeds with a non-zero return value
when that sum is below `MAX_KEYSTRINGBUFFER_LEN - 1`. -/
theorem C5_overflow_condition (cfg : Config) (s : State) (strs : List (List Nat)) (i : Nat)
    (v old : List Nat) (hwf : Holds cfg s strs) (hi : i < cfg.NUMBER_OF_BUTTONS)
    (hMAX : cfg.MAX_KEYSTRINGBUFFER_LEN < 65536) (hv : (cstr v).length < 2147483648)
    (hold : readKeystring s.keystringBuffer i = some old) :
    (cfg.MAX_KEYSTRINGBUFFER_LEN - 1
        ≤ s.slotSettings.keystringBufferLen - old.length + (cstr v).length →
      setButtonKeystring cfg s i (.other v) = some (s, 0)) ∧
    (s.slotSettings.keystringBufferLen - old.length + (cstr v).length
        < cfg.MAX_KEYSTRINGBUFFER_LEN - 1 →
      ∃ s1 r, setButtonKeystring cfg s i (.other v) = some (s1, r) ∧ r ≠ 0) := by
  have hi1 : i < strs.length := by rw [hwf.count]; exact hi
  have hrd := readKeystring_holds hwf i hi1
  rw [hold] at hrd
  have hold1 : old = strs[i] := Option.some.inj hrd
  obtain ⟨R, hbuf, hlen, hsz⟩ := hwf.decompose i hi1
  rw [← hold1] at hlen
  constructor
  · intro hge
    exact setButtonKeystring_overflow hwf i hi1 v hMAX hv (by rw [← hold1]; omega)
  · intro hlt
    have hsucc := setButtonKeystring_success hwf i hi1 v hMAX hv
      (by rw [← hold1]; omega)
    refine ⟨_, _, hsucc, ?_⟩
    have : (encode (strs.set i (cstr v))).length
        = (encode (strs.take i)).length + (cstr v).length + 1
          + (encode (strs.drop (i + 1))).length := by
      rw [encode_set strs i _ hi1]; simp; omega
    omega

set_option maxRecDepth 100000 in
/-- Witness of C5 (amended): "KEY_A" fits slot 2 of the default store. -/
theorem C5_overflow_condition_witness :
    Holds demoConfig demoState defaultKeystrings ∧
      readKeystring demoState.keystringBuffer 2 = some [] ∧
      ((demoConfig.MAX_KEYSTRINGBUFFER_LEN - 1
          ≤ demoState.slotSettings.keystringBufferLen - ([] : List Nat).length
            + (cstr (bytesOf "KEY_A")).length →
        setButtonKeystring demoConfig demoState 2 (.other (bytesOf "KEY_A")) = some (demoState, 0)) ∧
      (demoState.slotSettings.keystringBufferLen - ([] : List Nat).length
          + (cstr (bytesOf "KEY_A")).length < demoConfig.MAX_KEYSTRINGBUFFER_LEN - 1 →
        ∃ s1 r, setButtonKeystring demoConfig demoState 2 (.other (bytesOf "KEY_A")) = some (s1, r)
          ∧ r ≠ 0)) :=
  ⟨demoState_holds, by rfl,
    C5_overflow_condition demoConfig demoState defaultKeystrings 2 (bytesOf "KEY_A") []
      demoState_holds (by decide) (by decide) (by decide) (by rfl)⟩

/-- Packing law for a string held outside the arena: a successful
`setButtonKeystring` on a well-formed store leaves a well-formed store: the strings
(the old ones with entry `i` replaced) are packed from offset 0, `keystringBufferLen`
is the sum of their lengths plus `NUMBER_OF_BUTTONS`, and `initButtonKeystrings`
recomputes that same value. -/
theorem packing_outside_arena (cfg : Config) (s s1 : State) (strs : List (List Nat)) (i r : Nat)
    (v : List Nat) (hwf : Holds cfg s strs) (hi : i < cfg.NUMBER_OF_BUTTONS)
    (hMAX : cfg.MAX_KEYSTRINGBUFFER_LEN < 65536)
    (hset : setButtonKeystring cfg s i (.other v) = some (s1, r)) (hr : r ≠ 0) :
    Holds cfg s1 (strs.set i (cstr v)) ∧
      s1.slotSettings.keystringBufferLen
        = ((strs.set i (cstr v)).map List.length).sum + cfg.NUMBER_OF_BUTTONS ∧
      (initButtonKeystrings cfg s1).map (fun t => t.slotSettings.keystringBufferLen)
        = some s1.slotSettings.keystringBufferLen := by
  have hi1 : i < strs.length := by rw [hwf.count]; exact hi
  obtain ⟨h1, _⟩ := setButtonKeystring_holds hwf hi1 hMAX hset hr
  refine ⟨h1, ?_, ?_⟩
  · rw [h1.used, encode_length, h1.count]
  · have hinit := initButtonKeystrings_packed cfg s1 h1.count
      h1.nullFree h1.packed (by rw [h1.size]; exact hMAX)
    rw [hinit, h1.used]
    rfl

/-- Example of the packing law: the default store after writing "KEY_A" to slot 2. -/
theorem packing_outside_arena_example :
    Holds demoConfig demoState defaultKeystrings ∧
      setButtonKeystring demoConfig demoState 2 (.other (bytesOf "KEY_A")) = some (demoAfter, 434) ∧
      (Holds demoConfig demoAfter (defaultKeystrings.set 2 (cstr (bytesOf "KEY_A"))) ∧
        demoAfter.slotSettings.keystringBufferLen
          = ((defaultKeystrings.set 2 (cstr (bytesOf "KEY_A"))).map List.length).sum
            + demoConfig.NUMBER_OF_BUTTONS ∧
        (initButtonKeystrings demoConfig demoAfter).map (fun t => t.slotSettings.keystringBufferLen)
          = some demoAfter.slotSettings.keystringBufferLen) :=
  ⟨demoState_holds, demoState_set,
    packing_outside_arena demoConfig demoState demoAfter defaultKeystrings 2 434 (bytesOf "KEY_A")
      demoState_holds (by decide) (by decide) demoState_set (by decide)⟩

/-- Capacity law for strings held outside the arena: with
`NUMBER_OF_BUTTONS <= MAX_KEYSTRINGBUFFER_LEN - 2` (and a 16-bit arena size),
`initButtonKeystrings` on an all-zero arena and every following
sequence of `setButtonKeystring` calls with index below `NUMBER_OF_BUTTONS` and a
string held outside the arena run without leaving the arena; in the state reached
`keystringBufferLen` is at most `MAX_KEYSTRINGBUFFER_LEN`, and the next such call
returns and, when it passes the test of line 75, writes only inside the arena. -/
theorem capacity_outside_arena (cfg : Config) (s0 : State) (calls : List (Nat × List Nat))
    (hN : cfg.NUMBER_OF_BUTTONS ≤ cfg.MAX_KEYSTRINGBUFFER_LEN - 2)
    (hMAX : cfg.MAX_KEYSTRINGBUFFER_LEN < 65536)
    (hzero : s0.keystringBuffer = List.replicate cfg.MAX_KEYSTRINGBUFFER_LEN 0)
    (hcalls : ∀ c ∈ calls, c.1 < cfg.NUMBER_OF_BUTTONS ∧ (cstr c.2).length < 2147483648) :
    ∃ s1 s, initButtonKeystrings cfg s0 = some s1 ∧ runCalls cfg s1 calls = some s ∧
      s.slotSettings.keystringBufferLen ≤ cfg.MAX_KEYSTRINGBUFFER_LEN ∧
      s.keystringBuffer.length = cfg.MAX_KEYSTRINGBUFFER_LEN ∧
      ∀ i v, i < cfg.NUMBER_OF_BUTTONS → (cstr v).length < 2147483648 →
        (setButtonKeystring cfg s i (.other v)).isSome ∧
        ∃ m, keystringMove s i (.other v) = some m ∧
          (¬ doesNotFit cfg s m → writesInBounds cfg m) := by
  obtain ⟨s1, hinit, hw1⟩ := initButtonKeystrings_zero cfg s0 (by omega) hMAX hzero
  obtain ⟨s, strs, hrun, hw⟩ := runCalls_holds cfg hMAX calls s1 _ hw1 hcalls
  refine ⟨s1, s, hinit, hrun, holds_used_le hw, hw.size, ?_⟩
  intro i v hi hv
  have hi1 : i < strs.length := by rw [hw.count]; exact hi
  constructor
  · obtain ⟨s2, r, _, hset, _⟩ := setButtonKeystring_total hw i hi v hMAX hv
    rw [hset]; rfl
  · refine ⟨_, keystringMove_packed hw i hi1 v hMAX hv, ?_⟩
    intro hfit
    obtain ⟨R, hbuf, hlen, hsz⟩ := hw.decompose i hi1
    unfold doesNotFit at hfit
    simp only [] at hfit
    unfold writesInBounds
    simp only []
    omega

set_option maxRecDepth 100000 in
/-- Example of the capacity law: the first two default keystrings stored after boot. -/
theorem capacity_outside_arena_example :
    demoConfig.NUMBER_OF_BUTTONS ≤ demoConfig.MAX_KEYSTRINGBUFFER_LEN - 2 ∧
      ∃ s1 s, initButtonKeystrings demoConfig (zeroState demoConfig) = some s1 ∧
        runCalls demoConfig s1 [(0, bytesOf "KEY_SPACE "), (1, bytesOf "KEY_ENTER ")] = some s ∧
        s.slotSettings.keystringBufferLen ≤ demoConfig.MAX_KEYSTRINGBUFFER_LEN ∧
        s.keystringBuffer.length = demoConfig.MAX_KEYSTRINGBUFFER_LEN ∧
        ∀ i v, i < demoConfig.NUMBER_OF_BUTTONS → (cstr v).length < 2147483648 →
          (setButtonKeystring demoConfig s i (.other v)).isSome ∧
          ∃ m, keystringMove s i (.other v) = some m ∧
            (¬ doesNotFit demoConfig s m → writesInBounds demoConfig m) :=
  ⟨by decide,
    capacity_outside_arena demoConfig (zeroState demoConfig)
      [(0, bytesOf "KEY_SPACE "), (1, bytesOf "KEY_ENTER ")] (by decide) (by decide) rfl
      (by decide)⟩

/-- C8 (return value): for a positive 16-bit arena size, every returning call
returns 0 exactly when the test of line 75 reported overflow; otherwise it returns
`MAX_KEYSTRINGBUFFER_LEN` minus the updated `keystringBufferLen`, which is not 0. -/
theorem C8_return_value (cfg : Config) (s s1 : State) (i r : Nat) (p : CharPtr)
    (h0 : 0 < cfg.MAX_KEYSTRINGBUFFER_LEN) (hMAX : cfg.MAX_KEYSTRINGBUFFER_LEN < 65536)
    (hset : setButtonKeystring cfg s i p = some (s1, r)) :
    ∃ m, keystringMove s i p = some m ∧ (r = 0 ↔ doesNotFit cfg s m) ∧
      (¬ doesNotFit cfg s m →
        r = cfg.MAX_KEYSTRINGBUFFER_LEN - s1.slotSettings.keystringBufferLen ∧ r ≠ 0) := by
  rcases setButtonKeystring_cases h0 hMAX hset with ⟨_, hr, m, hm, hg⟩ | ⟨hlt, hr, m, hm, hg⟩
  · exact ⟨m, hm, ⟨fun _ => hg, fun _ => hr⟩, fun hn => absurd hg hn⟩
  · refine ⟨m, hm, ⟨fun h => ?_, fun h => absurd h hg⟩, fun _ => ⟨hr, by omega⟩⟩
    omega

/-- Witness of C8: writing "KEY_A" to slot 2 of the default store returns 434. -/
theorem C8_return_value_witness :
    setButtonKeystring demoConfig demoState 2 (.other (bytesOf "KEY_A")) = some (demoAfter, 434) ∧
      ∃ m, keystringMove demoState 2 (.other (bytesOf "KEY_A")) = some m ∧
        (434 = 0 ↔ doesNotFit demoConfig demoState m) ∧
        (¬ doesNotFit demoConfig demoState m →
          434 = demoConfig.MAX_KEYSTRINGBUFFER_LEN - demoAfter.slotSettings.keystringBufferLen
            ∧ 434 ≠ 0) :=
  ⟨demoState_set,
    C8_return_value demoConfig demoState demoAfter 2 434 (.other (bytesOf "KEY_A"))
      (by decide) (by decide) demoState_set⟩

/-- Capture law for a keystring held outside the arena: while target `t` is pending,
`performCommand` with any command code, parameter and null-free keystring that passes
the test of line 75 emits no effect, leaves `buttons[t-1]` with that code and parameter and slot `t-1` of
the store with that keystring, leaves every other button and slot as it was, and
clears the pending target, so that the next call runs the `switch`. -/
theorem capture_outside_arena (env : Collaborators) (cfg : Config) (s : State)
    (strs : List (List Nat)) (t cmd : Nat) (par1 : Int) (ks old : List Nat) (pm : Int)
    (hwf : Holds cfg s strs) (hbtn : s.buttons.length = cfg.NUMBER_OF_BUTTONS)
    (hMAX : cfg.MAX_KEYSTRINGBUFFER_LEN < 65536)
    (ht1 : 1 ≤ t) (htN : t ≤ cfg.NUMBER_OF_BUTTONS) (hpend : s.actButton = t)
    (hks : NullFree ks) (hold : readKeystring s.keystringBuffer (t - 1) = some old)
    (hfit : s.slotSettings.keystringBufferLen - old.length + ks.length
      < cfg.MAX_KEYSTRINGBUFFER_LEN - 1) :
    ∃ s1, performCommand env cfg s cmd par1 (.other ks) pm = some (s1, []) ∧
      s1.buttons[t - 1]? = some ⟨cmd, par1⟩ ∧
      readKeystring s1.keystringBuffer (t - 1) = some ks ∧
      (∀ j, j < cfg.NUMBER_OF_BUTTONS → j ≠ t - 1 →
        s1.buttons[j]? = s.buttons[j]? ∧
        readKeystring s1.keystringBuffer j = readKeystring s.keystringBuffer j) ∧
      (ks ≠ [] → s.buttonKeystrings.length = cfg.NUMBER_OF_BUTTONS →
        s1.buttonKeystrings[t - 1]? = getButtonKeystring s1.keystringBuffer (t - 1)) ∧
      s1.actButton = 0 ∧
      ∀ cmd2 par2 ks2 pm2, performCommand env cfg s1 cmd2 par2 ks2 pm2 =
        match atCommands.ofCode cmd2 with
        | none => some (s1, [])
        | some c => dispatch env cfg s1 par2 ks2 c := by
  subst hpend
  have hi1 : s.actButton - 1 < strs.length := by rw [hwf.count]; omega
  have hrd := readKeystring_holds hwf (s.actButton - 1) hi1
  rw [hold] at hrd
  have hold1 : old = strs[s.actButton - 1] := Option.some.inj hrd
  obtain ⟨R, hbuf, hlen, hsz⟩ := hwf.decompose (s.actButton - 1) hi1
  rw [← hold1] at hlen
  have hcs : cstr ks = ks := cstr_of_nullFree ks hks
  have hwb : Holds cfg { s with buttons := s.buttons.set (s.actButton - 1) ⟨cmd, par1⟩ } strs :=
    hwf.congr rfl rfl
  obtain ⟨s2, r, hset, _, h2, hb2, _, ht2⟩ := setButtonKeystring_fits hwb (s.actButton - 1) hi1 ks hMAX
    (by rw [hcs]; omega) (by rw [hcs, ← hold1]; simp only []; omega)
  have hpc := performCommand_pending env cfg s cmd par1 (.other ks) pm (by omega)
    (by rw [hbtn]; omega)
  rw [hset] at hpc
  have h3 : Holds cfg { s2 with actButton := 0 } (strs.set (s.actButton - 1) (cstr ks)) :=
    h2.congr rfl rfl
  have hlen3 : ∀ j, j < cfg.NUMBER_OF_BUTTONS →
      j < (strs.set (s.actButton - 1) (cstr ks)).length := by
    intro j hj; rw [List.length_set, hwf.count]; exact hj
  have hb3 : s2.buttons = s.buttons.set (s.actButton - 1) ⟨cmd, par1⟩ := hb2
  refine ⟨{ s2 with actButton := 0 }, hpc, ?_, ?_, ?_, ?_, rfl, ?_⟩
  · show s2.buttons[s.actButton - 1]? = _
    rw [hb3, List.getElem?_set_self (by rw [hbtn]; omega)]
  · rw [readKeystring_holds h3 (s.actButton - 1) (hlen3 _ (by omega)), List.getElem_set_self, hcs]
  · intro j hj hne
    constructor
    · show s2.buttons[j]? = _
      rw [hb3, List.getElem?_set_ne (fun h => hne h.symm)]
    · rw [readKeystring_holds h3 j (hlen3 j hj), List.getElem_set_ne (fun h => hne h.symm),
        readKeystring_holds hwf j (by rw [hwf.count]; exact hj)]
  · intro hne htl
    have hb : s.actButton - 1 < (strs.set (s.actButton - 1) (cstr ks)).length :=
      hlen3 _ (by omega)
    have hne1 : (strs.set (s.actButton - 1) (cstr ks))[s.actButton - 1] ≠ [] := by
      rw [List.getElem_set_self, hcs]; exact hne
    exact refreshed_entry_consistent h3 s.buttonKeystrings ht2 (s.actButton - 1) hb hne1
      (by rw [htl]; omega)
  · intro cmd2 par2 ks2 pm2
    exact performCommand_normal env cfg _ cmd2 par2 ks2 pm2 rfl

set_option maxRecDepth 100000 in
/-- Example of the capture law: after `BM 3`, the command `KP` with "KEY_SPACE" is
stored for button 3 and no key is pressed. -/
theorem capture_outside_arena_example :
    performCommand demoEnv demoConfig demoState atCommands.CMD_BM.code 3 .null 0
        = some (pendingState, [Effect.release_all]) ∧
      Holds demoConfig pendingState defaultKeystrings ∧
      readKeystring pendingState.keystringBuffer (3 - 1) = some [] ∧
      ∃ s1, performCommand demoEnv demoConfig pendingState atCommands.CMD_KP.code 0
          (.other (bytesOf "KEY_SPACE")) 0 = some (s1, []) ∧
        s1.buttons[3 - 1]? = some ⟨atCommands.CMD_KP.code, 0⟩ ∧
        readKeystring s1.keystringBuffer (3 - 1) = some (bytesOf "KEY_SPACE") ∧
        (∀ j, j < demoConfig.NUMBER_OF_BUTTONS → j ≠ 3 - 1 →
          s1.buttons[j]? = pendingState.buttons[j]? ∧
          readKeystring s1.keystringBuffer j = readKeystring pendingState.keystringBuffer j) ∧
        (bytesOf "KEY_SPACE" ≠ [] →
          pendingState.buttonKeystrings.length = demoConfig.NUMBER_OF_BUTTONS →
          s1.buttonKeystrings[3 - 1]? = getButtonKeystring s1.keystringBuffer (3 - 1)) ∧
        s1.actButton = 0 ∧
        ∀ cmd2 par2 ks2 pm2, performCommand demoEnv demoConfig s1 cmd2 par2 ks2 pm2 =
          match atCommands.ofCode cmd2 with
          | none => some (s1, [])
          | some c => dispatch demoEnv demoConfig s1 par2 ks2 c :=
  ⟨by rfl, demoState_holds.congr rfl rfl, by rfl,
    capture_outside_arena demoEnv demoConfig pendingState defaultKeystrings 3
      atCommands.CMD_KP.code 0 (bytesOf "KEY_SPACE") [] 0 (demoState_holds.congr rfl rfl)
      (by rfl) (by decide) (by decide) (by decide) (by rfl) (by decide) (by rfl) (by decide)⟩

set_option maxRecDepth 100000 in
/-- C10 as stated fails: with target 3 pending on the default store, capturing
`KP 7` with a 500-byte keystring makes `setButtonKeystring` report overflow, and
`buttons[2]` changes from `CL`, 0 to `KP`, 7. -/
theorem C10_counterexample :
    (setButtonKeystring demoConfig
        { pendingState with buttons := pendingState.buttons.set 2 ⟨atCommands.CMD_KP.code, 7⟩ } 2
        (.other (List.replicate 500 65))).map Prod.snd = some 0 ∧
      pendingState.buttons[2]? = some ⟨atCommands.CMD_CL.code, 0⟩ ∧
      (performCommand demoEnv demoConfig pendingState atCommands.CMD_KP.code 7
        (.other (List.replicate 500 65)) 0).map (fun r => r.1.buttons[2]?)
        = some (some ⟨atCommands.CMD_KP.code, 7⟩) :=
  ⟨by rfl, by rfl, by rfl⟩

/-- C10 (bind on overflow, amended): while target `t` is pending, a captured command
whose keystring fails the test of line 75 leaves the keystring store untouched (arena,
pointer table, `keystringBufferLen`, hence the stored keystring of button `t`), emits
no effect and clears the pending target; `buttons[t-1]` receives the captured code and
parameter. -/
theorem C10_bind_overflow (env : Collaborators) (cfg : Config) (s : State)
    (strs : List (List Nat)) (t cmd : Nat) (par1 : Int) (ks old : List Nat) (pm : Int)
    (hwf : Holds cfg s strs) (hbtn : s.buttons.length = cfg.NUMBER_OF_BUTTONS)
    (hMAX : cfg.MAX_KEYSTRINGBUFFER_LEN < 65536)
    (ht1 : 1 ≤ t) (htN : t ≤ cfg.NUMBER_OF_BUTTONS) (hpend : s.actButton = t)
    (hv : (cstr ks).length < 2147483648)
    (hold : readKeystring s.keystringBuffer (t - 1) = some old)
    (hov : cfg.MAX_KEYSTRINGBUFFER_LEN - 1
      ≤ s.slotSettings.keystringBufferLen - old.length + (cstr ks).length) :
    ∃ s1, performCommand env cfg s cmd par1 (.other ks) pm = some (s1, []) ∧
      s1.keystringBuffer = s.keystringBuffer ∧ s1.buttonKeystrings = s.buttonKeystrings ∧
      s1.slotSettings = s.slotSettings ∧
      readKeystring s1.keystringBuffer (t - 1) = some old ∧
      s1.buttons = s.buttons.set (t - 1) ⟨cmd, par1⟩ ∧ s1.actButton = 0 := by
  subst hpend
  have hi1 : s.actButton - 1 < strs.length := by rw [hwf.count]; omega
  have hrd := readKeystring_holds hwf (s.actButton - 1) hi1
  rw [hold] at hrd
  have hold1 : old = strs[s.actButton - 1] := Option.some.inj hrd
  obtain ⟨R, hbuf, hlen, hsz⟩ := hwf.decompose (s.actButton - 1) hi1
  rw [← hold1] at hlen
  have hwb : Holds cfg { s with buttons := s.buttons.set (s.actButton - 1) ⟨cmd, par1⟩ } strs :=
    hwf.congr rfl rfl
  have hset := setButtonKeystring_overflow hwb (s.actButton - 1) hi1 ks hMAX hv
    (by rw [← hold1]; simp only []; omega)
  have hpc := performCommand_pending env cfg s cmd par1 (.other ks) pm (by omega)
    (by rw [hbtn]; omega)
  rw [hset] at hpc
  exact ⟨_, hpc, rfl, rfl, rfl, hold, rfl, rfl⟩

set_option maxRecDepth 100000 in
/-- Witness of C10 (amended): the 500-byte keystring captured for button 3. -/
theorem C10_bind_overflow_witness :
    Holds demoConfig pendingState defaultKeystrings ∧
      readKeystring pendingState.keystringBuffer (3 - 1) = some [] ∧
      demoConfig.MAX_KEYSTRINGBUFFER_LEN - 1
        ≤ pendingState.slotSettings.keystringBufferLen - ([] : List Nat).length
          + (cstr (List.replicate 500 65)).length ∧
      ∃ s1, performCommand demoEnv demoConfig pendingState atCommands.CMD_KP.code 7
          (.other (List.replicate 500 65)) 0 = some (s1, []) ∧
        s1.keystringBuffer = pendingState.keystringBuffer ∧
        s1.buttonKeystrings = pendingState.buttonKeystrings ∧
        s1.slotSettings = pendingState.slotSettings ∧
        readKeystring s1.keystringBuffer (3 - 1) = some [] ∧
        s1.buttons = pendingState.buttons.set (3 - 1) ⟨atCommands.CMD_KP.code, 7⟩ ∧
        s1.actButton = 0 :=
  ⟨demoState_holds.congr rfl rfl, by rfl, by decide,
    C10_bind_overflow demoEnv demoConfig pendingState defaultKeystrings 3
      atCommands.CMD_KP.code 7 (List.replicate 500 65) [] 0 (demoState_holds.congr rfl rfl)
      (by rfl) (by decide) (by decide) (by decide) (by rfl) (by decide) (by rfl) (by decide)⟩

/-! ## Entering programming mode -/

theorem ofCode_code (c : atCommands) : atCommands.ofCode c.code = some c := by
  cases c <;> rfl

/-- C11 (begin-binding target validation): outside programming mode, `BM n` always
calls `release_all` and returns; it leaves a pending target exactly when
`1 <= n <= NUMBER_OF_BUTTONS`, and the target then is `n`; otherwise the globals are
unchanged, "?" is printed and the next command runs the `switch`.  No binding and no
keystring changes in either case.  `NUMBER_OF_BUTTONS` fits the `uint8_t` target. -/
theorem C11_begin_binding (env : Collaborators) (cfg : Config) (s : State) (n : Int)
    (ks : CharPtr) (pm : Int) (hN : cfg.NUMBER_OF_BUTTONS ≤ 255) (hact : s.actButton = 0) :
    ∃ s1 eff, performCommand env cfg s atCommands.CMD_BM.code n ks pm = some (s1, eff) ∧
      (s1.actButton ≠ 0 ↔ (1 ≤ n ∧ n ≤ cfg.NUMBER_OF_BUTTONS)) ∧
      (1 ≤ n ∧ n ≤ cfg.NUMBER_OF_BUTTONS →
        (s1.actButton : Int) = n ∧ eff = [Effect.release_all]) ∧
      (¬ (1 ≤ n ∧ n ≤ cfg.NUMBER_OF_BUTTONS) →
        s1 = s ∧ eff = [Effect.release_all, Effect.serialPrintln "?"] ∧
        ∀ cmd2 par2 ks2 pm2, performCommand env cfg s1 cmd2 par2 ks2 pm2 =
          match atCommands.ofCode cmd2 with
          | none => some (s1, [])
          | some c => dispatch env cfg s1 par2 ks2 c) ∧
      s1.buttons = s.buttons ∧ s1.keystringBuffer = s.keystringBuffer ∧
      s1.buttonKeystrings = s.buttonKeystrings ∧ s1.slotSettings = s.slotSettings := by
  have hpc := performCommand_normal env cfg s atCommands.CMD_BM.code n ks pm hact
  rw [ofCode_code] at hpc
  simp only [dispatch] at hpc
  by_cases hv : 1 ≤ n ∧ n ≤ (cfg.NUMBER_OF_BUTTONS : Int)
  · rw [if_pos (by omega)] at hpc
    have hnat : ((n % 256).toNat : Int) = n := by omega
    refine ⟨_, _, hpc, ?_, ?_, ?_, rfl, rfl, rfl, rfl⟩
    · constructor
      · intro _; exact hv
      · intro _; show (n % 256).toNat ≠ 0; omega
    · intro _; exact ⟨hnat, rfl⟩
    · intro h; exact absurd hv h
  · rw [if_neg (by omega)] at hpc
    refine ⟨_, _, hpc, ?_, ?_, ?_, rfl, rfl, rfl, rfl⟩
    · constructor
      · intro h; exact absurd hact h
      · intro h; exact absurd h hv
    · intro h; exact absurd h hv
    · intro _
      exact ⟨rfl, rfl, fun cmd2 par2 ks2 pm2 =>
        performCommand_normal env cfg s cmd2 par2 ks2 pm2 hact⟩

/-- Witness of C11: `BM 23` on the default bindings (22 buttons) is rejected. -/
theorem C11_begin_binding_witness :
    demoConfig.NUMBER_OF_BUTTONS ≤ 255 ∧ demoState.actButton = 0 ∧
    ∃ s1 eff, performCommand demoEnv demoConfig demoState atCommands.CMD_BM.code 23 .null 0
        = some (s1, eff) ∧
      (s1.actButton ≠ 0 ↔ ((1 : Int) ≤ 23 ∧ (23 : Int) ≤ demoConfig.NUMBER_OF_BUTTONS)) ∧
      ((1 : Int) ≤ 23 ∧ (23 : Int) ≤ demoConfig.NUMBER_OF_BUTTONS →
        (s1.actButton : Int) = 23 ∧ eff = [Effect.release_all]) ∧
      (¬ ((1 : Int) ≤ 23 ∧ (23 : Int) ≤ demoConfig.NUMBER_OF_BUTTONS) →
        s1 = demoState ∧ eff = [Effect.release_all, Effect.serialPrintln "?"] ∧
        ∀ cmd2 par2 ks2 pm2, performCommand demoEnv demoConfig s1 cmd2 par2 ks2 pm2 =
          match atCommands.ofCode cmd2 with
          | none => some (s1, [])
          | some c => dispatch demoEnv demoConfig s1 par2 ks2 c) ∧
      s1.buttons = demoState.buttons ∧ s1.keystringBuffer = demoState.keystringBuffer ∧
      s1.buttonKeystrings = demoState.buttonKeystrings ∧
      s1.slotSettings = demoState.slotSettings :=
  ⟨by decide, rfl,
    C11_begin_binding demoEnv demoConfig demoState 23 .null 0 (by decide) rfl⟩

/-! ## Hold mode and release -/

/-- The codes of the commands that `inHoldMode` tests for. -/
theorem inHoldMode_eq (s : State) (i : Nat) (b : slotButtonSettings) (hb : s.buttons[i]? = some b) :
    inHoldMode s i = some (if b.mode ∈ [atCommands.CMD_PL.code, atCommands.CMD_PR.code,
      atCommands.CMD_PM.code, atCommands.CMD_HL.code, atCommands.CMD_HR.code,
      atCommands.CMD_HM.code, atCommands.CMD_JP.code, atCommands.CMD_MX.code,
      atCommands.CMD_MY.code, atCommands.CMD_KH.code, atCommands.CMD_IH.code] then 1 else 0) := by
  unfold inHoldMode
  rw [hb]
  simp only [List.mem_cons, List.mem_singleton, List.not_mem_nil, or_false]
  split <;> rfl

/-- C13 (hold-mode classification): `inHoldMode(i)` returns 1 when the bound action
is one of PL, PR, PM, HL, HR, HM, JP, MX, MY, KH, IH, and 0 for every other action and
for a mode value that is no command code. -/
theorem C13_hold_classification (s : State) (i : Nat) (b : slotButtonSettings)
    (hb : s.buttons[i]? = some b) :
    (∀ c : atCommands, b.mode = c.code →
      (inHoldMode s i = some 1 ↔
        c ∈ [atCommands.CMD_PL, .CMD_PR, .CMD_PM, .CMD_HL, .CMD_HR, .CMD_HM, .CMD_JP,
             .CMD_MX, .CMD_MY, .CMD_KH, .CMD_IH]) ∧
      (inHoldMode s i = some 0 ↔
        c ∉ [atCommands.CMD_PL, .CMD_PR, .CMD_PM, .CMD_HL, .CMD_HR, .CMD_HM, .CMD_JP,
             .CMD_MX, .CMD_MY, .CMD_KH, .CMD_IH])) ∧
    (atCommands.ofCode b.mode = none → inHoldMode s i = some 0) := by
  constructor
  · intro c hc
    rw [inHoldMode_eq s i b hb, hc]
    cases c <;> decide
  · intro hnone
    rw [inHoldMode_eq s i b hb, if_neg]
    intro hmem
    simp only [List.mem_cons, List.mem_singleton, List.not_mem_nil, or_false] at hmem
    rcases hmem with h | h | h | h | h | h | h | h | h | h | h <;>
      (rw [h, ofCode_code] at hnone; cases hnone)

/-- Witness of C13: button 1 of the default bindings (KP) is not in hold mode. -/
theorem C13_hold_classification_witness :
    demoState.buttons[0]? = some ⟨atCommands.CMD_KP.code, 0⟩ ∧
    ((∀ c : atCommands, (⟨atCommands.CMD_KP.code, 0⟩ : slotButtonSettings).mode = c.code →
      (inHoldMode demoState 0 = some 1 ↔
        c ∈ [atCommands.CMD_PL, .CMD_PR, .CMD_PM, .CMD_HL, .CMD_HR, .CMD_HM, .CMD_JP,
             .CMD_MX, .CMD_MY, .CMD_KH, .CMD_IH]) ∧
      (inHoldMode demoState 0 = some 0 ↔
        c ∉ [atCommands.CMD_PL, .CMD_PR, .CMD_PM, .CMD_HL, .CMD_HR, .CMD_HM, .CMD_JP,
             .CMD_MX, .CMD_MY, .CMD_KH, .CMD_IH])) ∧
    (atCommands.ofCode (⟨atCommands.CMD_KP.code, 0⟩ : slotButtonSettings).mode = none →
      inHoldMode demoState 0 = some 0)) :=
  ⟨rfl, C13_hold_classification demoState 0 ⟨atCommands.CMD_KP.code, 0⟩ rfl⟩

/-- The call of `handleButton` that commits a release. -/
theorem handleButton_release_commit (env : Collaborators) (cfg : Config) (s : State)
    (i level millis : Nat) (d : buttonDebouncerType) (hd : s.buttonDebouncers[i]? = some d)
    (hbs : d.bounceState = level) (hne1 : level ≠ 1) (hst : level ≠ d.stableState)
    (hcnt : d.bounceCount + 1 = cfg.DEFAULT_DEBOUNCING_TIME) :
    handleButton env cfg s i level millis =
      match inHoldMode { s with
          buttonDebouncers := s.buttonDebouncers.set i
            { d with bounceCount := d.bounceCount + 1, stableState := level },
          buttonStates := clearStateBit s.buttonStates i } i with
      | none => none
      | some h =>
        if h ≠ 0 then
          match handleRelease { s with
              buttonDebouncers := s.buttonDebouncers.set i
                { d with bounceCount := d.bounceCount + 1, stableState := level },
              buttonStates := clearStateBit s.buttonStates i } i with
          | none => none
          | some (s4, eff) =>
            some { state := s4, effects := eff, calls := [.handleRelease i], ret := 1 }
        else some {
          state := { s with
            buttonDebouncers := s.buttonDebouncers.set i
              { d with bounceCount := d.bounceCount + 1, stableState := level },
            buttonStates := clearStateBit s.buttonStates i },
          effects := [], calls := [], ret := 1 } := by
  unfold handleButton
  rw [hd]
  simp only []
  rw [if_pos hbs, if_pos (by omega), if_pos hcnt, if_pos hst, if_neg hne1]

theorem handleRelease_eq (s : State) (i : Nat) (b : slotButtonSettings) (ks : Nat)
    (hb : s.buttons[i]? = some b) (hks : s.buttonKeystrings[i]? = some ks) (c : atCommands)
    (hc : b.mode = c.code) :
    ∃ eff, handleRelease s i
        = some ({ s with buttonStates := clearStateBit s.buttonStates i }, eff) ∧
      (c ∈ [atCommands.CMD_PL, .CMD_PR, .CMD_PM, .CMD_HL, .CMD_HR, .CMD_HM, .CMD_JP,
            .CMD_KH, .CMD_IH] → ∃ e, eff = [e]) ∧
      (c ∉ [atCommands.CMD_PL, .CMD_PR, .CMD_PM, .CMD_HL, .CMD_HR, .CMD_HM, .CMD_JP,
            .CMD_KH, .CMD_IH] → eff = []) := by
  unfold handleRelease
  rw [hb]
  simp only []
  rw [hc, ofCode_code]
  cases c <;> simp [hks]

theorem getElem?_lt {α : Type} {l : List α} {i : Nat} {a : α} (h : l[i]? = some a) :
    i < l.length := by
  by_contra hge
  rw [List.getElem?_eq_none (by omega)] at h
  cases h

theorem setDebouncer_get (s : State) (i : Nat) (d : buttonDebouncerType)
    (hi : i < s.buttonDebouncers.length) : (setDebouncer s i d).buttonDebouncers[i]? = some d := by
  unfold setDebouncer
  exact List.getElem?_set_self hi

theorem setDebouncer_set (s : State) (i : Nat) (d1 d2 : buttonDebouncerType) :
    setDebouncer (setDebouncer s i d1) i d2 = setDebouncer s i d2 := by
  unfold setDebouncer
  simp

theorem setDebouncer_length (s : State) (i : Nat) (d : buttonDebouncerType) :
    (setDebouncer s i d).buttonDebouncers.length = s.buttonDebouncers.length := by
  unfold setDebouncer
  simp

/-- A sample that differs from the last-seen level restarts the window. -/
theorem handleButton_restart (env : Collaborators) (cfg : Config) (s : State) (i level millis : Nat)
    (d : buttonDebouncerType) (hd : s.buttonDebouncers[i]? = some d)
    (hne : d.bounceState ≠ level) :
    handleButton env cfg s i level millis = some
      { state := setDebouncer s i { d with bounceState := level, bounceCount := 0 }
        effects := [], calls := [], ret := 0 } := by
  unfold handleButton
  rw [hd]
  simp only []
  rw [if_neg hne]
  rfl

/-- A sample equal to the last-seen level below the threshold only counts. -/
theorem handleButton_count (env : Collaborators) (cfg : Config) (s : State) (i level millis : Nat)
    (d : buttonDebouncerType) (hd : s.buttonDebouncers[i]? = some d)
    (hbs : d.bounceState = level) (hlt : d.bounceCount + 1 < cfg.DEFAULT_DEBOUNCING_TIME) :
    handleButton env cfg s i level millis = some
      { state := setDebouncer s i { d with bounceCount := d.bounceCount + 1 }
        effects := [], calls := [], ret := 0 } := by
  unfold handleButton
  rw [hd]
  simp only []
  rw [if_pos hbs, if_pos (by omega), if_neg (by omega)]
  rfl

/-- Reaching the threshold at the stable level changes nothing but the counter. -/
theorem handleButton_same (env : Collaborators) (cfg : Config) (s : State) (i level millis : Nat)
    (d : buttonDebouncerType) (hd : s.buttonDebouncers[i]? = some d)
    (hbs : d.bounceState = level) (hcnt : d.bounceCount + 1 = cfg.DEFAULT_DEBOUNCING_TIME)
    (hst : level = d.stableState) :
    handleButton env cfg s i level millis = some
      { state := setDebouncer s i { d with bounceCount := d.bounceCount + 1 }
        effects := [], calls := [], ret := 0 } := by
  unfold handleButton
  rw [hd]
  simp only []
  rw [if_pos hbs, if_pos (by omega), if_pos hcnt, if_neg (by simpa using hst)]
  rfl

/-- At or above the threshold a sample equal to the last-seen level does nothing. -/
theorem handleButton_stable (env : Collaborators) (cfg : Config) (s : State) (i level millis : Nat)
    (d : buttonDebouncerType) (hd : s.buttonDebouncers[i]? = some d)
    (hbs : d.bounceState = level) (hge : cfg.DEFAULT_DEBOUNCING_TIME ≤ d.bounceCount) :
    handleButton env cfg s i level millis = some
      { state := s, effects := [], calls := [], ret := 0 } := by
  unfold handleButton
  rw [hd]
  simp only []
  rw [if_pos hbs, if_neg (by omega)]

/-- The call of `handleButton` that commits a press. -/
theorem handleButton_press_commit (env : Collaborators) (cfg : Config) (s : State)
    (i millis : Nat) (d : buttonDebouncerType) (hd : s.buttonDebouncers[i]? = some d)
    (hbs : d.bounceState = 1) (hst : 1 ≠ d.stableState)
    (hcnt : d.bounceCount + 1 = cfg.DEFAULT_DEBOUNCING_TIME)
    (s3 : State) (eff : List Effect) (d3 : buttonDebouncerType)
    (hp : handlePress env cfg { setDebouncer s i
        { d with bounceCount := d.bounceCount + 1, stableState := 1 } with
        buttonStates := setStateBit s.buttonStates i } i = some (s3, eff))
    (hd3 : s3.buttonDebouncers[i]? = some d3) :
    handleButton env cfg s i 1 millis = some
      { state := setDebouncer s3 i { d3 with timestamp := millis }
        effects := eff, calls := [.handlePress i], ret := 0 } := by
  unfold handleButton
  rw [hd]
  simp only []
  rw [if_pos hbs, if_pos (by omega), if_pos hcnt, if_pos hst, if_pos trivial]
  have hp1 : handlePress env cfg { s with
      buttonDebouncers := s.buttonDebouncers.set i
        { d with bounceCount := d.bounceCount + 1, stableState := 1 },
      buttonStates := setStateBit s.buttonStates i } i = some (s3, eff) := hp
  rw [hp1]
  simp only []
  rw [hd3]
  rfl

theorem replicate_snoc (k x : Nat) (l : List Nat) :
    List.replicate k x ++ x :: l = List.replicate (k + 1) x ++ l := by
  induction k with
  | zero => rfl
  | succ k ih => simp only [List.replicate_succ, List.cons_append] at ih ⊢; rw [ih]

theorem run_bound (T k x : Nat) (pre0 rest : List Nat)
    (hruns : ¬ (List.replicate T x <:+: pre0 ++ List.replicate (k + 1) x ++ rest)) :
    k + 1 < T := by
  by_contra hge
  apply hruns
  refine ⟨pre0 ++ List.replicate (k + 1 - T) x, rest, ?_⟩
  rw [List.append_assoc pre0, List.append_replicate_replicate]
  congr 3
  omega

theorem runButton_cons (env : Collaborators) (cfg : Config) (i : Nat) (s : State)
    (x t : Nat) (rest : List (Nat × Nat)) (r : ButtonResult) (rs : List ButtonResult)
    (hstep : handleButton env cfg s i x t = some r)
    (hrun : runButton env cfg i r.state rest = some rs) :
    runButton env cfg i s ((x, t) :: rest) = some (r :: rs) := by
  simp only [runButton, hstep, hrun]

/-- While every run of equal samples is shorter than the threshold, nothing is
committed: the calls are quiet and the stable level stays 0. -/
theorem runButton_below (env : Collaborators) (cfg : Config) (base : State) (i : Nat)
    (hi : i < base.buttonDebouncers.length) (rest : List (Nat × Nat)) :
    ∀ (pre0 : List Nat) (d : buttonDebouncerType) (k : Nat), d.stableState = 0 →
      d.bounceCount ≤ k →
      (∀ x, ¬ (List.replicate cfg.DEFAULT_DEBOUNCING_TIME x
        <:+: pre0 ++ List.replicate k d.bounceState ++ rest.map Prod.fst)) →
      ∃ rs, runButton env cfg i (setDebouncer base i d) rest = some rs ∧
        ∀ r ∈ rs, Quiet i 0 r ∧ ∃ d1, r.state = setDebouncer base i d1 := by
  induction rest with
  | nil => intro pre0 d k _ _ _; exact ⟨[], rfl, fun r hr => by cases hr⟩
  | cons p rest ih =>
    intro pre0 d k hst hcnt hruns
    obtain ⟨x, t⟩ := p
    have hget := setDebouncer_get base i d hi
    by_cases hsame : d.bounceState = x
    · have hruns1 : ∀ y, ¬ (List.replicate cfg.DEFAULT_DEBOUNCING_TIME y
          <:+: pre0 ++ List.replicate (k + 1) x ++ rest.map Prod.fst) := by
        intro y
        have := hruns y
        rw [hsame, List.map_cons, List.append_assoc, replicate_snoc, ← List.append_assoc] at this
        exact this
      have hk := run_bound _ k x pre0 _ (hruns1 x)
      have hstep := handleButton_count env cfg (setDebouncer base i d) i x t d hget hsame
        (by omega)
      rw [setDebouncer_set] at hstep
      obtain ⟨rs, hrun, hq⟩ := ih pre0 { d with bounceCount := d.bounceCount + 1 } (k + 1) hst
        (by simp only []; omega) (by simp only []; rw [hsame]; exact hruns1)
      refine ⟨_, runButton_cons env cfg i _ x t rest _ rs hstep hrun, ?_⟩
      intro r hr
      rcases List.mem_cons.1 hr with h | h
      · subst h
        refine ⟨⟨rfl, rfl, rfl, ?_⟩, _, rfl⟩
        simp only [stableLevel]
        rw [setDebouncer_get base i _ hi]
        simp [hst]
      · exact hq r h
    · have hruns1 : ∀ y, ¬ (List.replicate cfg.DEFAULT_DEBOUNCING_TIME y
          <:+: (pre0 ++ List.replicate k d.bounceState) ++ List.replicate 1 x
            ++ rest.map Prod.fst) := by
        intro y
        have := hruns y
        rw [List.map_cons] at this
        simpa using this
      have hstep := handleButton_restart env cfg (setDebouncer base i d) i x t d hget hsame
      rw [setDebouncer_set] at hstep
      obtain ⟨rs, hrun, hq⟩ := ih (pre0 ++ List.replicate k d.bounceState)
        { d with bounceState := x, bounceCount := 0 } 1 hst (by simp) hruns1
      refine ⟨_, runButton_cons env cfg i _ x t rest _ rs hstep hrun, ?_⟩
      intro r hr
      rcases List.mem_cons.1 hr with h | h
      · subst h
        refine ⟨⟨rfl, rfl, rfl, ?_⟩, _, rfl⟩
        simp only [stableLevel]
        rw [setDebouncer_get base i _ hi]
        simp [hst]
      · exact hq r h

theorem setDebouncer_self (s : State) (i : Nat) (d : buttonDebouncerType)
    (hd : s.buttonDebouncers[i]? = some d) : setDebouncer s i d = s := by
  unfold setDebouncer
  have hlt := getElem?_lt hd
  have : s.buttonDebouncers.set i d = s.buttonDebouncers := by
    apply List.ext_getElem? 
    intro j
    by_cases hj : i = j
    · subst hj; rw [List.getElem?_set_self hlt, hd]
    · rw [List.getElem?_set_ne hj]
  rw [this]

/-- C15 (debounce stability): from the state `initDebouncers` leaves, a sample
sequence in which no level occurs `DEFAULT_DEBOUNCING_TIME` times in a row makes
every call of `handleButton` return 0 without calling `handlePress` or
`handleRelease` and without any effect; the stable level stays 0 and only the
debouncer entry of the button changes. -/
theorem C15_debounce_stability (env : Collaborators) (cfg : Config) (s0 : State) (i : Nat)
    (samples : List (Nat × Nat)) (hi : i < s0.buttonDebouncers.length)
    (hruns : ∀ x, ¬ (List.replicate cfg.DEFAULT_DEBOUNCING_TIME x <:+: samples.map Prod.fst)) :
    ∃ rs, runButton env cfg i (initDebouncers s0) samples = some rs ∧
      ∀ r ∈ rs, Quiet i 0 r ∧ ∃ d1, r.state = setDebouncer (initDebouncers s0) i d1 := by
  have hlen : i < (initDebouncers s0).buttonDebouncers.length := by
    simp [initDebouncers, hi]
  have hget : (initDebouncers s0).buttonDebouncers[i]?
      = some { s0.buttonDebouncers[i] with
          bounceState := 0, stableState := 0, bounceCount := 0, longPressed := 0 } := by
    simp [initDebouncers, hi]
  have h := runButton_below env cfg (initDebouncers s0) i hlen samples []
    { s0.buttonDebouncers[i] with
      bounceState := 0, stableState := 0, bounceCount := 0, longPressed := 0 } 0 rfl
    (Nat.le_refl _) (by simpa using hruns)
  rw [setDebouncer_self _ _ _ hget] at h
  exact h

/-- The committed release: return value, debouncer table and handler call. -/
theorem handleButton_release_result (env : Collaborators) (cfg : Config) (s : State)
    (i level millis : Nat) (d : buttonDebouncerType) (b : slotButtonSettings) (ks : Nat)
    (hd : s.buttonDebouncers[i]? = some d) (hb : s.buttons[i]? = some b)
    (hks : s.buttonKeystrings[i]? = some ks)
    (hbs : d.bounceState = level) (hne1 : level ≠ 1) (hst : level ≠ d.stableState)
    (hcnt : d.bounceCount + 1 = cfg.DEFAULT_DEBOUNCING_TIME) :
    ∃ r, handleButton env cfg s i level millis = some r ∧ r.ret = 1 ∧
      r.state.buttonDebouncers = s.buttonDebouncers.set i
        { d with bounceCount := d.bounceCount + 1, stableState := level } ∧
      r.calls = (if inHoldMode s i = some 1 then [.handleRelease i] else []) := by
  have hcommit := handleButton_release_commit env cfg s i level millis d hd hbs hne1 hst hcnt
  have hhold : inHoldMode { s with
      buttonDebouncers := s.buttonDebouncers.set i
        { d with bounceCount := d.bounceCount + 1, stableState := level },
      buttonStates := clearStateBit s.buttonStates i } i = inHoldMode s i := rfl
  rw [hhold] at hcommit
  have hin := inHoldMode_eq s i b hb
  by_cases hmem : b.mode ∈ [atCommands.CMD_PL.code, atCommands.CMD_PR.code,
      atCommands.CMD_PM.code, atCommands.CMD_HL.code, atCommands.CMD_HR.code,
      atCommands.CMD_HM.code, atCommands.CMD_JP.code, atCommands.CMD_MX.code,
      atCommands.CMD_MY.code, atCommands.CMD_KH.code, atCommands.CMD_IH.code]
  · rw [if_pos hmem] at hin
    have hc0 : ∃ c0 : atCommands, b.mode = c0.code := by
      simp only [List.mem_cons, List.mem_singleton, List.not_mem_nil, or_false] at hmem
      rcases hmem with h | h | h | h | h | h | h | h | h | h | h <;> exact ⟨_, h⟩
    obtain ⟨c0, hc0⟩ := hc0
    obtain ⟨eff, hrel, _, _⟩ := handleRelease_eq { s with
      buttonDebouncers := s.buttonDebouncers.set i
        { d with bounceCount := d.bounceCount + 1, stableState := level },
      buttonStates := clearStateBit s.buttonStates i } i b ks hb hks c0 hc0
    rw [hin] at hcommit
    simp only [ne_eq, one_ne_zero, not_false_eq_true, if_true] at hcommit
    rw [hrel] at hcommit
    refine ⟨_, hcommit, rfl, rfl, ?_⟩
    rw [hin, if_pos rfl]
  · rw [if_neg hmem] at hin
    rw [hin] at hcommit
    simp only [ne_eq, not_true_eq_false, if_false] at hcommit
    refine ⟨_, hcommit, rfl, rfl, ?_⟩
    rw [hin, if_neg (by decide)]

/-- Once the counter has reached the threshold, samples of the last-seen level
leave the globals as they are. -/
theorem runButton_stable (env : Collaborators) (cfg : Config) (i x : Nat) (s : State)
    (d : buttonDebouncerType) (hd : s.buttonDebouncers[i]? = some d)
    (hbs : d.bounceState = x) (hge : cfg.DEFAULT_DEBOUNCING_TIME ≤ d.bounceCount)
    (samples : List (Nat × Nat)) (hall : ∀ p ∈ samples, p.1 = x) :
    ∃ rs, runButton env cfg i s samples = some rs ∧ rs.length = samples.length ∧
      ∀ q ∈ rs, Quiet i d.stableState q := by
  induction samples with
  | nil => exact ⟨[], rfl, rfl, fun q hq => by cases hq⟩
  | cons p rest ih =>
    obtain ⟨y, t⟩ := p
    have hy : y = x := hall (y, t) (List.mem_cons_self _ _)
    subst hy
    obtain ⟨rs, hrun, hlen, hq⟩ := ih (fun p hp => hall p (List.mem_cons_of_mem _ hp))
    have hstep := handleButton_stable env cfg s i y t d hd hbs hge
    refine ⟨_, runButton_cons env cfg i s y t rest _ rs hstep hrun, by simp [hlen], ?_⟩
    intro q hq1
    rcases List.mem_cons.1 hq1 with h | h
    · subst h
      refine ⟨rfl, rfl, rfl, ?_⟩
      simp only [stableLevel, hd]
      rfl
    · exact hq q h

/-- Counting phase followed by the commit: with `m` samples still missing before the
threshold, the first `m` calls are quiet, the next one commits and the rest are
quiet again. -/
theorem runButton_commit (env : Collaborators) (cfg : Config) (base : State) (i lv x : Nat)
    (b : slotButtonSettings) (ks : Nat)
    (hi : i < base.buttonDebouncers.length) (hb : base.buttons[i]? = some b)
    (hks : base.buttonKeystrings[i]? = some ks) (hx : x ≠ lv) :
    ∀ (m : Nat) (d : buttonDebouncerType) (samples : List (Nat × Nat)),
      d.bounceState = x → d.stableState = lv →
      d.bounceCount + m + 1 = cfg.DEFAULT_DEBOUNCING_TIME →
      (∀ p ∈ samples, p.1 = x) → m + 1 ≤ samples.length →
      (x = 1 → ∃ s3 eff, handlePress env cfg (pressState cfg base i d) i = some (s3, eff) ∧
        s3.buttonDebouncers = (pressState cfg base i d).buttonDebouncers) →
      ∃ rs1 r rs2, runButton env cfg i (setDebouncer base i d) samples
          = some (rs1 ++ r :: rs2) ∧
        rs1.length = m ∧ rs1.length + 1 + rs2.length = samples.length ∧
        (∀ q ∈ rs1, Quiet i lv q) ∧ stableLevel r.state i = some x ∧
        (∀ q ∈ rs2, Quiet i x q) ∧
        (x = 1 → r.calls = [.handlePress i] ∧ r.ret = 0) ∧
        (x ≠ 1 → r.ret = 1 ∧
          r.calls = (if inHoldMode base i = some 1 then [.handleRelease i] else [])) := by
  intro m
  induction m with
  | zero =>
    intro d samples hbs hst hcnt hall hlen hpress
    match samples, hall, hlen with
    | (y, t) :: rest, hall, hlen =>
      have hy : y = x := hall (y, t) (List.mem_cons_self _ _)
      subst hy
      have hall1 : ∀ p ∈ rest, p.1 = y := fun p hp => hall p (List.mem_cons_of_mem _ hp)
      have hget := setDebouncer_get base i d hi
      by_cases h1 : y = 1
      · subst h1
        obtain ⟨s3, eff, hp, hdeb⟩ := hpress rfl
        have hp1 : handlePress env cfg { setDebouncer (setDebouncer base i d) i
            { d with bounceCount := d.bounceCount + 1, stableState := 1 } with
            buttonStates := setStateBit (setDebouncer base i d).buttonStates i } i
            = some (s3, eff) := by
          rw [← hp, setDebouncer_set]
          unfold pressState
          have : d.bounceCount + 1 = cfg.DEFAULT_DEBOUNCING_TIME := by omega
          rw [this]
          have hd1 : ({ d with bounceCount := cfg.DEFAULT_DEBOUNCING_TIME, stableState := 1 }
              : buttonDebouncerType)
              = { d with bounceCount := cfg.DEFAULT_DEBOUNCING_TIME, bounceState := 1,
                         stableState := 1 } := by
            cases d; simp only [] at hbs; subst hbs; rfl
          rw [hd1]
          rfl
        have hd3 : s3.buttonDebouncers[i]? = some
            { d with bounceCount := cfg.DEFAULT_DEBOUNCING_TIME, bounceState := 1,
                     stableState := 1 } := by
          rw [hdeb]
          exact setDebouncer_get base i _ hi
        have hstep := handleButton_press_commit env cfg (setDebouncer base i d) i t d hget hbs
          (by rw [hst]; exact hx) (by omega) s3 eff _ hp1 hd3
        have hi3 : i < s3.buttonDebouncers.length := getElem?_lt hd3
        have hget3 := setDebouncer_get s3 i
          { d with bounceCount := cfg.DEFAULT_DEBOUNCING_TIME, bounceState := 1,
                   stableState := 1, timestamp := t } hi3
        obtain ⟨rs, hrun, hl, hq⟩ := runButton_stable env cfg i 1 _ _ hget3 rfl
          (Nat.le_refl _) rest hall1
        refine ⟨[], _, rs, runButton_cons env cfg i _ 1 t rest _ rs hstep hrun, rfl,
          by simp only [List.length_nil, List.length_cons, hl]; omega, (fun q hq0 => by cases hq0), ?_, hq, fun _ => ⟨rfl, rfl⟩,
          fun h => absurd rfl h⟩
        simp only [stableLevel]
        rw [setDebouncer_get s3 i _ hi3]
        rfl
      · obtain ⟨r, hstep, hret, hdeb, hcalls⟩ := handleButton_release_result env cfg
          (setDebouncer base i d) i y t d b ks hget hb hks hbs h1 (by rw [hst]; exact hx)
          (by omega)
        have hget2 : r.state.buttonDebouncers[i]? = some
            { d with bounceCount := d.bounceCount + 1, stableState := y } := by
          rw [hdeb]
          exact List.getElem?_set_self (by rw [setDebouncer_length]; exact hi)
        obtain ⟨rs, hrun, hl, hq⟩ := runButton_stable env cfg i y r.state _ hget2 hbs
          (by simp only []; omega) rest hall1
        refine ⟨[], r, rs, runButton_cons env cfg i _ y t rest _ rs hstep hrun, rfl,
          by simp only [List.length_nil, List.length_cons, hl]; omega, (fun q hq0 => by cases hq0), ?_, hq, fun h => absurd h h1,
          fun _ => ⟨hret, hcalls⟩⟩
        simp only [stableLevel, hget2]
        rfl
  | succ m ih =>
    intro d samples hbs hst hcnt hall hlen hpress
    match samples, hall, hlen with
    | (y, t) :: rest, hall, hlen =>
      have hy : y = x := hall (y, t) (List.mem_cons_self _ _)
      subst hy
      have hall1 : ∀ p ∈ rest, p.1 = y := fun p hp => hall p (List.mem_cons_of_mem _ hp)
      have hget := setDebouncer_get base i d hi
      have hstep := handleButton_count env cfg (setDebouncer base i d) i y t d hget hbs
        (by omega)
      rw [setDebouncer_set] at hstep
      obtain ⟨rs1, r, rs2, hrun, hl1, hl2, hq1, hsl, hq2, hpr, hrl⟩ :=
        ih { d with bounceCount := d.bounceCount + 1 } rest hbs hst
          (by simp only []; omega) hall1 (by simpa using hlen) hpress
      refine ⟨_ :: rs1, r, rs2, runButton_cons env cfg i _ y t rest _ _ hstep hrun,
        by simp [hl1], by simp only [List.length_cons]; omega, ?_, hsl, hq2, hpr, hrl⟩
      intro q hq
      rcases List.mem_cons.1 hq with h | h
      · subst h
        refine ⟨rfl, rfl, rfl, ?_⟩
        simp only [stableLevel]
        rw [setDebouncer_get base i _ hi]
        simp [hst]
      · exact hq1 q h

/-- C14 (debounce commit threshold, amended): from a debouncer whose stable and
last-seen levels are both `lv`, `n ≥ DEFAULT_DEBOUNCING_TIME + 1` consecutive samples
of another level `x` commit exactly one transition, on sample
`DEFAULT_DEBOUNCING_TIME + 1`: the calls before it and after it are quiet, the
committing call makes `x` the stable level, and it calls `handlePress` (returning 0)
when `x = 1`, and otherwise returns 1, calling `handleRelease` for a hold-mode
button. -/
theorem C14_debounce_commit (env : Collaborators) (cfg : Config) (s : State) (i lv x : Nat)
    (d : buttonDebouncerType) (b : slotButtonSettings) (ks : Nat)
    (samples : List (Nat × Nat))
    (hd : s.buttonDebouncers[i]? = some d) (hb : s.buttons[i]? = some b)
    (hks : s.buttonKeystrings[i]? = some ks)
    (hst : d.stableState = lv) (hbs : d.bounceState = lv) (hx : x ≠ lv)
    (hT : 1 ≤ cfg.DEFAULT_DEBOUNCING_TIME)
    (hall : ∀ p ∈ samples, p.1 = x)
    (hn : cfg.DEFAULT_DEBOUNCING_TIME + 1 ≤ samples.length)
    (hpress : x = 1 → ∃ s3 eff, handlePress env cfg (pressState cfg s i d) i = some (s3, eff) ∧
      s3.buttonDebouncers = (pressState cfg s i d).buttonDebouncers) :
    ∃ rs1 r rs2, runButton env cfg i s samples = some (rs1 ++ r :: rs2) ∧
      rs1.length = cfg.DEFAULT_DEBOUNCING_TIME ∧
      rs1.length + 1 + rs2.length = samples.length ∧
      (∀ q ∈ rs1, Quiet i lv q) ∧ stableLevel r.state i = some x ∧
      (∀ q ∈ rs2, Quiet i x q) ∧
      (x = 1 → r.calls = [.handlePress i] ∧ r.ret = 0) ∧
      (x ≠ 1 → r.ret = 1 ∧
        r.calls = (if inHoldMode s i = some 1 then [.handleRelease i] else [])) := by
  have hi : i < s.buttonDebouncers.length := getElem?_lt hd
  match samples, hall, hn with
  | (y, t) :: rest, hall, hn =>
    have hy : y = x := hall (y, t) (List.mem_cons_self _ _)
    subst hy
    have hall1 : ∀ p ∈ rest, p.1 = y := fun p hp => hall p (List.mem_cons_of_mem _ hp)
    have hstep := handleButton_restart env cfg s i y t d hd (by rw [hbs]; exact fun h => hx h.symm)
    obtain ⟨rs1, r, rs2, hrun, hl1, hl2, hq1, hsl, hq2, hpr, hrl⟩ :=
      runButton_commit env cfg s i lv y b ks hi hb hks hx (cfg.DEFAULT_DEBOUNCING_TIME - 1)
        { d with bounceState := y, bounceCount := 0 } rest rfl hst
        (by simp only []; omega) hall1 (by simp only [List.length_cons] at hn; omega) hpress
    refine ⟨_ :: rs1, r, rs2, runButton_cons env cfg i _ y t rest _ _ hstep hrun,
      by simp only [List.length_cons]; omega, by simp only [List.length_cons]; omega,
      ?_, hsl, hq2, hpr, hrl⟩
    intro q hq
    rcases List.mem_cons.1 hq with h | h
    · subst h
      refine ⟨rfl, rfl, rfl, ?_⟩
      simp only [stableLevel]
      rw [setDebouncer_get s i _ hi]
      simp [hst]
    · exact hq1 q h

set_option maxRecDepth 100000 in
/-- Witness of C15: seven samples toggling faster than the threshold of 5. -/
theorem C15_debounce_stability_witness :
    (∀ x, ¬ (List.replicate demoConfig.DEFAULT_DEBOUNCING_TIME x
      <:+: ([(1, 0), (1, 1), (0, 2), (0, 3), (1, 4), (1, 5), (0, 6)] : List (Nat × Nat)).map
        Prod.fst)) ∧
    ∃ rs, runButton demoEnv demoConfig 0 (initDebouncers demoState)
        [(1, 0), (1, 1), (0, 2), (0, 3), (1, 4), (1, 5), (0, 6)] = some rs ∧
      ∀ r ∈ rs, Quiet 0 0 r ∧ ∃ d1, r.state = setDebouncer (initDebouncers demoState) 0 d1 :=
  have h : ∀ x, ¬ (List.replicate demoConfig.DEFAULT_DEBOUNCING_TIME x
      <:+: ([(1, 0), (1, 1), (0, 2), (0, 3), (1, 4), (1, 5), (0, 6)] : List (Nat × Nat)).map
        Prod.fst) := by
    intro x hx
    have hmem : x ∈ [1, 1, 0, 0, 1, 1, 0] :=
      hx.subset (List.mem_replicate.2 ⟨by decide, rfl⟩)
    simp only [List.mem_cons, List.mem_singleton, List.not_mem_nil, or_false] at hmem
    rcases hmem with h | h | h | h | h | h | h <;> subst h <;> revert hx <;> decide
  ⟨h, C15_debounce_stability demoEnv demoConfig demoState 0 _ (by decide) h⟩

set_option maxRecDepth 100000 in
/-- C14 as stated fails: with a threshold of 5, five consecutive samples of level 1 on
a button whose stable and last-seen levels are 0 commit nothing. -/
theorem C14_counterexample :
    demoConfig.DEFAULT_DEBOUNCING_TIME = 5 ∧
    demoState.buttonDebouncers[0]?.map (fun d => (d.stableState, d.bounceState))
      = some (0, 0) ∧
    (runButton demoEnv demoConfig 0 demoState (List.replicate 5 (1, 0))).map
      (fun rs => rs.map (fun r => (r.calls, r.effects.length, r.ret, stableLevel r.state 0)))
      = some (List.replicate 5 ([], 0, 0, some 0)) := by
  refine ⟨rfl, rfl, ?_⟩
  rfl

set_option maxRecDepth 100000 in
/-- Witness of C14 (amended): seven samples of level 1 on button 1 of the default
bindings, with a threshold of 5. -/
theorem C14_debounce_commit_witness :
    demoState.buttonDebouncers[0]? = some ⟨0, 0, 0, 0, 0⟩ ∧
    (∀ p ∈ List.replicate 7 ((1 : Nat), (0 : Nat)), p.1 = 1) ∧
    ∃ rs1 r rs2, runButton demoEnv demoConfig 0 demoState (List.replicate 7 (1, 0))
        = some (rs1 ++ r :: rs2) ∧
      rs1.length = demoConfig.DEFAULT_DEBOUNCING_TIME ∧
      rs1.length + 1 + rs2.length = (List.replicate 7 ((1 : Nat), (0 : Nat))).length ∧
      (∀ q ∈ rs1, Quiet 0 0 q) ∧ stableLevel r.state 0 = some 1 ∧
      (∀ q ∈ rs2, Quiet 0 1 q) ∧
      (1 = 1 → r.calls = [.handlePress 0] ∧ r.ret = 0) ∧
      ((1 : Nat) ≠ 1 → r.ret = 1 ∧
        r.calls = (if inHoldMode demoState 0 = some 1 then [.handleRelease 0] else [])) :=
  ⟨rfl, by decide,
    C14_debounce_commit demoEnv demoConfig demoState 0 0 1 ⟨0, 0, 0, 0, 0⟩
      ⟨atCommands.CMD_KP.code, 0⟩ 0 (List.replicate 7 (1, 0)) rfl rfl rfl rfl rfl (by decide)
      (by decide) (by decide) (by decide) (fun _ => ⟨_, _, rfl, rfl⟩)⟩

/-! ## Macros -/

/-- What `CMD_MA` does outside programming mode with a macro text stored outside the
arena: the calls of `parseCommand` are the strings `macroLoop` yields. -/
theorem performCommand_MA (env : Collaborators) (cfg : Config) (s : State) (par1 pm : Int)
    (text : List Nat) (hact : s.actButton = 0) (hnf : NullFree text) :
    performCommand env cfg s atCommands.CMD_MA.code par1 (.other text) pm
      = some (s, (macroLoop cfg text.length text).map Effect.parseCommand) := by
  rw [performCommand_normal env cfg s _ par1 _ pm hact, ofCode_code]
  simp only [dispatch, resolve, cstr_of_nullFree text hnf]

theorem macroCopy_length (cfg : Config) (p : List Nat) :
    ∀ (cur : List Nat) (bs : Bool), (macroCopy cfg p cur bs).2.length ≤ p.length := by
  induction p with
  | nil => intro cur bs; simp [macroCopy]
  | cons c p ih =>
    intro cur bs
    unfold macroCopy
    split
    · split
      · exact Nat.le_succ_of_le (ih _ _)
      · exact Nat.le_succ_of_le (ih _ _)
    · exact Nat.le_refl _

/-- The string one pass of the copy loop hands over: the emitted characters of the
first piece, cut at `MAX_KEYSTRING_LEN - 1`. -/
theorem macroCopy_fst (cfg : Config) (hmax : cfg.MAX_KEYSTRING_LEN ≤ 256) (p : List Nat) :
    ∀ (cur : List Nat) (bs : Bool), cur.length ≤ cfg.MAX_KEYSTRING_LEN - 1 →
      (macroCopy cfg p cur bs).1
        = (cur ++ headPiece (macroTokens bs p)).take (cfg.MAX_KEYSTRING_LEN - 1) := by
  induction p with
  | nil =>
    intro cur bs hcur
    cases bs <;> simp [macroCopy, macroTokens, headPiece, List.take_of_length_le hcur]
  | cons c p ih =>
    intro cur bs hcur
    unfold macroCopy
    split
    · rename_i hcond
      obtain ⟨hsep, hlen⟩ := hcond
      have hlt : cur.length < cfg.MAX_KEYSTRING_LEN - 1 := by omega
      split
      · rename_i hesc
        obtain ⟨hc, hb⟩ := hesc
        subst hc; subst hb
        rw [ih cur true hcur]
        simp [macroTokens]
      · rename_i hesc
        rw [if_neg (by omega), ih (cur ++ [c]) false (by simp; omega)]
        have htok : headPiece (macroTokens bs (c :: p)) = c :: headPiece (macroTokens false p) := by
          cases bs with
          | true => simp [macroTokens, headPiece]
          | false =>
            have h92 : c ≠ 92 := fun h => hesc ⟨h, rfl⟩
            have h59 : c ≠ 59 := by
              rcases hsep with h | h
              · exact h
              · cases h
            simp [macroTokens, headPiece, h92, h59]
        rw [htok]
        simp
    · rename_i hcond
      show cur = _
      by_cases hlt : cur.length < cfg.MAX_KEYSTRING_LEN - 1
      · have hc : c = 59 ∧ bs = false := by
          by_contra hne
          apply hcond
          refine ⟨?_, by omega⟩
          by_cases h59 : c = 59
          · right
            cases bs with
            | true => rfl
            | false => exact absurd ⟨h59, rfl⟩ hne
          · left; exact h59
        obtain ⟨hc, hb⟩ := hc
        subst hc; subst hb
        simp [macroTokens, headPiece, List.take_of_length_le hcur]
      · have : cur.length = cfg.MAX_KEYSTRING_LEN - 1 := by omega
        rw [List.take_append_of_le_length (by omega), List.take_of_length_le (by omega)]

/-- One pass of the copy loop when the piece fits: it hands over the emitted
characters of the first piece and stops at the first unescaped separator, or at the
end of the text. -/
theorem macroCopy_fit (cfg : Config) (p : List Nat) :
    ∀ (cur : List Nat) (bs : Bool),
      cur.length + (headPiece (macroTokens bs p)).length + 1 < cfg.MAX_KEYSTRING_LEN →
      cur.length + (headPiece (macroTokens bs p)).length < 256 →
      macroCopy cfg p cur bs = (cur ++ headPiece (macroTokens bs p), afterPiece bs p) := by
  induction p with
  | nil => intro cur bs _ _; cases bs <;> simp [macroCopy, afterPiece, macroTokens, headPiece]
  | cons c p ih =>
    intro cur bs hfit hwrap
    unfold macroCopy
    have hlt : (cur.length : Int) < (cfg.MAX_KEYSTRING_LEN : Int) - 1 := by omega
    cases bs with
    | true =>
      simp only [macroTokens, headPiece, List.length_cons] at hfit hwrap
      rw [if_pos ⟨Or.inr rfl, hlt⟩, if_neg (by simp), if_neg (by omega)]
      rw [ih (cur ++ [c]) false
        (by simp only [List.length_append, List.length_singleton]; omega)
        (by simp only [List.length_append, List.length_singleton]; omega)]
      simp [afterPiece, macroTokens, headPiece]
    | false =>
      by_cases h92 : c = 92
      · subst h92
        simp only [macroTokens, if_true] at hfit hwrap
        rw [if_pos ⟨Or.inl (by decide), hlt⟩, if_pos ⟨rfl, rfl⟩]
        rw [ih cur true hfit hwrap]
        simp [afterPiece, macroTokens]
      · by_cases h59 : c = 59
        · subst h59
          rw [if_neg (by simp)]
          simp [afterPiece, macroTokens, headPiece]
        · simp only [macroTokens, if_neg h92, if_neg h59, headPiece, List.length_cons]
            at hfit hwrap
          rw [if_pos ⟨Or.inl h59, hlt⟩, if_neg (by simp [h92]), if_neg (by omega)]
          rw [ih (cur ++ [c]) false
            (by simp only [List.length_append, List.length_singleton]; omega)
            (by simp only [List.length_append, List.length_singleton]; omega)]
          simp [afterPiece, macroTokens, headPiece, h92, h59]

/-- The pieces of a text: its first piece, then the pieces of what follows the first
separator. -/
theorem splitTokens_macroTokens (p : List Nat) :
    ∀ bs : Bool, splitTokens (macroTokens bs p) = headPiece (macroTokens bs p) ::
      (match afterPiece bs p with
       | [] => []
       | _ :: q => splitTokens (macroTokens false q)) := by
  induction p with
  | nil => intro bs; cases bs <;> rfl
  | cons c p ih =>
    intro bs
    cases bs with
    | true =>
      simp only [macroTokens, splitTokens, headPiece, afterPiece]
      rw [ih false]
    | false =>
      by_cases h92 : c = 92
      · subst h92
        simp only [macroTokens, afterPiece, if_true]
        exact ih true
      · by_cases h59 : c = 59
        · subst h59
          simp [macroTokens, splitTokens, headPiece, afterPiece]
        · simp only [macroTokens, if_neg h92, if_neg h59, splitTokens, headPiece, afterPiece]
          rw [ih false]

theorem afterPiece_length (p : List Nat) :
    ∀ bs : Bool, (afterPiece bs p).length ≤ p.length := by
  induction p with
  | nil => intro bs; cases bs <;> simp [afterPiece]
  | cons c p ih =>
    intro bs
    cases bs with
    | true => simp only [afterPiece, List.length_cons]; exact Nat.le_succ_of_le (ih false)
    | false =>
      simp only [afterPiece]
      split
      · exact Nat.le_succ_of_le (ih true)
      · split
        · exact Nat.le_refl _
        · exact Nat.le_succ_of_le (ih false)

theorem endsInSeparator_afterPiece (p : List Nat) :
    ∀ bs : Bool, endsInSeparator bs p =
      (match afterPiece bs p with
       | [] => false
       | _ :: q => if q = [] then true else endsInSeparator false q) := by
  induction p with
  | nil => intro bs; cases bs <;> rfl
  | cons c p ih =>
    intro bs
    cases bs with
    | true => simp only [endsInSeparator, afterPiece]; exact ih false
    | false =>
      by_cases h92 : c = 92
      · subst h92
        simp only [endsInSeparator, afterPiece, if_true]
        exact ih true
      · by_cases h59 : c = 59
        · subst h59
          simp only [endsInSeparator, afterPiece]
          by_cases hp : p = []
          · subst hp; simp
          · simp [hp]
        · simp only [endsInSeparator, afterPiece, if_neg h92, if_neg h59]
          rw [if_neg (fun h => h59 h.1)]
          exact ih false

theorem macroLoop_nil (cfg : Config) (fuel : Nat) : macroLoop cfg fuel [] = [] := by
  cases fuel <;> rfl

theorem splitTokens_ne_nil (ts : List (Option Nat)) : splitTokens ts ≠ [] := by
  cases ts with
  | nil => simp [splitTokens]
  | cons t ts =>
    cases t with
    | none => simp [splitTokens]
    | some c =>
      simp only [splitTokens]
      split <;> simp

/-- The splitting law of the macro loop when every piece fits: the calls are the
pieces of the text, without the empty piece after a final separator. -/
theorem macroLoop_split (cfg : Config) :
    ∀ (fuel : Nat) (text : List Nat), text.length ≤ fuel →
      (∀ piece ∈ specSplit text, piece.length + 1 < cfg.MAX_KEYSTRING_LEN ∧ piece.length < 256) →
      macroLoop cfg fuel text =
        if text = [] then []
        else if endsInSeparator false text = true then (specSplit text).dropLast
        else specSplit text := by
  intro fuel
  induction fuel with
  | zero =>
    intro text hlen _
    have : text = [] := List.length_eq_zero.1 (by omega)
    subst this
    rfl
  | succ fuel ih =>
    intro text hlen hfit
    cases text with
    | nil => rfl
    | cons c p =>
      rw [if_neg (by simp)]
      have hsplit := splitTokens_macroTokens (c :: p) false
      have hends := endsInSeparator_afterPiece (c :: p) false
      have hal := afterPiece_length (c :: p) false
      have hhead := hfit (headPiece (macroTokens false (c :: p)))
        (by unfold specSplit; rw [hsplit]; exact List.mem_cons_self _ _)
      have hcopy := macroCopy_fit cfg (c :: p) [] false
        (by simp only [List.length_nil]; omega) (by simp only [List.length_nil]; omega)
      simp only [List.nil_append] at hcopy
      simp only [macroLoop]
      rw [hcopy]
      simp only []
      unfold specSplit
      rw [hsplit, hends]
      cases hrest : afterPiece false (c :: p) with
      | nil =>
        simp only [List.drop_nil, macroLoop_nil]
        simp
      | cons c1 q =>
        rw [hrest] at hal
        simp only [List.length_cons] at hal hlen
        have hfitq : ∀ piece ∈ specSplit q,
            piece.length + 1 < cfg.MAX_KEYSTRING_LEN ∧ piece.length < 256 := by
          intro piece hp
          apply hfit
          unfold specSplit
          rw [hsplit, hrest]
          exact List.mem_cons_of_mem _ hp
        have hq := ih q (by omega) hfitq
        simp only [List.drop_succ_cons, List.drop_zero]
        rw [hq]
        by_cases hnil : q = []
        · subst hnil
          simp [specSplit, macroTokens, splitTokens]
        · rw [if_neg hnil, if_neg hnil]
          by_cases he : endsInSeparator false q = true
          · rw [if_pos he, if_pos he]
            unfold specSplit
            rw [List.dropLast_cons_of_ne_nil (splitTokens_ne_nil _)]
          · rw [if_neg he, if_neg he]
            rfl

/-- The calls up to the first piece that does not fit: the earlier pieces as they
are, then the first `MAX_KEYSTRING_LEN - 1` characters of that piece. -/
theorem macroLoop_trunc (cfg : Config) (hmax : cfg.MAX_KEYSTRING_LEN ≤ 256) (piece : List Nat)
    (hlong : cfg.MAX_KEYSTRING_LEN - 1 < piece.length) :
    ∀ (k fuel : Nat) (text : List Nat), text.length ≤ fuel →
      (specSplit text)[k]? = some piece →
      (∀ j < k, ∀ q, (specSplit text)[j]? = some q → q.length + 1 < cfg.MAX_KEYSTRING_LEN) →
      (macroLoop cfg fuel text)[k]? = some (piece.take (cfg.MAX_KEYSTRING_LEN - 1)) ∧
      ∀ j < k, (macroLoop cfg fuel text)[j]? = (specSplit text)[j]? := by
  intro k
  induction k with
  | zero =>
    intro fuel text hlen hk _
    cases text with
    | nil =>
      simp only [specSplit, macroTokens, splitTokens, List.getElem?_cons_zero,
        Option.some.injEq] at hk
      subst hk
      simp at hlong
    | cons c p =>
      cases fuel with
      | zero => simp at hlen
      | succ fuel =>
        have hsplit := splitTokens_macroTokens (c :: p) false
        unfold specSplit at hk
        rw [hsplit] at hk
        simp only [List.getElem?_cons_zero, Option.some.injEq] at hk
        refine ⟨?_, fun j hj => absurd hj (Nat.not_lt_zero j)⟩
        simp only [macroLoop, List.getElem?_cons_zero, Option.some.injEq]
        rw [macroCopy_fst cfg hmax (c :: p) [] false (by simp), List.nil_append, hk]
  | succ k ih =>
    intro fuel text hlen hk hshort
    cases text with
    | nil =>
      simp [specSplit, macroTokens, splitTokens] at hk
    | cons c p =>
      cases fuel with
      | zero => simp at hlen
      | succ fuel =>
        have hsplit := splitTokens_macroTokens (c :: p) false
        have hal := afterPiece_length (c :: p) false
        have hhead := hshort 0 (Nat.succ_pos k) (headPiece (macroTokens false (c :: p)))
          (by unfold specSplit; rw [hsplit]; exact List.getElem?_cons_zero)
        have hcopy := macroCopy_fit cfg (c :: p) [] false
          (by simp only [List.length_nil]; omega) (by simp only [List.length_nil]; omega)
        simp only [List.nil_append] at hcopy
        unfold specSplit at hk hshort ⊢
        rw [hsplit] at hk hshort ⊢
        simp only [macroLoop]
        rw [hcopy]
        simp only []
        cases hrest : afterPiece false (c :: p) with
        | nil =>
          rw [hrest] at hk
          simp at hk
        | cons c1 q =>
          rw [hrest] at hk hshort hal
          simp only [List.getElem?_cons_succ] at hk
          simp only [List.length_cons] at hal hlen
          obtain ⟨h1, h2⟩ := ih fuel q (by omega) hk (by
            intro j hj r hr
            exact hshort (j + 1) (by omega) r (by simpa using hr))
          simp only [List.drop_succ_cons, List.drop_zero, List.getElem?_cons_succ]
          refine ⟨h1, ?_⟩
          intro j hj
          cases j with
          | zero => simp only [List.getElem?_cons_zero]
          | succ j =>
            simp only [List.getElem?_cons_succ]
            exact h2 j (by omega)

/-- C16 (macro escaping examples): the macro text `MX 1\;MY 2;CL;` makes `CMD_MA`
call `parseCommand` with "MX 1;MY 2" and then with "CL"; the text `KW \;;CL;` with
"KW ;" and then with "CL". -/
theorem C16_macro_escaping (env : Collaborators) (cfg : Config) (s : State) (par1 pm : Int)
    (hact : s.actButton = 0) (hmax : 11 ≤ cfg.MAX_KEYSTRING_LEN) :
    performCommand env cfg s atCommands.CMD_MA.code par1 (.other macroExample) pm
      = some (s, [.parseCommand (bytesOf "MX 1;MY 2"), .parseCommand (bytesOf "CL")]) ∧
    performCommand env cfg s atCommands.CMD_MA.code par1 (.other macroExampleKW) pm
      = some (s, [.parseCommand (bytesOf "KW ;"), .parseCommand (bytesOf "CL")]) := by
  have h1 : specSplit macroExample = [bytesOf "MX 1;MY 2", bytesOf "CL", []] := by decide
  have h2 : specSplit macroExampleKW = [bytesOf "KW ;", bytesOf "CL", []] := by decide
  constructor
  · rw [performCommand_MA env cfg s par1 pm macroExample hact (by decide),
      macroLoop_split cfg _ macroExample (Nat.le_refl _) (by
        rw [h1]
        intro piece hp
        simp only [List.mem_cons, List.mem_singleton, List.not_mem_nil, or_false] at hp
        rcases hp with h | h | h <;> subst h <;> simp [bytesOf] <;> omega),
      if_neg (by decide), if_pos (by decide), h1]
    rfl
  · rw [performCommand_MA env cfg s par1 pm macroExampleKW hact (by decide),
      macroLoop_split cfg _ macroExampleKW (Nat.le_refl _) (by
        rw [h2]
        intro piece hp
        simp only [List.mem_cons, List.mem_singleton, List.not_mem_nil, or_false] at hp
        rcases hp with h | h | h <;> subst h <;> simp [bytesOf] <;> omega),
      if_neg (by decide), if_pos (by decide), h2]
    rfl

/-- Witness of C16: the two documented macro texts on the default bindings. -/
theorem C16_macro_escaping_witness :
    demoState.actButton = 0 ∧ 11 ≤ demoConfig.MAX_KEYSTRING_LEN ∧
    performCommand demoEnv demoConfig demoState atCommands.CMD_MA.code 0
        (.other macroExample) 0
      = some (demoState,
          [.parseCommand (bytesOf "MX 1;MY 2"), .parseCommand (bytesOf "CL")]) ∧
    performCommand demoEnv demoConfig demoState atCommands.CMD_MA.code 0
        (.other macroExampleKW) 0
      = some (demoState, [.parseCommand (bytesOf "KW ;"), .parseCommand (bytesOf "CL")]) :=
  ⟨rfl, by decide, C16_macro_escaping demoEnv demoConfig demoState 0 0 rfl (by decide)⟩

/-- Splitting law for pieces the `uint8_t` counter `len` can count: for a non-empty
macro text that does not end in an unescaped `;` and whose pieces all have fewer than
`MAX_KEYSTRING_LEN - 1` and fewer than 256 emitted characters, `CMD_MA` calls
`parseCommand` once per piece, in order, with the piece stripped of its escape
markers; empty pieces and the final unterminated piece included. -/
theorem macro_splitting_law (env : Collaborators) (cfg : Config) (s : State) (par1 pm : Int)
    (text : List Nat) (hact : s.actButton = 0) (hnf : NullFree text) (hne : text ≠ [])
    (hend : endsInSeparator false text = false)
    (hfit : ∀ piece ∈ specSplit text,
      piece.length < cfg.MAX_KEYSTRING_LEN - 1 ∧ piece.length < 256) :
    performCommand env cfg s atCommands.CMD_MA.code par1 (.other text) pm
      = some (s, (specSplit text).map Effect.parseCommand) := by
  rw [performCommand_MA env cfg s par1 pm text hact hnf,
    macroLoop_split cfg _ text (Nat.le_refl _) (fun piece hp => by
      have := hfit piece hp
      omega),
    if_neg hne, if_neg (by simp [hend])]

set_option maxRecDepth 100000 in
/-- Example of the splitting law: the text `MX 1\;MY 2;;CL`, with an escaped
separator, an empty piece and an unterminated last piece. -/
theorem macro_splitting_example :
    NullFree (bytesOf "MX 1" ++ [92] ++ bytesOf ";MY 2;;CL") ∧
    endsInSeparator false (bytesOf "MX 1" ++ [92] ++ bytesOf ";MY 2;;CL") = false ∧
    (∀ piece ∈ specSplit (bytesOf "MX 1" ++ [92] ++ bytesOf ";MY 2;;CL"),
      piece.length < demoConfig.MAX_KEYSTRING_LEN - 1 ∧ piece.length < 256) ∧
    specSplit (bytesOf "MX 1" ++ [92] ++ bytesOf ";MY 2;;CL")
      = [bytesOf "MX 1;MY 2", [], bytesOf "CL"] ∧
    performCommand demoEnv demoConfig demoState atCommands.CMD_MA.code 0
        (.other (bytesOf "MX 1" ++ [92] ++ bytesOf ";MY 2;;CL")) 0
      = some (demoState, (specSplit (bytesOf "MX 1" ++ [92] ++ bytesOf ";MY 2;;CL")).map
          Effect.parseCommand) :=
  ⟨by decide, by decide, by decide, by decide,
    macro_splitting_law demoEnv demoConfig demoState 0 0
      (bytesOf "MX 1" ++ [92] ++ bytesOf ";MY 2;;CL") rfl (by decide) (by decide) (by decide)
      (by decide)⟩

set_option maxRecDepth 100000 in
/-- C17 (macro truncation), evaluated on the code: with `MAX_KEYSTRING_LEN = 100`,
the text of 120 letters `A` followed by `;CL` has two sub-commands, but `CMD_MA`
calls `parseCommand` three times: with the first 99 letters, then with 20 letters `A`
(the rest of the long sub-command is not discarded, and its 100th letter is dropped
by the step of line 367 that is meant to pass the `;`), then with "CL". -/
theorem C17_cut_splits :
    demoConfig.MAX_KEYSTRING_LEN = 100 ∧
    specSplit (List.replicate 120 65 ++ bytesOf ";CL") = [List.replicate 120 65, bytesOf "CL"] ∧
    performCommand demoEnv demoConfig demoState atCommands.CMD_MA.code 0
        (.other (List.replicate 120 65 ++ bytesOf ";CL")) 0
      = some (demoState, [.parseCommand (List.replicate 99 65),
          .parseCommand (List.replicate 20 65), .parseCommand (bytesOf "CL")]) := by
  refine ⟨rfl, by decide, ?_⟩
  rfl

theorem macroLoop_fuel (cfg : Config) :
    ∀ (f1 f2 : Nat) (text : List Nat), text.length ≤ f1 → text.length ≤ f2 →
      macroLoop cfg f1 text = macroLoop cfg f2 text := by
  intro f1
  induction f1 with
  | zero =>
    intro f2 text h1 _
    have : text = [] := List.length_eq_zero.1 (by omega)
    subst this
    rw [macroLoop_nil, macroLoop_nil]
  | succ f1 ih =>
    intro f2 text h1 h2
    cases text with
    | nil => rw [macroLoop_nil, macroLoop_nil]
    | cons c p =>
      cases f2 with
      | zero => simp at h2
      | succ f2 =>
        have hl := macroCopy_length cfg (c :: p) [] false
        simp only [List.length_cons] at hl h1 h2
        simp only [macroLoop]
        rw [ih f2 _ (by rw [List.length_drop]; omega) (by rw [List.length_drop]; omega)]

/-- The copy loop over characters that are neither escape markers nor separators. -/
theorem macroCopy_plain (cfg : Config) (hmax : cfg.MAX_KEYSTRING_LEN ≤ 256) (tail : List Nat)
    (pre : List Nat) :
    ∀ cur : List Nat, (∀ x ∈ pre, x ≠ 92 ∧ x ≠ 59) →
      cur.length + pre.length ≤ cfg.MAX_KEYSTRING_LEN - 1 →
      macroCopy cfg (pre ++ tail) cur false = macroCopy cfg tail (cur ++ pre) false := by
  induction pre with
  | nil => intro cur _ _; simp
  | cons x pre ih =>
    intro cur hplain hlen
    have hx := hplain x (List.mem_cons_self _ _)
    simp only [List.length_cons] at hlen
    rw [List.cons_append]
    unfold macroCopy
    rw [if_pos ⟨Or.inl hx.2, by omega⟩, if_neg (fun h => hx.1 h.1), if_neg (by omega)]
    have := ih (cur ++ [x]) (fun y hy => hplain y (List.mem_cons_of_mem _ hy))
      (by simp only [List.length_append, List.length_singleton]; omega)
    rw [List.append_assoc, List.singleton_append] at this
    cases tail <;> exact this

/-- After `MAX_KEYSTRING_LEN - 1` plain characters the copy loop stops, whatever the
next character is; that character is skipped and the scan resumes behind it. -/
theorem macroLoop_cut (cfg : Config) (hmax : cfg.MAX_KEYSTRING_LEN ≤ 256)
    (pre : List Nat) (c : Nat) (rest : List Nat) (hplain : ∀ x ∈ pre, x ≠ 92 ∧ x ≠ 59)
    (hlen : pre.length = cfg.MAX_KEYSTRING_LEN - 1) :
    macroLoop cfg (pre ++ c :: rest).length (pre ++ c :: rest)
      = pre :: macroLoop cfg rest.length rest := by
  have hcopy : macroCopy cfg (pre ++ c :: rest) [] false = (pre, c :: rest) := by
    rw [macroCopy_plain cfg hmax (c :: rest) pre [] hplain (by simp only [List.length_nil]; omega)]
    unfold macroCopy
    rw [if_neg (by
      intro h
      have := h.2
      simp only [List.nil_append] at this
      omega)]
    rfl
  have hl : (pre ++ c :: rest).length = (pre.length + rest.length) + 1 := by
    simp only [List.length_append, List.length_cons]; omega
  rw [hl]
  cases htext : pre ++ c :: rest with
  | nil => simp at htext
  | cons a t =>
    simp only [macroLoop]
    rw [← htext, hcopy]
    simp only [List.drop_succ_cons, List.drop_zero]
    rw [macroLoop_fuel cfg _ rest.length rest (by omega) (Nat.le_refl _)]

/-- What the loop of `CMD_MA` does at a length cut, for `MAX_KEYSTRING_LEN ≤ 256`:
the first sub-command of a macro text with more than `MAX_KEYSTRING_LEN - 1` emitted
characters causes a call of `parseCommand` with its first `MAX_KEYSTRING_LEN - 1`
emitted characters, after one call for each earlier piece, passed whole; and when
the text starts with `MAX_KEYSTRING_LEN - 1` plain characters, the call with these
characters is followed by the calls for the text behind the next character. -/
theorem macro_cut_law (env : Collaborators) (cfg : Config) (s : State) (par1 pm : Int)
    (text piece : List Nat) (k : Nat) (hact : s.actButton = 0) (hnf : NullFree text)
    (hmax : cfg.MAX_KEYSTRING_LEN ≤ 256)
    (hk : (specSplit text)[k]? = some piece)
    (hlong : cfg.MAX_KEYSTRING_LEN - 1 < piece.length)
    (hshort : ∀ j < k, ∀ q, (specSplit text)[j]? = some q →
      q.length < cfg.MAX_KEYSTRING_LEN - 1) :
    (∃ calls : List (List Nat),
      performCommand env cfg s atCommands.CMD_MA.code par1 (.other text) pm
        = some (s, calls.map Effect.parseCommand) ∧
      calls[k]? = some (piece.take (cfg.MAX_KEYSTRING_LEN - 1)) ∧
      ∀ j < k, calls[j]? = (specSplit text)[j]?) ∧
    (∀ (pre : List Nat) (c : Nat) (rest : List Nat), text = pre ++ c :: rest →
      pre.length = cfg.MAX_KEYSTRING_LEN - 1 → (∀ x ∈ pre, x ≠ 92 ∧ x ≠ 59) →
      ∃ calls : List (List Nat),
        performCommand env cfg s atCommands.CMD_MA.code par1 (.other rest) pm
          = some (s, calls.map Effect.parseCommand) ∧
        performCommand env cfg s atCommands.CMD_MA.code par1 (.other text) pm
          = some (s, (pre :: calls).map Effect.parseCommand)) := by
  constructor
  · refine ⟨_, performCommand_MA env cfg s par1 pm text hact hnf, ?_⟩
    exact macroLoop_trunc cfg hmax piece hlong k _ text (Nat.le_refl _) hk
      (fun j hj q hq => by
        have := hshort j hj q hq
        omega)
  · intro pre c rest htext hlen hplain
    have hnfr : NullFree rest := by
      intro x hx
      apply hnf x
      rw [htext]
      exact List.mem_append_right _ (List.mem_cons_of_mem _ hx)
    refine ⟨_, performCommand_MA env cfg s par1 pm rest hact hnfr, ?_⟩
    rw [performCommand_MA env cfg s par1 pm text hact hnf, htext,
      macroLoop_cut cfg hmax pre c rest hplain hlen]

set_option maxRecDepth 100000 in
/-- Example of a length cut: 120 letters `A` followed by `;CL`, with
`MAX_KEYSTRING_LEN = 100`. -/
theorem macro_cut_example :
    NullFree (List.replicate 120 65 ++ bytesOf ";CL") ∧
    (specSplit (List.replicate 120 65 ++ bytesOf ";CL"))[0]? = some (List.replicate 120 65) ∧
    (∃ calls : List (List Nat),
      performCommand demoEnv demoConfig demoState atCommands.CMD_MA.code 0
        (.other (List.replicate 120 65 ++ bytesOf ";CL")) 0
        = some (demoState, calls.map Effect.parseCommand) ∧
      calls[0]? = some ((List.replicate 120 65).take (demoConfig.MAX_KEYSTRING_LEN - 1)) ∧
      ∀ j < 0, calls[j]? = (specSplit (List.replicate 120 65 ++ bytesOf ";CL"))[j]?) ∧
    (∀ (pre : List Nat) (c : Nat) (rest : List Nat),
      List.replicate 120 65 ++ bytesOf ";CL" = pre ++ c :: rest →
      pre.length = demoConfig.MAX_KEYSTRING_LEN - 1 → (∀ x ∈ pre, x ≠ 92 ∧ x ≠ 59) →
      ∃ calls : List (List Nat),
        performCommand demoEnv demoConfig demoState atCommands.CMD_MA.code 0 (.other rest) 0
          = some (demoState, calls.map Effect.parseCommand) ∧
        performCommand demoEnv demoConfig demoState atCommands.CMD_MA.code 0
            (.other (List.replicate 120 65 ++ bytesOf ";CL")) 0
          = some (demoState, (pre :: calls).map Effect.parseCommand)) :=
  ⟨by decide, by decide,
    macro_cut_law demoEnv demoConfig demoState 0 0
      (List.replicate 120 65 ++ bytesOf ";CL") (List.replicate 120 65) 0
      rfl (by decide) (by decide) (by decide) (by decide)
      (fun j hj => absurd hj (Nat.not_lt_zero j))⟩

/-! ## Factory reset -/

set_option maxRecDepth 100000 in
/-- C20 (factory reset of bindings), evaluated on the code: on a well-formed store of
6 buttons and 40 bytes in which button 6 holds 15 letters `A`, `initButtons` gives
the default modes and values, but button 6 keeps its keystring, and the default
keystrings of buttons 2, 4 and 5 do not fit any more: these buttons are left bound to
KP with the empty string. -/
theorem C20_reset_keeps_keystrings :
    Holds smallConfig crowdedState crowdedKeystrings ∧
    (List.range 6).map (getButtonKeystring crowdedState.keystringBuffer)
      = crowdedState.buttonKeystrings.map some ∧
    (initButtons smallConfig crowdedState).map (fun (s : State) =>
      (s.buttons, (List.range 6).map (readKeystring s.keystringBuffer)))
      = some ([⟨atCommands.CMD_KP.code, 0⟩, ⟨atCommands.CMD_KP.code, 0⟩,
               ⟨atCommands.CMD_CL.code, 0⟩, ⟨atCommands.CMD_KP.code, 0⟩,
               ⟨atCommands.CMD_KP.code, 0⟩, ⟨atCommands.CMD_NC.code, 0⟩],
              [some (bytesOf "KEY_SPACE "), some [], some [], some [], some [],
               some (List.replicate 15 65)]) := by
  refine ⟨⟨rfl, by decide, ⟨_, rfl⟩, rfl, rfl⟩, ?_, ?_⟩
  · rfl
  · rfl

/-! ## The all-zero arena -/

theorem encode_take_replicate_nil (n i : Nat) (hi : i ≤ n) :
    (encode ((List.replicate n ([] : List Nat)).take i)).length = i := by
  rw [List.take_replicate, encode_replicate_nil, List.length_replicate]
  omega

/-- C21 (all-zero arena): on an all-zero arena `initButtonKeystrings` returns with
`keystringBufferLen = NUMBER_OF_BUTTONS`; for every `i < NUMBER_OF_BUTTONS` the table
entry `buttonKeystrings[i]` and `getButtonKeystring(i)` are both offset `i`, and the
string read there is empty.  The arena itself is not written. -/
theorem C21_zero_arena (cfg : Config) (s0 : State)
    (hN : cfg.NUMBER_OF_BUTTONS ≤ cfg.MAX_KEYSTRINGBUFFER_LEN)
    (hMAX : cfg.MAX_KEYSTRINGBUFFER_LEN < 65536)
    (hbuf : s0.keystringBuffer = List.replicate cfg.MAX_KEYSTRINGBUFFER_LEN 0)
    (htbl : s0.buttonKeystrings.length = cfg.NUMBER_OF_BUTTONS) :
    ∃ s1, initButtonKeystrings cfg s0 = some s1 ∧
      s1.keystringBuffer = s0.keystringBuffer ∧
      s1.slotSettings.keystringBufferLen = cfg.NUMBER_OF_BUTTONS ∧
      Holds cfg s1 (List.replicate cfg.NUMBER_OF_BUTTONS []) ∧
      ∀ i, i < cfg.NUMBER_OF_BUTTONS →
        s1.buttonKeystrings[i]? = some i ∧
        getButtonKeystring s1.keystringBuffer i = some i ∧
        stringAt s1.keystringBuffer i = some [] ∧
        readKeystring s1.keystringBuffer i = some [] := by
  have h0 : Holds cfg { s0 with slotSettings :=
      { s0.slotSettings with keystringBufferLen := cfg.NUMBER_OF_BUTTONS } }
      (List.replicate cfg.NUMBER_OF_BUTTONS []) := holds_zero cfg _ hN hbuf rfl
  have hinit := initButtonKeystrings_packed cfg s0 h0.count h0.nullFree
    h0.packed (by rw [hbuf]; simpa using hMAX)
  have hlen : (encode (List.replicate cfg.NUMBER_OF_BUTTONS ([] : List Nat))).length
      = cfg.NUMBER_OF_BUTTONS := by
    rw [encode_replicate_nil, List.length_replicate]
  have h1 : Holds cfg { s0 with
      buttonKeystrings := initTable (List.replicate cfg.NUMBER_OF_BUTTONS []) 0 0
        s0.buttonKeystrings
      slotSettings := { s0.slotSettings with
        keystringBufferLen := (encode (List.replicate cfg.NUMBER_OF_BUTTONS [])).length } }
      (List.replicate cfg.NUMBER_OF_BUTTONS []) :=
    ⟨h0.count, h0.nullFree, h0.packed, rfl, h0.size⟩
  refine ⟨_, hinit, rfl, hlen, h1, ?_⟩
  intro i hi
  have hi1 : i < (List.replicate cfg.NUMBER_OF_BUTTONS ([] : List Nat)).length := by
    rw [List.length_replicate]; exact hi
  have hread := readKeystring_holds h1 i hi1
  have hentry := initTable_entry (List.replicate cfg.NUMBER_OF_BUTTONS []) 0 0
    s0.buttonKeystrings i hi1 (by omega)
  rw [Nat.zero_add, Nat.zero_add, encode_take_replicate_nil _ _ (Nat.le_of_lt hi)] at hentry
  obtain ⟨R0, hR0⟩ := h1.packed
  have hget : getButtonKeystring s0.keystringBuffer i = some i := by
    have := getButtonKeystring_packed (List.replicate cfg.NUMBER_OF_BUTTONS []) R0
      h1.nullFree i (by omega)
    rw [encode_take_replicate_nil _ _ (Nat.le_of_lt hi)] at this
    rw [← this]
    congr 1
    exact hR0.symm
  have hempty : (List.replicate cfg.NUMBER_OF_BUTTONS ([] : List Nat))[i] = [] := by simp
  rw [hempty] at hread
  refine ⟨hentry, hget, ?_, hread⟩
  have hr := hread
  unfold readKeystring at hr
  simp only [] at hr
  rw [hget] at hr
  exact hr

set_option maxRecDepth 100000 in
/-- Witness of C21: the static storage before any initialisation, with 22 buttons
and an arena of 500 bytes. -/
theorem C21_zero_arena_witness :
    demoConfig.NUMBER_OF_BUTTONS ≤ demoConfig.MAX_KEYSTRINGBUFFER_LEN ∧
    demoConfig.MAX_KEYSTRINGBUFFER_LEN < 65536 ∧
    ∃ s1, initButtonKeystrings demoConfig (zeroState demoConfig) = some s1 ∧
      s1.keystringBuffer = (zeroState demoConfig).keystringBuffer ∧
      s1.slotSettings.keystringBufferLen = demoConfig.NUMBER_OF_BUTTONS ∧
      Holds demoConfig s1 (List.replicate demoConfig.NUMBER_OF_BUTTONS []) ∧
      ∀ i, i < demoConfig.NUMBER_OF_BUTTONS →
        s1.buttonKeystrings[i]? = some i ∧
        getButtonKeystring s1.keystringBuffer i = some i ∧
        stringAt s1.keystringBuffer i = some [] ∧
        readKeystring s1.keystringBuffer i = some [] :=
  ⟨by decide, by decide,
    C21_zero_arena demoConfig (zeroState demoConfig) (by decide) (by decide) rfl rfl⟩

/-! ## Slot switching and joystick commands -/

theorem performCommand_code (env : Collaborators) (cfg : Config) (s : State) (c : atCommands)
    (par1 : Int) (ks : CharPtr) (pm : Int) (hact : s.actButton = 0) :
    performCommand env cfg s c.code par1 ks pm = dispatch env cfg s par1 ks c := by
  rw [performCommand_normal env cfg s _ par1 ks pm hact, ofCode_code]

/-- C22 (release-all before configuration changes), evaluated on the code: outside
programming mode `BM`, `LO` with a name and `NE` call `release_all` before anything
else, but the factory reset `RS` never calls it: its first call is `deleteSlot("")`,
and `release_all` is not among its calls. -/
theorem C22_release_all_first (env : Collaborators) (cfg : Config) (s : State) (par1 : Int)
    (ks : CharPtr) (pm : Int) (hact : s.actButton = 0) :
    (∃ s1 eff, performCommand env cfg s atCommands.CMD_BM.code par1 ks pm
        = some (s1, Effect.release_all :: eff)) ∧
    (ks ≠ .null → ∃ s1 eff, performCommand env cfg s atCommands.CMD_LO.code par1 ks pm
        = some (s1, Effect.release_all :: eff)) ∧
    (∃ s1 eff, performCommand env cfg s atCommands.CMD_NE.code par1 ks pm
        = some (s1, Effect.release_all :: eff)) ∧
    (∀ s1 eff, performCommand env cfg s atCommands.CMD_RS.code par1 ks pm = some (s1, eff) →
      (∃ rest, eff = Effect.deleteSlot (.other []) :: rest) ∧ Effect.release_all ∉ eff) := by
  refine ⟨?_, ?_, ?_, ?_⟩
  · rw [performCommand_code env cfg s _ par1 ks pm hact]
    simp only [dispatch]
    split
    · exact ⟨_, _, rfl⟩
    · exact ⟨_, _, rfl⟩
  · intro hks
    rw [performCommand_code env cfg s _ par1 ks pm hact]
    simp only [dispatch]
    rw [if_pos hks]
    exact ⟨_, _, rfl⟩
  · rw [performCommand_code env cfg s _ par1 ks pm hact]
    simp only [dispatch]
    exact ⟨_, _, rfl⟩
  · intro s1 eff h
    rw [performCommand_code env cfg s _ par1 ks pm hact] at h
    simp only [dispatch] at h
    split at h
    · cases h
    · cases h
      exact ⟨⟨_, rfl⟩, by simp⟩

set_option maxRecDepth 100000 in
/-- Witness of C22: the four commands on the default bindings; `RS` returns, with
five calls, none of them `release_all`. -/
theorem C22_release_all_first_witness :
    demoState.actButton = 0 ∧
    (performCommand demoEnv demoConfig demoState atCommands.CMD_RS.code 0 (.other []) 0).map
      (fun r => r.2.length) = some 5 ∧
    (∃ s1 eff, performCommand demoEnv demoConfig demoState atCommands.CMD_BM.code 0
        (.other []) 0 = some (s1, Effect.release_all :: eff)) ∧
    ((CharPtr.other []) ≠ .null →
      ∃ s1 eff, performCommand demoEnv demoConfig demoState atCommands.CMD_LO.code 0
        (.other []) 0 = some (s1, Effect.release_all :: eff)) ∧
    (∃ s1 eff, performCommand demoEnv demoConfig demoState atCommands.CMD_NE.code 0
        (.other []) 0 = some (s1, Effect.release_all :: eff)) ∧
    (∀ s1 eff, performCommand demoEnv demoConfig demoState atCommands.CMD_RS.code 0
        (.other []) 0 = some (s1, eff) →
      (∃ rest, eff = Effect.deleteSlot (.other []) :: rest) ∧ Effect.release_all ∉ eff) :=
  ⟨rfl, rfl, C22_release_all_first demoEnv demoConfig demoState 0 (.other []) 0 rfl⟩

/-- C23 (joystick axis commands), evaluated on the code: `JX`, `JY` and `JZ` call
`joystickAxis(v,-1,0)`, `joystickAxis(-1,v,0)` and `joystickAxis(v,-1,1)`, but `JT`
makes the same call as `JY` and `JS` the same call as `JX`. -/
theorem C23_joystick_axes (env : Collaborators) (cfg : Config) (s : State) (v : Int)
    (ks : CharPtr) (pm : Int) (hact : s.actButton = 0) :
    performCommand env cfg s atCommands.CMD_JX.code v ks pm
      = some (s, [.joystickAxis v (-1) 0]) ∧
    performCommand env cfg s atCommands.CMD_JY.code v ks pm
      = some (s, [.joystickAxis (-1) v 0]) ∧
    performCommand env cfg s atCommands.CMD_JZ.code v ks pm
      = some (s, [.joystickAxis v (-1) 1]) ∧
    performCommand env cfg s atCommands.CMD_JT.code v ks pm
      = performCommand env cfg s atCommands.CMD_JY.code v ks pm ∧
    performCommand env cfg s atCommands.CMD_JS.code v ks pm
      = performCommand env cfg s atCommands.CMD_JX.code v ks pm := by
  simp only [performCommand_code env cfg s _ v ks pm hact, dispatch, and_self]

/-- Witness of C23: the parameter 512 on the default bindings. -/
theorem C23_joystick_axes_witness :
    demoState.actButton = 0 ∧
    performCommand demoEnv demoConfig demoState atCommands.CMD_JX.code 512 .null 0
      = some (demoState, [.joystickAxis 512 (-1) 0]) ∧
    performCommand demoEnv demoConfig demoState atCommands.CMD_JY.code 512 .null 0
      = some (demoState, [.joystickAxis (-1) 512 0]) ∧
    performCommand demoEnv demoConfig demoState atCommands.CMD_JZ.code 512 .null 0
      = some (demoState, [.joystickAxis 512 (-1) 1]) ∧
    performCommand demoEnv demoConfig demoState atCommands.CMD_JT.code 512 .null 0
      = performCommand demoEnv demoConfig demoState atCommands.CMD_JY.code 512 .null 0 ∧
    performCommand demoEnv demoConfig demoState atCommands.CMD_JS.code 512 .null 0
      = performCommand demoEnv demoConfig demoState atCommands.CMD_JX.code 512 .null 0 :=
  ⟨rfl, C23_joystick_axes demoEnv demoConfig demoState 512 .null 0 rfl⟩

/-! ## The return value of `handleButton` -/

/-- C24 (event indication of the sampling call), evaluated on the code: a returning
call of `handleButton` returns 1 exactly when it commits a release (the sample equals
the last-seen level, the counter reaches the threshold, and the level differs from
the stable level and from 1); the call that commits a press, the one that calls
`handlePress`, returns 0 like the calls that commit nothing. -/
theorem C24_return_value (env : Collaborators) (cfg : Config) (s : State)
    (i level millis : Nat) (d : buttonDebouncerType) (hd : s.buttonDebouncers[i]? = some d) :
    ∀ r, handleButton env cfg s i level millis = some r →
      (r.ret = 0 ∨ r.ret = 1) ∧
      (r.ret = 1 ↔ (d.bounceState = level ∧ d.bounceCount + 1 = cfg.DEFAULT_DEBOUNCING_TIME ∧
        level ≠ d.stableState ∧ level ≠ 1)) ∧
      (r.calls = [.handlePress i] ↔
        (d.bounceState = level ∧ d.bounceCount + 1 = cfg.DEFAULT_DEBOUNCING_TIME ∧
          level ≠ d.stableState ∧ level = 1)) ∧
      (r.calls = [.handlePress i] → r.ret = 0) := by
  intro r hr
  have quiet : ∀ st : State, r = ⟨st, [], [], 0⟩ →
      ¬ (d.bounceState = level ∧ d.bounceCount + 1 = cfg.DEFAULT_DEBOUNCING_TIME ∧
        level ≠ d.stableState) →
      (r.ret = 0 ∨ r.ret = 1) ∧
      (r.ret = 1 ↔ (d.bounceState = level ∧ d.bounceCount + 1 = cfg.DEFAULT_DEBOUNCING_TIME ∧
        level ≠ d.stableState ∧ level ≠ 1)) ∧
      (r.calls = [.handlePress i] ↔
        (d.bounceState = level ∧ d.bounceCount + 1 = cfg.DEFAULT_DEBOUNCING_TIME ∧
          level ≠ d.stableState ∧ level = 1)) ∧
      (r.calls = [.handlePress i] → r.ret = 0) := by
    intro st hst hno
    subst hst
    refine ⟨Or.inl rfl, ⟨fun h => ?_, fun h => absurd ⟨h.1, h.2.1, h.2.2.1⟩ hno⟩,
      ⟨fun h => ?_, fun h => absurd ⟨h.1, h.2.1, h.2.2.1⟩ hno⟩, fun _ => rfl⟩
    · exact absurd h (show ¬ ((0 : Nat) = 1) by decide)
    · cases h
  have released : ∀ (st : State) (eff : List Effect) (calls : List HandlerCall),
      r = ⟨st, eff, calls, 1⟩ → calls ≠ [.handlePress i] →
      d.bounceState = level → d.bounceCount + 1 = cfg.DEFAULT_DEBOUNCING_TIME →
      level ≠ d.stableState → level ≠ 1 →
      (r.ret = 0 ∨ r.ret = 1) ∧
      (r.ret = 1 ↔ (d.bounceState = level ∧ d.bounceCount + 1 = cfg.DEFAULT_DEBOUNCING_TIME ∧
        level ≠ d.stableState ∧ level ≠ 1)) ∧
      (r.calls = [.handlePress i] ↔
        (d.bounceState = level ∧ d.bounceCount + 1 = cfg.DEFAULT_DEBOUNCING_TIME ∧
          level ≠ d.stableState ∧ level = 1)) ∧
      (r.calls = [.handlePress i] → r.ret = 0) := by
    intro st eff calls hst hcalls h1 h3 h4 h5
    subst hst
    exact ⟨Or.inr rfl, ⟨fun _ => ⟨h1, h3, h4, h5⟩, fun _ => rfl⟩,
      ⟨fun h => absurd h hcalls, fun h => absurd h.2.2.2 h5⟩, fun h => absurd h hcalls⟩
  by_cases h1 : d.bounceState = level
  · by_cases h2 : d.bounceCount + 1 < cfg.DEFAULT_DEBOUNCING_TIME
    · rw [handleButton_count env cfg s i level millis d hd h1 h2] at hr
      exact quiet _ (Option.some.inj hr).symm (fun h => by omega)
    · by_cases h3 : d.bounceCount + 1 = cfg.DEFAULT_DEBOUNCING_TIME
      · by_cases h4 : level = d.stableState
        · rw [handleButton_same env cfg s i level millis d hd h1 h3 h4] at hr
          exact quiet _ (Option.some.inj hr).symm (fun h => h.2.2 h4)
        · by_cases h5 : level = 1
          · subst h5
            unfold handleButton at hr
            rw [hd] at hr
            simp only [] at hr
            rw [if_pos h1, if_pos (by omega), if_pos h3, if_pos h4, if_pos trivial] at hr
            split at hr
            · cases hr
            · split at hr
              · cases hr
              · cases hr
                exact ⟨Or.inl rfl,
                  ⟨fun h => absurd h (show ¬ ((0 : Nat) = 1) by decide),
                    fun h => absurd rfl h.2.2.2⟩,
                  ⟨fun _ => ⟨h1, h3, h4, rfl⟩, fun _ => rfl⟩, fun _ => rfl⟩
          · rw [handleButton_release_commit env cfg s i level millis d hd h1 h5 h4 h3] at hr
            split at hr
            · cases hr
            · split at hr
              · split at hr
                · cases hr
                · exact released _ _ _ (Option.some.inj hr).symm (by simp) h1 h3 h4 h5
              · exact released _ _ _ (Option.some.inj hr).symm (by simp) h1 h3 h4 h5
      · rw [handleButton_stable env cfg s i level millis d hd h1 (by omega)] at hr
        exact quiet _ (Option.some.inj hr).symm (fun h => h3 h.2.1)
  · rw [handleButton_restart env cfg s i level millis d hd h1] at hr
    exact quiet _ (Option.some.inj hr).symm (fun h => h1 h.1)

set_option maxRecDepth 100000 in
/-- Witness of C24: button 1 of the default bindings (KP), one sample short of
committing a press; the committing call calls `handlePress`, which presses the keys,
and returns 0. -/
theorem C24_return_value_witness :
    (setDebouncer demoState 0 ⟨4, 1, 0, 0, 0⟩).buttonDebouncers[0]?
      = some ⟨4, 1, 0, 0, 0⟩ ∧
    (handleButton demoEnv demoConfig (setDebouncer demoState 0 ⟨4, 1, 0, 0, 0⟩) 0 1 7).map
      (fun r => (r.calls, r.effects.length, r.ret, stableLevel r.state 0))
      = some ([.handlePress 0], 1, 0, some 1) ∧
    ∀ r, handleButton demoEnv demoConfig (setDebouncer demoState 0 ⟨4, 1, 0, 0, 0⟩) 0 1 7
        = some r →
      (r.ret = 0 ∨ r.ret = 1) ∧
      (r.ret = 1 ↔ ((⟨4, 1, 0, 0, 0⟩ : buttonDebouncerType).bounceState = 1 ∧
        (⟨4, 1, 0, 0, 0⟩ : buttonDebouncerType).bounceCount + 1
          = demoConfig.DEFAULT_DEBOUNCING_TIME ∧
        1 ≠ (⟨4, 1, 0, 0, 0⟩ : buttonDebouncerType).stableState ∧ 1 ≠ 1)) ∧
      (r.calls = [.handlePress 0] ↔
        ((⟨4, 1, 0, 0, 0⟩ : buttonDebouncerType).bounceState = 1 ∧
          (⟨4, 1, 0, 0, 0⟩ : buttonDebouncerType).bounceCount + 1
            = demoConfig.DEFAULT_DEBOUNCING_TIME ∧
          1 ≠ (⟨4, 1, 0, 0, 0⟩ : buttonDebouncerType).stableState ∧ 1 = 1)) ∧
      (r.calls = [.handlePress 0] → r.ret = 0) :=
  ⟨rfl, rfl,
    C24_return_value demoEnv demoConfig (setDebouncer demoState 0 ⟨4, 1, 0, 0, 0⟩) 0 1 7
      ⟨4, 1, 0, 0, 0⟩ rfl⟩

/-! ## Press and release of hold-mode actions -/

/-- What `handlePress` does outside programming mode for a button bound to the
command `c`. -/
theorem handlePress_code (env : Collaborators) (cfg : Config) (s : State) (i : Nat)
    (b : slotButtonSettings) (ks : Nat) (c : atCommands) (hact : s.actButton = 0)
    (hb : s.buttons[i]? = some b) (hks : s.buttonKeystrings[i]? = some ks)
    (hc : b.mode = c.code) :
    handlePress env cfg s i
      = dispatch env cfg { s with buttonStates := setStateBit s.buttonStates i } b.value
          (.arena ks) c := by
  unfold handlePress
  rw [hb, hks]
  simp only []
  rw [hc]
  exact performCommand_code env cfg _ c b.value (.arena ks) 1 hact

/-- What `handleRelease` does for a button bound to the command `c`. -/
theorem handleRelease_code (s : State) (i : Nat) (b : slotButtonSettings) (ks : Nat)
    (c : atCommands) (hb : s.buttons[i]? = some b) (hks : s.buttonKeystrings[i]? = some ks) :
    b.mode = c.code → handleRelease s i = some (
      { s with buttonStates := clearStateBit s.buttonStates i },
      match c with
      | .CMD_PL => [.mouseRelease .MOUSE_LEFT]
      | .CMD_HL => [.mouseRelease .MOUSE_LEFT]
      | .CMD_PR => [.mouseRelease .MOUSE_RIGHT]
      | .CMD_HR => [.mouseRelease .MOUSE_RIGHT]
      | .CMD_PM => [.mouseRelease .MOUSE_MIDDLE]
      | .CMD_HM => [.mouseRelease .MOUSE_MIDDLE]
      | .CMD_JP => [.joystickButton b.value 0]
      | .CMD_KH => [.releaseKeys (.arena ks)]
      | .CMD_IH => [.stop_IR_command]
      | _ => []) := by
  intro hc
  have hcode : atCommands.ofCode b.mode = some c := by rw [hc, ofCode_code]
  unfold handleRelease
  simp only [hb, hcode]
  cases c <;> simp [hks]

/-- C25 (release undoes the matching press): outside programming mode, for a button
bound to PL or HL the press calls `mousePress(MOUSE_LEFT)` and the release
`mouseRelease(MOUSE_LEFT)`, likewise PR/HR with `MOUSE_RIGHT` and PM/HM with
`MOUSE_MIDDLE`; JP presses `joystickButton(value, 1)` and releases
`joystickButton(value, 0)`; KH holds and releases the keys of the same keystring
pointer `buttonKeystrings[i]`; the release of IH calls `stop_IR_command`, after a
press that called `hold_IR_command` on the button's keystring or, for a name of
unsuitable length, nothing. -/
theorem C25_release_matches_press (env : Collaborators) (cfg : Config) (s : State) (i : Nat)
    (b : slotButtonSettings) (ks : Nat) (hact : s.actButton = 0)
    (hb : s.buttons[i]? = some b) (hks : s.buttonKeystrings[i]? = some ks) :
    (∀ (c : atCommands) (m : MouseButton), b.mode = c.code →
      (c, m) ∈ [(atCommands.CMD_PL, MouseButton.MOUSE_LEFT), (.CMD_HL, .MOUSE_LEFT),
                (.CMD_PR, .MOUSE_RIGHT), (.CMD_HR, .MOUSE_RIGHT),
                (.CMD_PM, .MOUSE_MIDDLE), (.CMD_HM, .MOUSE_MIDDLE)] →
      ∃ s1 s2, handlePress env cfg s i = some (s1, [.mousePress m]) ∧
        handleRelease s1 i = some (s2, [.mouseRelease m])) ∧
    (b.mode = atCommands.CMD_JP.code →
      ∃ s1 s2, handlePress env cfg s i = some (s1, [.joystickButton b.value 1]) ∧
        handleRelease s1 i = some (s2, [.joystickButton b.value 0])) ∧
    (b.mode = atCommands.CMD_KH.code →
      ∃ s1 s2, handlePress env cfg s i = some (s1, [.holdKeys (.arena ks)]) ∧
        handleRelease s1 i = some (s2, [.releaseKeys (.arena ks)])) ∧
    (b.mode = atCommands.CMD_IH.code →
      ∀ s1 eff, handlePress env cfg s i = some (s1, eff) →
        (eff = [.hold_IR_command (.arena ks)] ∨ eff = []) ∧
        ∃ s2, handleRelease s1 i = some (s2, [.stop_IR_command])) := by
  have hrel := handleRelease_code { s with buttonStates := setStateBit s.buttonStates i }
    i b ks
  refine ⟨?_, ?_, ?_, ?_⟩
  · intro c m hc hmem
    simp only [List.mem_cons, List.mem_singleton, Prod.mk.injEq, List.not_mem_nil,
      or_false] at hmem
    rw [handlePress_code env cfg s i b ks c hact hb hks hc]
    rcases hmem with ⟨h1, h2⟩ | ⟨h1, h2⟩ | ⟨h1, h2⟩ | ⟨h1, h2⟩ | ⟨h1, h2⟩ | ⟨h1, h2⟩ <;>
      subst h1 <;> subst h2 <;> exact ⟨_, _, rfl, hrel _ hb hks hc⟩
  · intro hc
    rw [handlePress_code env cfg s i b ks _ hact hb hks hc]
    exact ⟨_, _, rfl, hrel _ hb hks hc⟩
  · intro hc
    rw [handlePress_code env cfg s i b ks _ hact hb hks hc]
    exact ⟨_, _, by simp [dispatch], hrel _ hb hks hc⟩
  · intro hc s1 eff hp
    rw [handlePress_code env cfg s i b ks _ hact hb hks hc] at hp
    simp only [dispatch, ne_eq, reduceCtorEq, not_false_eq_true, if_true] at hp
    split at hp
    · cases hp
    · cases hp
      refine ⟨?_, _, hrel _ hb hks hc⟩
      split
      · exact Or.inl rfl
      · exact Or.inr rfl

set_option maxRecDepth 100000 in
/-- Witness of C25: button 1 bound to KH with the keystring at offset 0. -/
theorem C25_release_matches_press_witness :
    (releaseReady .CMD_KH).actButton = 0 ∧
    (releaseReady .CMD_KH).buttons[0]? = some ⟨atCommands.CMD_KH.code, 1⟩ ∧
    (releaseReady .CMD_KH).buttonKeystrings[0]? = some 0 ∧
    (∀ (c : atCommands) (m : MouseButton),
      (⟨atCommands.CMD_KH.code, 1⟩ : slotButtonSettings).mode = c.code →
      (c, m) ∈ [(atCommands.CMD_PL, MouseButton.MOUSE_LEFT), (.CMD_HL, .MOUSE_LEFT),
                (.CMD_PR, .MOUSE_RIGHT), (.CMD_HR, .MOUSE_RIGHT),
                (.CMD_PM, .MOUSE_MIDDLE), (.CMD_HM, .MOUSE_MIDDLE)] →
      ∃ s1 s2, handlePress demoEnv demoConfig (releaseReady .CMD_KH) 0
          = some (s1, [.mousePress m]) ∧
        handleRelease s1 0 = some (s2, [.mouseRelease m])) ∧
    ((⟨atCommands.CMD_KH.code, 1⟩ : slotButtonSettings).mode = atCommands.CMD_JP.code →
      ∃ s1 s2, handlePress demoEnv demoConfig (releaseReady .CMD_KH) 0
          = some (s1,
              [.joystickButton (⟨atCommands.CMD_KH.code, 1⟩ : slotButtonSettings).value 1]) ∧
        handleRelease s1 0
          = some (s2,
              [.joystickButton (⟨atCommands.CMD_KH.code, 1⟩ : slotButtonSettings).value 0])) ∧
    ((⟨atCommands.CMD_KH.code, 1⟩ : slotButtonSettings).mode = atCommands.CMD_KH.code →
      ∃ s1 s2, handlePress demoEnv demoConfig (releaseReady .CMD_KH) 0
          = some (s1, [.holdKeys (.arena 0)]) ∧
        handleRelease s1 0 = some (s2, [.releaseKeys (.arena 0)])) ∧
    ((⟨atCommands.CMD_KH.code, 1⟩ : slotButtonSettings).mode = atCommands.CMD_IH.code →
      ∀ s1 eff, handlePress demoEnv demoConfig (releaseReady .CMD_KH) 0 = some (s1, eff) →
        (eff = [.hold_IR_command (.arena 0)] ∨ eff = []) ∧
        ∃ s2, handleRelease s1 0 = some (s2, [.stop_IR_command])) :=
  ⟨rfl, rfl, rfl,
    C25_release_matches_press demoEnv demoConfig (releaseReady .CMD_KH) 0
      ⟨atCommands.CMD_KH.code, 1⟩ 0 rfl rfl rfl⟩

/-! ## Termination of the macro loop -/

theorem macroCopy_consumes (cfg : Config) (c : Nat) (p : List Nat) :
    ((macroCopy cfg (c :: p) [] false).2.drop 1).length < (c :: p).length := by
  have hl := macroCopy_length cfg (c :: p) [] false
  rw [List.length_drop]
  simp only [List.length_cons] at hl ⊢
  omega

theorem macroRun_eq (cfg : Config) :
    ∀ (fuel : Nat) (text : List Nat), text.length ≤ fuel →
      macroRun cfg fuel text = some (macroLoop cfg fuel text) := by
  intro fuel
  induction fuel with
  | zero =>
    intro text h
    have : text = [] := List.length_eq_zero.1 (by omega)
    subst this
    rfl
  | succ fuel ih =>
    intro text h
    cases text with
    | nil => rfl
    | cons c p =>
      have hc := macroCopy_consumes cfg c p
      simp only [macroRun, macroLoop]
      rw [ih _ (by omega)]
      rfl

theorem macroLoop_length (cfg : Config) :
    ∀ (fuel : Nat) (text : List Nat), (macroLoop cfg fuel text).length ≤ text.length := by
  intro fuel
  induction fuel with
  | zero => intro text; simp [macroLoop]
  | succ fuel ih =>
    intro text
    cases text with
    | nil => simp [macroLoop]
    | cons c p =>
      have hc := macroCopy_consumes cfg c p
      have := ih ((macroCopy cfg (c :: p) [] false).2.drop 1)
      simp only [macroLoop, List.length_cons] at hc ⊢
      omega

/-- C28 (the macro splitting loop terminates): every iteration of the outer loop of
`CMD_MA` moves on by at least one character, so with as many iterations as the text
has characters the loop reaches the end of the text; `parseCommand` is called at most
`strlen(text)` times, and not at all for the empty text.  This holds for every value
of `MAX_KEYSTRING_LEN`. -/
theorem C28_macro_terminates (env : Collaborators) (cfg : Config) (s : State) (par1 pm : Int)
    (text : List Nat) (hact : s.actButton = 0) (hnf : NullFree text) :
    (∀ c p, ((macroCopy cfg (c :: p) [] false).2.drop 1).length < (c :: p).length) ∧
    (∀ fuel, text.length ≤ fuel →
      macroRun cfg fuel text = some (macroLoop cfg text.length text)) ∧
    (∃ calls : List (List Nat),
      performCommand env cfg s atCommands.CMD_MA.code par1 (.other text) pm
        = some (s, calls.map Effect.parseCommand) ∧
      calls.length ≤ text.length) ∧
    performCommand env cfg s atCommands.CMD_MA.code par1 (.other []) pm = some (s, []) := by
  refine ⟨macroCopy_consumes cfg, ?_, ?_, ?_⟩
  · intro fuel hf
    rw [macroRun_eq cfg fuel text hf, macroLoop_fuel cfg fuel text.length text hf (Nat.le_refl _)]
  · exact ⟨_, performCommand_MA env cfg s par1 pm text hact hnf, macroLoop_length cfg _ text⟩
  · rw [performCommand_MA env cfg s par1 pm [] hact (by intro c hc; cases hc)]
    rfl

set_option maxRecDepth 100000 in
/-- Witness of C28: the text `MX 1\;MY 2;CL;` of 14 characters, which makes two
calls. -/
theorem C28_macro_terminates_witness :
    demoState.actButton = 0 ∧ NullFree macroExample ∧
    macroRun demoConfig 14 macroExample = some [bytesOf "MX 1;MY 2", bytesOf "CL"] ∧
    (∀ c p, ((macroCopy demoConfig (c :: p) [] false).2.drop 1).length < (c :: p).length) ∧
    (∀ fuel, macroExample.length ≤ fuel →
      macroRun demoConfig fuel macroExample
        = some (macroLoop demoConfig macroExample.length macroExample)) ∧
    (∃ calls : List (List Nat),
      performCommand demoEnv demoConfig demoState atCommands.CMD_MA.code 0
          (.other macroExample) 0
        = some (demoState, calls.map Effect.parseCommand) ∧
      calls.length ≤ macroExample.length) ∧
    performCommand demoEnv demoConfig demoState atCommands.CMD_MA.code 0 (.other []) 0
      = some (demoState, []) :=
  ⟨rfl, by decide, by decide,
    C28_macro_terminates demoEnv demoConfig demoState 0 0 macroExample rfl (by decide)⟩

/-! ## A press while a binding target is pending -/

/-- A call of `setButtonKeystring` writes only the arena, the pointer table and
`slotSettings`. -/
theorem setButtonKeystring_frame {cfg : Config} {s s1 : State} {i r : Nat} {p : CharPtr}
    (hset : setButtonKeystring cfg s i p = some (s1, r)) :
    s1 = { s with keystringBuffer := s1.keystringBuffer,
                  buttonKeystrings := s1.buttonKeystrings,
                  slotSettings := s1.slotSettings } := by
  unfold setButtonKeystring at hset
  split at hset
  · cases hset
  · split at hset
    · cases hset; rfl
    · simp only [] at hset
      split at hset
      · cases hset
      · split at hset
        · cases hset
        · split at hset
          · cases hset
          · cases hset; rfl

/-- The outcome of `setButtonKeystring` depends only on the arena, the pointer table
and `slotSettings`. -/
theorem setButtonKeystring_congr (cfg : Config) (s t : State) (i : Nat) (p : CharPtr)
    (hbuf : t.keystringBuffer = s.keystringBuffer)
    (htbl : t.buttonKeystrings = s.buttonKeystrings)
    (hslot : t.slotSettings = s.slotSettings) :
    setButtonKeystring cfg t i p =
      (setButtonKeystring cfg s i p).map (fun x =>
        ({ t with keystringBuffer := x.1.keystringBuffer,
                  buttonKeystrings := x.1.buttonKeystrings,
                  slotSettings := x.1.slotSettings }, x.2)) := by
  obtain ⟨b1, k1, buf1, d1, bs1, sl1, a1, rr1, c1⟩ := s
  obtain ⟨b2, k2, buf2, d2, bs2, sl2, a2, rr2, c2⟩ := t
  simp only [] at hbuf htbl hslot
  subst hbuf; subst htbl; subst hslot
  have hm : keystringMove ⟨b2, k2, buf2, d2, bs2, sl2, a2, rr2, c2⟩ i p
      = keystringMove ⟨b1, k2, buf2, d1, bs1, sl2, a1, rr1, c1⟩ i p := rfl
  unfold setButtonKeystring
  rw [hm]
  cases keystringMove ⟨b1, k2, buf2, d1, bs1, sl2, a1, rr1, c1⟩ i p with
  | none => rfl
  | some m =>
    simp only []
    have hfit : doesNotFit cfg ⟨b2, k2, buf2, d2, bs2, sl2, a2, rr2, c2⟩ m
        ↔ doesNotFit cfg ⟨b1, k2, buf2, d1, bs1, sl2, a1, rr1, c1⟩ m := Iff.rfl
    by_cases hf : doesNotFit cfg ⟨b1, k2, buf2, d1, bs1, sl2, a1, rr1, c1⟩ m
    · rw [if_pos hf, if_pos (hfit.2 hf)]
      rfl
    · rw [if_neg hf, if_neg (fun h => hf (hfit.1 h))]
      split
      · rfl
      · split
        · rfl
        · split
          · rfl
          · rfl

/-- The call of `handleButton` that commits a press while a binding target is
pending: it returns exactly when `setButtonKeystring(actButton - 1,
buttonKeystrings[b])` does, and then stores the binding of the pressed button. -/
theorem handleButton_press_pending (env : Collaborators) (cfg : Config) (s : State)
    (b millis : Nat) (d : buttonDebouncerType) (bb : slotButtonSettings) (ks : Nat)
    (hd : s.buttonDebouncers[b]? = some d) (hbtn : s.buttons[b]? = some bb)
    (hks : s.buttonKeystrings[b]? = some ks)
    (hbs : d.bounceState = 1) (hst : d.stableState ≠ 1)
    (hcnt : d.bounceCount + 1 = cfg.DEFAULT_DEBOUNCING_TIME)
    (hact : s.actButton ≠ 0) (ht : s.actButton - 1 < s.buttons.length) :
    handleButton env cfg s b 1 millis =
      (setButtonKeystring cfg s (s.actButton - 1) (.arena ks)).map (fun x =>
        { state := { s with
            buttons := s.buttons.set (s.actButton - 1) ⟨bb.mode, bb.value⟩
            keystringBuffer := x.1.keystringBuffer
            buttonKeystrings := x.1.buttonKeystrings
            slotSettings := x.1.slotSettings
            buttonDebouncers := s.buttonDebouncers.set b
              { d with bounceCount := d.bounceCount + 1, stableState := 1,
                       timestamp := millis }
            buttonStates := setStateBit (setStateBit s.buttonStates b) b
            actButton := 0 }
          effects := []
          calls := [.handlePress b]
          ret := 0 }) := by
  have hlt : b < s.buttonDebouncers.length := getElem?_lt hd
  unfold handleButton
  rw [hd]
  simp only []
  rw [if_pos hbs, if_pos (by omega), if_pos hcnt, if_pos (fun h => hst h.symm), if_pos trivial]
  unfold handlePress
  simp only [hbtn, hks]
  have hpc := performCommand_pending env cfg
    { s with
      buttonDebouncers := s.buttonDebouncers.set b
        { d with bounceCount := d.bounceCount + 1, stableState := 1 }
      buttonStates := setStateBit (setStateBit s.buttonStates b) b }
    bb.mode bb.value (.arena ks) 1 hact ht
  have hcg := setButtonKeystring_congr cfg s
    { s with
      buttons := s.buttons.set (s.actButton - 1) ⟨bb.mode, bb.value⟩
      buttonDebouncers := s.buttonDebouncers.set b
        { d with bounceCount := d.bounceCount + 1, stableState := 1 }
      buttonStates := setStateBit (setStateBit s.buttonStates b) b }
    (s.actButton - 1) (.arena ks) rfl rfl rfl
  rw [hpc, hcg]
  cases setButtonKeystring cfg s (s.actButton - 1) (.arena ks) with
  | none => rfl
  | some x =>
    simp only [Option.map_some']
    rw [List.getElem?_set_self hlt]
    simp only [List.set_set]

/-- C27 (a button press is consumed by programming mode): when a binding target `t`
is pending and `handleButton` commits a press of button `b`, the call (which returns
when `setButtonKeystring(t - 1, buttonKeystrings[b])` does) emits no effect; button
`t` gets the mode and the value of button `b`, the other bindings keep theirs, and
the pending target is cleared.  The call still records the press: it calls
`handlePress`, makes 1 the stable level and returns 0. -/
theorem C27_press_consumed (env : Collaborators) (cfg : Config) (s : State)
    (b millis : Nat) (d : buttonDebouncerType) (bb : slotButtonSettings) (ks : Nat)
    (hd : s.buttonDebouncers[b]? = some d) (hbtn : s.buttons[b]? = some bb)
    (hks : s.buttonKeystrings[b]? = some ks)
    (hbs : d.bounceState = 1) (hst : d.stableState ≠ 1)
    (hcnt : d.bounceCount + 1 = cfg.DEFAULT_DEBOUNCING_TIME)
    (hact : s.actButton ≠ 0) (ht : s.actButton - 1 < s.buttons.length)
    (s1 : State) (ret : Nat)
    (hset : setButtonKeystring cfg s (s.actButton - 1) (.arena ks) = some (s1, ret)) :
    ∃ r, handleButton env cfg s b 1 millis = some r ∧
      r.effects = [] ∧ r.calls = [.handlePress b] ∧ r.ret = 0 ∧
      r.state.actButton = 0 ∧
      r.state.buttons[s.actButton - 1]? = some ⟨bb.mode, bb.value⟩ ∧
      (∀ j, j ≠ s.actButton - 1 → r.state.buttons[j]? = s.buttons[j]?) ∧
      stableLevel r.state b = some 1 := by
  have hlt : b < s.buttonDebouncers.length := getElem?_lt hd
  rw [handleButton_press_pending env cfg s b millis d bb ks hd hbtn hks hbs hst hcnt hact ht,
    hset]
  refine ⟨_, rfl, rfl, rfl, rfl, rfl, ?_, ?_, ?_⟩
  · exact List.getElem?_set_self ht
  · intro j hj
    exact List.getElem?_set_ne (fun h => hj h.symm)
  · show (List.set _ _ _)[b]?.map _ = _
    rw [List.getElem?_set_self hlt]
    rfl

set_option maxRecDepth 100000 in
/-- Witness of C27: target button 3 is pending on the default bindings when the press
of button 1 (KP with "KEY_SPACE ") is committed. -/
theorem C27_press_consumed_witness :
    (setDebouncer pendingState 0 ⟨4, 1, 0, 0, 0⟩).actButton = 3 ∧
    (setButtonKeystring demoConfig (setDebouncer pendingState 0 ⟨4, 1, 0, 0, 0⟩) 2
      (.arena 0)).map (fun x => (readKeystring x.1.keystringBuffer 2, x.2))
      = some (some (bytesOf "KEY_SPACE "), 429) ∧
    ∃ r, handleButton demoEnv demoConfig (setDebouncer pendingState 0 ⟨4, 1, 0, 0, 0⟩) 0 1 7
        = some r ∧
      r.effects = [] ∧ r.calls = [.handlePress 0] ∧ r.ret = 0 ∧
      r.state.actButton = 0 ∧
      r.state.buttons[(setDebouncer pendingState 0 ⟨4, 1, 0, 0, 0⟩).actButton - 1]?
        = some ⟨(⟨atCommands.CMD_KP.code, 0⟩ : slotButtonSettings).mode,
                (⟨atCommands.CMD_KP.code, 0⟩ : slotButtonSettings).value⟩ ∧
      (∀ j, j ≠ (setDebouncer pendingState 0 ⟨4, 1, 0, 0, 0⟩).actButton - 1 →
        r.state.buttons[j]? = (setDebouncer pendingState 0 ⟨4, 1, 0, 0, 0⟩).buttons[j]?) ∧
      stableLevel r.state 0 = some 1 :=
  ⟨rfl, rfl,
    C27_press_consumed demoEnv demoConfig (setDebouncer pendingState 0 ⟨4, 1, 0, 0, 0⟩) 0 7
      ⟨4, 1, 0, 0, 0⟩ ⟨atCommands.CMD_KP.code, 0⟩ 0 rfl rfl rfl rfl (by decide) rfl
      (by decide) (by decide) _ _ rfl⟩

/-! ## Handlers and the debouncer table -/

theorem initButtonKeystrings_frame {cfg : Config} {s s1 : State}
    (h : initButtonKeystrings cfg s = some s1) :
    s1.buttonDebouncers = s.buttonDebouncers ∧ s1.buttons = s.buttons := by
  unfold initButtonKeystrings at h
  split at h
  · cases h
  · cases h; exact ⟨rfl, rfl⟩

theorem setButtonKeystring_debouncers {cfg : Config} {s s1 : State} {i r : Nat} {p : CharPtr}
    (hset : setButtonKeystring cfg s i p = some (s1, r)) :
    s1.buttonDebouncers = s.buttonDebouncers := by
  rw [setButtonKeystring_frame hset]

theorem initButtons_debouncers {cfg : Config} {s s1 : State}
    (h : initButtons cfg s = some s1) : s1.buttonDebouncers = s.buttonDebouncers := by
  unfold initButtons at h
  split at h
  · cases h
  · rename_i s0 h0
    simp only [] at h
    split at h
    · cases h
    · split at h
      · cases h
      · rename_i s2 _ h2
        split at h
        · cases h
        · split at h
          · cases h
          · rename_i s3 _ h3
            split at h
            · cases h
            · split at h
              · cases h
              · split at h
                · cases h
                · rename_i s4 _ h4
                  split at h
                  · cases h
                  · split at h
                    · cases h
                    · rename_i s5 _ h5
                      cases h
                      rw [setButtonKeystring_debouncers h5, setButtonKeystring_debouncers h4,
                        setButtonKeystring_debouncers h3, setButtonKeystring_debouncers h2]
                      exact (initButtonKeystrings_frame h0).1

/-- No command of the `switch` writes the debouncer table, as long as the
persistence layer does not. -/
theorem dispatch_debouncers (env : Collaborators) (cfg : Config) (s s1 : State) (par1 : Int)
    (ks : CharPtr) (c : atCommands) (eff : List Effect)
    (henv : ∀ k st, (env.readFromEEPROM k st).2.buttonDebouncers = st.buttonDebouncers)
    (h : dispatch env cfg s par1 ks c = some (s1, eff)) :
    s1.buttonDebouncers = s.buttonDebouncers := by
  cases c
  case CMD_RS =>
    simp only [dispatch] at h
    split at h
    · cases h
    · rename_i s2 h2
      cases h
      rw [henv]
      have h3 := initButtons_debouncers h2
      exact h3
  all_goals
    simp only [dispatch] at h
    repeat' split at h
    all_goals first
      | (cases h; rfl)
      | (cases h; exact henv _ _)
      | cases h

theorem performCommand_debouncers (env : Collaborators) (cfg : Config) (s s1 : State)
    (cmd : Nat) (par1 : Int) (ks : CharPtr) (pm : Int) (eff : List Effect)
    (henv : ∀ k st, (env.readFromEEPROM k st).2.buttonDebouncers = st.buttonDebouncers)
    (h : performCommand env cfg s cmd par1 ks pm = some (s1, eff)) :
    s1.buttonDebouncers = s.buttonDebouncers := by
  unfold performCommand at h
  split at h
  · split at h
    · cases h
    · split at h
      · cases h
      · split at h
        · cases h
        · rename_i s2 _ h2
          cases h
          have h3 := setButtonKeystring_debouncers h2
          exact h3
  · split at h
    · cases h; rfl
    · exact dispatch_debouncers env cfg s s1 par1 ks _ eff henv h

theorem handlePress_debouncers (env : Collaborators) (cfg : Config) (s s1 : State) (i : Nat)
    (eff : List Effect)
    (henv : ∀ k st, (env.readFromEEPROM k st).2.buttonDebouncers = st.buttonDebouncers)
    (h : handlePress env cfg s i = some (s1, eff)) :
    s1.buttonDebouncers = s.buttonDebouncers := by
  unfold handlePress at h
  split at h
  · cases h
  · split at h
    · cases h
    · have h3 := performCommand_debouncers env cfg _ s1 _ _ _ _ eff henv h
      exact h3

theorem handleRelease_debouncers (s s1 : State) (i : Nat) (eff : List Effect)
    (h : handleRelease s i = some (s1, eff)) :
    s1.buttonDebouncers = s.buttonDebouncers := by
  unfold handleRelease at h
  split at h
  · cases h
  · simp only [] at h
    repeat' split at h
    all_goals first
      | (cases h; rfl)
      | cases h

/-! ## Alternation of press and release -/

theorem committed_quiet (i : Nat) (st : State) : committed i ⟨st, [], [], 0⟩ = none := by
  simp [committed]

theorem runButton_cons_inv (env : Collaborators) (cfg : Config) (i : Nat) (st : State)
    (x t : Nat) (rest : List (Nat × Nat)) (rs : List ButtonResult)
    (h : runButton env cfg i st ((x, t) :: rest) = some rs) :
    ∃ r rs1, handleButton env cfg st i x t = some r ∧
      runButton env cfg i r.state rest = some rs1 ∧ rs = r :: rs1 := by
  simp only [runButton] at h
  split at h
  · cases h
  · rename_i r hr
    split at h
    · cases h
    · rename_i rs1 hrs
      cases h
      exact ⟨r, rs1, hr, hrs, rfl⟩

/-- One call of `handleButton` with a binary sample on a debouncer with a binary
stable level: the counter stays within the threshold, the last-seen level becomes
the sample, and either nothing is committed and the stable level stays, or the sample
level is committed, it differs from the old stable level, becomes the new one, and
the counter is at the threshold. -/
theorem handleButton_step (env : Collaborators) (cfg : Config) (st : State) (i x t : Nat)
    (d : buttonDebouncerType) (r : ButtonResult)
    (henv : ∀ k s, (env.readFromEEPROM k s).2.buttonDebouncers = s.buttonDebouncers)
    (hd : st.buttonDebouncers[i]? = some d)
    (hcnt : d.bounceCount ≤ cfg.DEFAULT_DEBOUNCING_TIME) (hx : x ≤ 1)
    (hr : handleButton env cfg st i x t = some r) :
    ∃ d1, r.state.buttonDebouncers[i]? = some d1 ∧
      d1.bounceCount ≤ cfg.DEFAULT_DEBOUNCING_TIME ∧ d1.bounceState = x ∧
      ((committed i r = none ∧ d1.stableState = d.stableState) ∨
       (committed i r = some x ∧ x ≠ d.stableState ∧ d1.stableState = x ∧
         cfg.DEFAULT_DEBOUNCING_TIME ≤ d1.bounceCount)) := by
  have hlt : i < st.buttonDebouncers.length := getElem?_lt hd
  by_cases h1 : d.bounceState = x
  · by_cases h2 : d.bounceCount + 1 < cfg.DEFAULT_DEBOUNCING_TIME
    · rw [handleButton_count env cfg st i x t d hd h1 h2] at hr
      cases hr
      exact ⟨_, setDebouncer_get st i _ hlt, by simp only []; omega, h1,
        Or.inl ⟨committed_quiet i _, rfl⟩⟩
    · by_cases h3 : d.bounceCount + 1 = cfg.DEFAULT_DEBOUNCING_TIME
      · by_cases h4 : x = d.stableState
        · rw [handleButton_same env cfg st i x t d hd h1 h3 h4] at hr
          cases hr
          exact ⟨_, setDebouncer_get st i _ hlt, by simp only []; omega, h1,
            Or.inl ⟨committed_quiet i _, rfl⟩⟩
        · by_cases h5 : x = 1
          · subst h5
            unfold handleButton at hr
            rw [hd] at hr
            simp only [] at hr
            rw [if_pos h1, if_pos (by omega), if_pos h3, if_pos h4, if_pos trivial] at hr
            split at hr
            · cases hr
            · rename_i s3 eff hp
              have hdeb := handlePress_debouncers env cfg _ s3 i eff henv hp
              have hd3 : s3.buttonDebouncers[i]? = some
                  { d with bounceCount := d.bounceCount + 1, stableState := 1 } := by
                rw [hdeb]
                exact List.getElem?_set_self hlt
              rw [hd3] at hr
              simp only [] at hr
              cases hr
              have hlt3 : i < s3.buttonDebouncers.length := getElem?_lt hd3
              refine ⟨_, List.getElem?_set_self hlt3, by simp only []; omega, h1, Or.inr ?_⟩
              exact ⟨by simp [committed], h4, rfl, by simp only []; omega⟩
          · have hx0 : x = 0 := by omega
            rw [handleButton_release_commit env cfg st i x t d hd h1 h5 h4 h3] at hr
            have hfin : ∀ (s4 : State) (eff : List Effect) (calls : List HandlerCall),
                r = ⟨s4, eff, calls, 1⟩ → calls ≠ [.handlePress i] →
                s4.buttonDebouncers = st.buttonDebouncers.set i
                  { d with bounceCount := d.bounceCount + 1, stableState := x } →
                ∃ d1, r.state.buttonDebouncers[i]? = some d1 ∧
                  d1.bounceCount ≤ cfg.DEFAULT_DEBOUNCING_TIME ∧ d1.bounceState = x ∧
                  ((committed i r = none ∧ d1.stableState = d.stableState) ∨
                   (committed i r = some x ∧ x ≠ d.stableState ∧ d1.stableState = x ∧
                     cfg.DEFAULT_DEBOUNCING_TIME ≤ d1.bounceCount)) := by
              intro s4 eff calls hre hcalls hdeb
              subst hre
              refine ⟨{ d with bounceCount := d.bounceCount + 1, stableState := x },
                by rw [hdeb]; exact List.getElem?_set_self hlt,
                by simp only []; omega, h1, Or.inr ⟨?_, h4, rfl, by simp only []; omega⟩⟩
              simp only [committed, if_neg hcalls, if_true, hx0]
            split at hr
            · cases hr
            · split at hr
              · split at hr
                · cases hr
                · rename_i s4 eff hrel
                  exact hfin _ _ _ (Option.some.inj hr).symm (by simp)
                    (handleRelease_debouncers _ s4 i eff hrel)
              · exact hfin _ _ _ (Option.some.inj hr).symm (by simp) rfl
      · rw [handleButton_stable env cfg st i x t d hd h1 (by omega)] at hr
        cases hr
        exact ⟨d, hd, hcnt, h1, Or.inl ⟨committed_quiet i _, rfl⟩⟩
  · rw [handleButton_restart env cfg st i x t d hd h1] at hr
    cases hr
    exact ⟨_, setDebouncer_get st i _ hlt, Nat.zero_le _, rfl,
      Or.inl ⟨committed_quiet i _, rfl⟩⟩

/-- While the level seen at the threshold is held, nothing is committed. -/
theorem runButton_held (env : Collaborators) (cfg : Config) (i x : Nat) (st : State)
    (d : buttonDebouncerType) (hd : st.buttonDebouncers[i]? = some d)
    (hbs : d.bounceState = x) (hge : cfg.DEFAULT_DEBOUNCING_TIME ≤ d.bounceCount) :
    ∀ (rest : List (Nat × Nat)) (rs : List ButtonResult),
      runButton env cfg i st rest = some rs →
      ∀ m r, rs[m]? = some r → (∀ j : Nat, j ≤ m → rest[j]?.map Prod.fst = some x) →
        committed i r = none := by
  intro rest
  induction rest with
  | nil =>
    intro rs hrun m r hm _
    cases hrun
    simp at hm
  | cons p rest ih =>
    intro rs hrun m r hm hheld
    obtain ⟨y, t⟩ := p
    have hy : y = x := by
      have := hheld 0 (Nat.zero_le _)
      simpa using this
    subst hy
    obtain ⟨r0, rs1, hstep, hrun1, hrs⟩ := runButton_cons_inv env cfg i st y t rest rs hrun
    rw [handleButton_stable env cfg st i y t d hd hbs hge] at hstep
    cases hstep
    subst hrs
    cases m with
    | zero =>
      simp only [List.getElem?_cons_zero, Option.some.injEq] at hm
      subst hm
      exact committed_quiet i st
    | succ m =>
      simp only [List.getElem?_cons_succ] at hm
      exact ih rs1 hrun1 m r hm (fun j hj => by
        have := hheld (j + 1) (by omega)
        simpa using this)

theorem alternating_flip (n x lv : Nat) (hx : x ≤ 1) (hlv : lv ≤ 1) (hne : x ≠ lv) :
    x :: alternating n (1 - x) = alternating (n + 1) (1 - lv) := by
  have : x = 1 - lv := by omega
  rw [alternating, ← this]

/-- The invariant behind the alternation of press and release. -/
theorem runButton_alternates (env : Collaborators) (cfg : Config) (i : Nat)
    (henv : ∀ k s, (env.readFromEEPROM k s).2.buttonDebouncers = s.buttonDebouncers) :
    ∀ (samples : List (Nat × Nat)) (st : State) (d : buttonDebouncerType)
      (rs : List ButtonResult),
      st.buttonDebouncers[i]? = some d → d.bounceCount ≤ cfg.DEFAULT_DEBOUNCING_TIME →
      d.stableState ≤ 1 → (∀ p ∈ samples, p.1 ≤ 1) →
      runButton env cfg i st samples = some rs →
      rs.filterMap (committed i)
        = alternating (rs.filterMap (committed i)).length (1 - d.stableState) ∧
      (∀ r ∈ rs, ∀ d1, r.state.buttonDebouncers[i]? = some d1 →
        d1.bounceCount ≤ cfg.DEFAULT_DEBOUNCING_TIME) ∧
      (∀ k m rk rm, k < m → rs[k]? = some rk → rs[m]? = some rm →
        committed i rk ≠ none →
        (∀ j : Nat, k < j → j ≤ m → samples[j]?.map Prod.fst = samples[k]?.map Prod.fst) →
        committed i rm = none) := by
  intro samples
  induction samples with
  | nil =>
    intro st d rs _ _ _ _ hrun
    cases hrun
    refine ⟨rfl, (fun r hr => by cases hr), ?_⟩
    intro k m rk rm _ hk
    simp at hk
  | cons p rest ih =>
    intro st d rs hd hcnt hst hlev hrun
    obtain ⟨x, t⟩ := p
    have hx : x ≤ 1 := hlev (x, t) (List.mem_cons_self _ _)
    obtain ⟨r, rs1, hstep, hrun1, hrs⟩ := runButton_cons_inv env cfg i st x t rest rs hrun
    subst hrs
    obtain ⟨d1, hd1, hc1, hb1, hcase⟩ :=
      handleButton_step env cfg st i x t d r henv hd hcnt hx hstep
    have hst1 : d1.stableState ≤ 1 := by
      rcases hcase with ⟨_, h⟩ | ⟨_, _, h, _⟩
      · rw [h]; exact hst
      · rw [h]; exact hx
    obtain ⟨ha, hb, hc⟩ := ih r.state d1 rs1 hd1 hc1 hst1
      (fun p hp => hlev p (List.mem_cons_of_mem _ hp)) hrun1
    refine ⟨?_, ?_, ?_⟩
    · rcases hcase with ⟨hq, hs⟩ | ⟨hq, hne, hs, _⟩
      · rw [List.filterMap_cons_none hq, ← hs]
        exact ha
      · rw [List.filterMap_cons_some hq, List.length_cons]
        rw [hs] at ha
        rw [← alternating_flip _ x d.stableState hx hst hne, ← ha]
    · intro r1 hr1 d2 hd2
      rcases List.mem_cons.1 hr1 with h | h
      · subst h
        rw [hd1] at hd2
        cases hd2
        exact hc1
      · exact hb r1 h d2 hd2
    · intro k m rk rm hkm hk hm hcom hheld
      cases m with
      | zero => omega
      | succ m =>
        simp only [List.getElem?_cons_succ] at hm
        cases k with
        | zero =>
          simp only [List.getElem?_cons_zero, Option.some.injEq] at hk
          subst hk
          rcases hcase with ⟨hq, _⟩ | ⟨_, _, _, hge⟩
          · exact absurd hq hcom
          · exact runButton_held env cfg i x r.state d1 hd1 hb1 hge rest rs1 hrun1 m rm hm
              (fun j hj => by
                have := hheld (j + 1) (by omega) (by omega)
                simpa using this)
        | succ k =>
          simp only [List.getElem?_cons_succ] at hk
          exact hc k m rk rm (by omega) hk hm hcom (fun j hj1 hj2 => by
            have := hheld (j + 1) (by omega) (by omega)
            simpa using this)

/-- C26 (press/release alternation): starting from the state `initDebouncers`
leaves, for every sequence of binary raw samples fed to `handleButton` for one button
(the calls returning, the persistence layer leaving the debouncer table alone), the
committed transitions are press, release, press, ... beginning with a press; the
bounce counter never exceeds `DEFAULT_DEBOUNCING_TIME`; and after a commit no further
transition is committed as long as the samples keep the level of the committing
sample. -/
theorem C26_press_release_alternation (env : Collaborators) (cfg : Config) (s0 : State)
    (i : Nat) (samples : List (Nat × Nat)) (hi : i < s0.buttonDebouncers.length)
    (henv : ∀ k s, (env.readFromEEPROM k s).2.buttonDebouncers = s.buttonDebouncers)
    (hlev : ∀ p ∈ samples, p.1 = 0 ∨ p.1 = 1) :
    ∀ rs, runButton env cfg i (initDebouncers s0) samples = some rs →
      rs.filterMap (committed i) = alternating (rs.filterMap (committed i)).length 1 ∧
      (∀ r ∈ rs, ∀ d1, r.state.buttonDebouncers[i]? = some d1 →
        d1.bounceCount ≤ cfg.DEFAULT_DEBOUNCING_TIME) ∧
      (∀ k m rk rm, k < m → rs[k]? = some rk → rs[m]? = some rm →
        committed i rk ≠ none →
        (∀ j : Nat, k < j → j ≤ m → samples[j]?.map Prod.fst = samples[k]?.map Prod.fst) →
        committed i rm = none) := by
  intro rs hrun
  have hget : (initDebouncers s0).buttonDebouncers[i]?
      = some { s0.buttonDebouncers[i] with
          bounceState := 0, stableState := 0, bounceCount := 0, longPressed := 0 } := by
    simp [initDebouncers, hi]
  exact runButton_alternates env cfg i henv samples (initDebouncers s0) _ rs hget
    (Nat.zero_le _) (Nat.zero_le _)
    (fun p hp => by rcases hlev p hp with h | h <;> omega) hrun

set_option maxRecDepth 100000 in
/-- Witness of C26: button 1 of the default bindings with a threshold of 5 and the
samples 1 (seven times), 0 (seven times), 1 (seven times): a press, a release and a
press are committed. -/
theorem C26_press_release_alternation_witness :
    (∀ p ∈ toggleSamples, p.1 = 0 ∨ p.1 = 1) ∧
    (runButton demoEnv demoConfig 0 (initDebouncers demoState) toggleSamples).map
      (fun rs => rs.map (committed 0))
      = some (List.replicate 5 none ++ [some 1] ++ List.replicate 6 none ++ [some 0]
          ++ List.replicate 6 none ++ [some 1] ++ [none]) ∧
    ∀ rs, runButton demoEnv demoConfig 0 (initDebouncers demoState) toggleSamples = some rs →
      rs.filterMap (committed 0) = alternating (rs.filterMap (committed 0)).length 1 ∧
      (∀ r ∈ rs, ∀ d1, r.state.buttonDebouncers[0]? = some d1 →
        d1.bounceCount ≤ demoConfig.DEFAULT_DEBOUNCING_TIME) ∧
      (∀ k m rk rm, k < m → rs[k]? = some rk → rs[m]? = some rm →
        committed 0 rk ≠ none →
        (∀ j : Nat, k < j → j ≤ m →
          toggleSamples[j]?.map Prod.fst = toggleSamples[k]?.map Prod.fst) →
        committed 0 rm = none) :=
  ⟨by decide, by rfl,
    C26_press_release_alternation demoEnv demoConfig demoState 0 toggleSamples (by decide)
      (fun _ _ => rfl) (by decide)⟩

/-! ## Keystrings passed by a pointer into the arena -/

set_option maxRecDepth 100000 in
/-- C2 (frame of the keystring store), evaluated on the code: on the default store
the call `setButtonKeystring(0, buttonKeystrings[3])`, whose argument is the string
"KEY_LEFT " inside the arena, succeeds (it returns 440), but the source string has
been moved by `memmove` before `strcpy` reads it: slot 0 receives "EY_LEFT " and
slot 1 changes from "KEY_ENTER " to " KEY_ENTER ". -/
theorem C2_alias_frame :
    Holds demoConfig demoState defaultKeystrings ∧
    demoState.buttonKeystrings[3]? = some 23 ∧
    stringAt demoState.keystringBuffer 23 = some (bytesOf "KEY_LEFT ") ∧
    readKeystring demoState.keystringBuffer 1 = some (bytesOf "KEY_ENTER ") ∧
    (setButtonKeystring demoConfig demoState 0 (.arena 23)).map
      (fun x => (x.2, readKeystring x.1.keystringBuffer 0, readKeystring x.1.keystringBuffer 1))
      = some (440, some (bytesOf "EY_LEFT "), some (bytesOf " KEY_ENTER ")) := by
  refine ⟨demoState_holds, rfl, ?_, ?_, ?_⟩
  · rfl
  · rfl
  · rfl

set_option maxRecDepth 100000 in
/-- C6 (packing invariant), evaluated on the code: the default store with "A" in
slot 1 is well-formed; the call `setButtonKeystring(0, buttonKeystrings[1])`, whose
argument is that "A" at offset 11, succeeds (it returns 457) and leaves
`keystringBufferLen = 43`, while the 22 strings now occupy 44 bytes, the value
`initButtonKeystrings` recomputes: slot 0 holds "FT " and slot 1 is empty. -/
theorem C6_alias_packing :
    ∃ sA, setButtonKeystring demoConfig demoState 1 (.other (bytesOf "A")) = some (sA, 448) ∧
      Holds demoConfig sA (defaultKeystrings.set 1 (bytesOf "A")) ∧
      sA.buttonKeystrings[1]? = some 11 ∧
      (setButtonKeystring demoConfig sA 0 (.arena 11)).map
        (fun x => (x.2, x.1.slotSettings.keystringBufferLen,
          (initButtonKeystrings demoConfig x.1).map
            (fun (t : State) => t.slotSettings.keystringBufferLen),
          (List.range 4).map (readKeystring x.1.keystringBuffer)))
        = some (457, 43, some 44,
            [some (bytesOf "FT "), some [], some (bytesOf "KEY_LEFT "),
             some (bytesOf "KEY_RIGHT ")]) := by
  obtain ⟨sA, hset⟩ : ∃ sA, setButtonKeystring demoConfig demoState 1 (.other (bytesOf "A"))
      = some (sA, 448) := ⟨_, rfl⟩
  have hh := (setButtonKeystring_holds demoState_holds (by decide) (by decide) hset
    (by decide)).1
  refine ⟨sA, hset, hh, ?_, ?_⟩
  · have h2 : (setButtonKeystring demoConfig demoState 1 (.other (bytesOf "A"))).map
        (fun x => x.1.buttonKeystrings[1]?) = some (some 11) := by rfl
    rw [hset] at h2
    exact Option.some.inj h2
  · have h3 : (setButtonKeystring demoConfig demoState 1 (.other (bytesOf "A"))).bind
        (fun a => (setButtonKeystring demoConfig a.1 0 (.arena 11)).map
          (fun x => (x.2, x.1.slotSettings.keystringBufferLen,
            (initButtonKeystrings demoConfig x.1).map
              (fun (t : State) => t.slotSettings.keystringBufferLen),
            (List.range 4).map (readKeystring x.1.keystringBuffer))))
        = some (457, 43, some 44,
            [some (bytesOf "FT "), some [], some (bytesOf "KEY_LEFT "),
             some (bytesOf "KEY_RIGHT ")]) := by rfl
    rw [hset] at h3
    exact h3

set_option maxRecDepth 100000 in
/-- C7 (capacity bound), evaluated on the code: after `initButtonKeystrings` on the
all-zero arena, the four calls of `initButtons` and `setButtonKeystring(1, "A")`, the
call `setButtonKeystring(0, buttonKeystrings[1])` succeeds and leaves
`keystringBufferLen = 43` one short of the bytes in use; the next call,
`setButtonKeystring(21, "X")`, then computes `sourceAddress = 44`,
`bytesToMove = 65535` and `targetAddress = 45`, passes the test of line 75, and its
`memmove` writes up to index 65579 of the 500-byte arena (the call has no defined
result). -/
theorem C7_alias_capacity :
    demoConfig.NUMBER_OF_BUTTONS ≤ demoConfig.MAX_KEYSTRINGBUFFER_LEN - 2 ∧
    ∃ s1 s, initButtonKeystrings demoConfig (zeroState demoConfig) = some s1 ∧
      runCalls demoConfig s1 [(0, bytesOf "KEY_SPACE "), (1, bytesOf "KEY_ENTER "),
        (3, bytesOf "KEY_LEFT "), (4, bytesOf "KEY_RIGHT "), (1, bytesOf "A")] = some s ∧
      s.buttonKeystrings[1]? = some 11 ∧
      (setButtonKeystring demoConfig s 0 (.arena 11)).bind (fun x =>
        (keystringMove x.1 21 (.other (bytesOf "X"))).map (fun m =>
          (x.2, x.1.slotSettings.keystringBufferLen, m.sourceAddress, m.bytesToMove,
            m.targetAddress, decide (doesNotFit demoConfig x.1 m),
            m.targetAddress + m.bytesToMove - 1,
            (setButtonKeystring demoConfig x.1 21 (.other (bytesOf "X"))).isSome)))
        = some (457, 43, 44, 65535, 45, false, 65579, false) := by
  refine ⟨by decide, ?_⟩
  obtain ⟨s1, h1⟩ : ∃ s1, initButtonKeystrings demoConfig (zeroState demoConfig) = some s1 :=
    ⟨_, rfl⟩
  obtain ⟨s, h2⟩ : ∃ s, (initButtonKeystrings demoConfig (zeroState demoConfig)).bind
      (fun s1 => runCalls demoConfig s1 [(0, bytesOf "KEY_SPACE "), (1, bytesOf "KEY_ENTER "),
        (3, bytesOf "KEY_LEFT "), (4, bytesOf "KEY_RIGHT "), (1, bytesOf "A")]) = some s :=
    ⟨_, rfl⟩
  have h3 : ((initButtonKeystrings demoConfig (zeroState demoConfig)).bind
      (fun s1 => runCalls demoConfig s1 [(0, bytesOf "KEY_SPACE "), (1, bytesOf "KEY_ENTER "),
        (3, bytesOf "KEY_LEFT "), (4, bytesOf "KEY_RIGHT "), (1, bytesOf "A")])).map
      (fun s => (s.buttonKeystrings[1]?,
        (setButtonKeystring demoConfig s 0 (.arena 11)).bind (fun x =>
          (keystringMove x.1 21 (.other (bytesOf "X"))).map (fun m =>
            (x.2, x.1.slotSettings.keystringBufferLen, m.sourceAddress, m.bytesToMove,
              m.targetAddress, decide (doesNotFit demoConfig x.1 m),
              m.targetAddress + m.bytesToMove - 1,
              (setButtonKeystring demoConfig x.1 21 (.other (bytesOf "X"))).isSome)))))
      = some (some 11, some (457, 43, 44, 65535, 45, false, 65579, false)) := by rfl
  rw [h2] at h3
  rw [h1] at h2
  have h4 := Option.some.inj h3
  exact ⟨s1, s, h1, h2, congrArg Prod.fst h4, congrArg Prod.snd h4⟩

set_option maxRecDepth 100000 in
/-- C9 (programming-mode capture), evaluated on the code: with target 1 pending on
the default store, `performCommand(CMD_KP, 0, buttonKeystrings[3], 1)`, the call
`handlePress(3)` makes, emits nothing, stores mode `KP` for button 1 and clears the
target, but the keystring it stores is "EY_LEFT ", not the "KEY_LEFT " passed, and
slot 1 changes from "KEY_ENTER " to " KEY_ENTER ". -/
theorem C9_alias_capture :
    pendingFirst.actButton = 1 ∧
    Holds demoConfig pendingFirst defaultKeystrings ∧
    pendingFirst.buttons[3]? = some ⟨atCommands.CMD_KP.code, 0⟩ ∧
    pendingFirst.buttonKeystrings[3]? = some 23 ∧
    stringAt pendingFirst.keystringBuffer 23 = some (bytesOf "KEY_LEFT ") ∧
    readKeystring pendingFirst.keystringBuffer 1 = some (bytesOf "KEY_ENTER ") ∧
    (performCommand demoEnv demoConfig pendingFirst atCommands.CMD_KP.code 0 (.arena 23) 1).map
      (fun x => (x.2.length, x.1.buttons[0]?, x.1.actButton,
        readKeystring x.1.keystringBuffer 0, readKeystring x.1.keystringBuffer 1))
      = some (0, some ⟨atCommands.CMD_KP.code, 0⟩, 0, some (bytesOf "EY_LEFT "),
          some (bytesOf " KEY_ENTER ")) ∧
    (handlePress demoEnv demoConfig pendingFirst 3).map
      (fun x => (x.2.length, x.1.buttons[0]?, x.1.actButton,
        readKeystring x.1.keystringBuffer 0, readKeystring x.1.keystringBuffer 1))
      = some (0, some ⟨atCommands.CMD_KP.code, 0⟩, 0, some (bytesOf "EY_LEFT "),
          some (bytesOf " KEY_ENTER ")) := by
  refine ⟨rfl, demoState_holds.congr rfl rfl, rfl, rfl, ?_, ?_, ?_, ?_⟩
  · rfl
  · rfl
  · rfl
  · rfl

/-! ## The `uint8_t` counter of the macro loop -/

set_option maxRecDepth 100000 in
/-- C18 (macro splitting law), evaluated on the code: with `MAX_KEYSTRING_LEN = 300`
the text of 256 letters `A` followed by 10 letters `B` is a single piece of 266
characters, below `MAX_KEYSTRING_LEN - 1`, but the counter `len` is a `uint8_t` and
wraps to 0 after 256 characters: `parseCommand` is called once, with the ten letters
`B`. -/
theorem C18_len_wraps :
    wideConfig.MAX_KEYSTRING_LEN = 300 ∧
    (List.replicate 256 65 ++ List.replicate 10 66).length = 266 ∧
    endsInSeparator false (List.replicate 256 65 ++ List.replicate 10 66) = false ∧
    specSplit (List.replicate 256 65 ++ List.replicate 10 66)
      = [List.replicate 256 65 ++ List.replicate 10 66] ∧
    performCommand demoEnv wideConfig demoState atCommands.CMD_MA.code 0
        (.other (List.replicate 256 65 ++ List.replicate 10 66)) 0
      = some (demoState, [.parseCommand (List.replicate 10 66)]) := by
  refine ⟨rfl, rfl, ?_, ?_, ?_⟩
  · decide
  · decide
  · rfl

end FabiWare
